import Mathlib

/-!
# The DAQ writer of `lc2-hdf5-5110`: a shallow embedding of `daq_writer.cpp`

The writer streams shot-indexed synthetic data into per-channel extensible
datasets.  This file embeds the class `DaqWriter` (constructor, layout
builder, the three family write paths, the run loop, the flush controller and
the marker files) as state-passing Lean functions and proves properties of
them.

Conventions of the embedding:

* `int` is an `Int` kept in `[-2^31, 2^31)`; arithmetic that can leave the
  range is wrapped with `wrap32` (two's complement), `short(x)` is `wrap16`,
  `unsigned(x)` is `to_unsigned`.  `long` values (fiducials, dataset elements)
  stay far below `2^63` and are plain `Int`.
* Code that can fail returns `Except Fault _`: a thrown `std::runtime_error`,
  a division by zero, an access outside a buffer, and the deliberate endless
  loop of `writers_hang`.
* `std::map<int, V>` is an association list kept in key order.
* The clock is a parameter `clk`: `clk F f` is the elapsed time in
  nanoseconds that family `F` samples while writing fiducial `f`.
* The helpers of `ana_daq_util.h` (dataset handle and append primitives) are
  not part of the sources; they are modelled from the specification.
* Calls of the format library are taken to succeed; the one failure modelled
  is the one the specification gives for `create_1d_dataset` (a chunk length
  that is not positive).
-/

namespace DaqWriterModel

/-! ## Machine integers -/

/-- Two's complement wrap of an integer into the range of a 32-bit `int`. -/
def wrap32 (x : Int) : Int := (x + 2 ^ 31) % 2 ^ 32 - 2 ^ 31

/-- The conversion `short(x)`: the low 16 bits read as a signed value. -/
def wrap16 (x : Int) : Int := (x + 2 ^ 15) % 2 ^ 16 - 2 ^ 15

/-- The conversion `unsigned(x)` of an `int`. -/
def to_unsigned (x : Int) : Nat := (x % 2 ^ 32).toNat

/-- The values an `int` can hold. -/
def in_int (x : Int) : Prop := -(2 ^ 31) ≤ x ∧ x < 2 ^ 31

instance (x : Int) : Decidable (in_int x) := by unfold in_int; infer_instance

/-! ## Failure -/

/-- The ways a call can fail to return normally. -/
inductive Fault where
  /-- A `std::runtime_error` with its message, or a failed `CHECK_NONNEG`. -/
  | runtime_error (msg : String)
  /-- A container was asked for a negative (hence huge unsigned) size. -/
  | length_error
  /-- An integer division or remainder with divisor zero (or `INT_MIN % -1`). -/
  | div_by_zero
  /-- A read or write outside a buffer. -/
  | out_of_bounds
  /-- The call never returns (`while (true) {}`). -/
  | hang
  deriving DecidableEq, Repr

/-! ## `std::map<int, V>` -/

/-- A `std::map<int, V>`: key/value pairs, in ascending key order. -/
abbrev IntMap (V : Type) := List (Int × V)

/-- The lookup `m.find(k)`: `none` stands for `m.end()`. -/
def map_find {V : Type} : IntMap V → Int → Option V
  | [], _ => none
  | (k', v) :: t, k => if k' = k then some v else map_find t k

/-- The assignment `m[k] = v`: replaces the value of an existing key, inserts
a new key at its place in the order. -/
def map_insert {V : Type} : IntMap V → Int → V → IntMap V
  | [], k, v => [(k, v)]
  | (k', v') :: t, k, v =>
    if k < k' then (k, v) :: (k', v') :: t
    else if k = k' then (k, v) :: t
    else (k', v') :: map_insert t k v

/-- The value behind the reference `m[k]`: a missing key yields a
default-constructed value. -/
def map_at {V : Type} [Inhabited V] (m : IntMap V) (k : Int) : V :=
  (map_find m k).getD default

/-- The update through the reference `V & r = m[k]; r = f(r)`. -/
def map_modify {V : Type} [Inhabited V] (m : IntMap V) (k : Int) (f : V → V) : IntMap V :=
  map_insert m k (f (map_at m k))

/-! ## Formatted output -/

/-- The decimal digits of `n`, most significant first, none for `0`; the first
argument bounds the number of digits. -/
def dec_digits : Nat → Nat → List Char
  | 0, _ => []
  | fuel + 1, n => if n = 0 then [] else dec_digits fuel (n / 10) ++ [Nat.digitChar (n % 10)]

/-- The conversion `%W.Pd` of `sprintf` for an `int`: the decimal digits of the
magnitude, with leading zeros up to at least `prec` digits, a minus sign for a
negative value, and blanks on the left up to the field width. -/
def sprintf_d (width prec : Nat) (x : Int) : String :=
  let ds := dec_digits x.natAbs x.natAbs
  let body := List.replicate (prec - ds.length) '0' ++ ds
  let signed := if x < 0 then '-' :: body else body
  String.mk (List.replicate (width - signed.length) ' ' ++ signed)

/-! ## Configuration -/

/-- The record `DaqWriterConfig`. -/
structure DaqWriterConfig where
  verbose : Int
  rundir : String
  group : String
  id : Int
  num_shots : Int
  small_name_first : Int
  vlen_name_first : Int
  detector_name_first : Int
  small_name_count : Int
  vlen_name_count : Int
  detector_name_count : Int
  small_shot_first : Int
  vlen_shot_first : Int
  detector_shot_first : Int
  small_shot_stride : Int
  vlen_shot_stride : Int
  detector_shot_stride : Int
  small_chunksize : Int
  vlen_chunksize : Int
  detector_chunksize : Int
  vlen_min_per_shot : Int
  vlen_max_per_shot : Int
  detector_rows : Int
  detector_columns : Int
  flush_interval : Int
  writers_hang : Int

/-- The three data families. -/
inductive Family where
  | small
  | vlen
  | detector
  deriving DecidableEq, Repr

namespace DaqWriterConfig

/-- The field `F_name_first`. -/
def name_first (c : DaqWriterConfig) : Family → Int
  | .small => c.small_name_first
  | .vlen => c.vlen_name_first
  | .detector => c.detector_name_first

/-- The field `F_name_count`. -/
def name_count (c : DaqWriterConfig) : Family → Int
  | .small => c.small_name_count
  | .vlen => c.vlen_name_count
  | .detector => c.detector_name_count

/-- The field `F_shot_first`. -/
def shot_first (c : DaqWriterConfig) : Family → Int
  | .small => c.small_shot_first
  | .vlen => c.vlen_shot_first
  | .detector => c.detector_shot_first

/-- The field `F_shot_stride`. -/
def shot_stride (c : DaqWriterConfig) : Family → Int
  | .small => c.small_shot_stride
  | .vlen => c.vlen_shot_stride
  | .detector => c.detector_shot_stride

/-- Every `int` field holds an `int`, and `num_shots` a `long`: what the types
of the record say. -/
def wf (c : DaqWriterConfig) : Prop :=
  in_int c.verbose ∧ in_int c.id ∧
  (-(2 ^ 63) ≤ c.num_shots ∧ c.num_shots < 2 ^ 63) ∧
  (in_int c.small_name_first ∧ in_int c.vlen_name_first ∧ in_int c.detector_name_first) ∧
  (in_int c.small_name_count ∧ in_int c.vlen_name_count ∧ in_int c.detector_name_count) ∧
  (in_int c.small_shot_first ∧ in_int c.vlen_shot_first ∧ in_int c.detector_shot_first) ∧
  (in_int c.small_shot_stride ∧ in_int c.vlen_shot_stride ∧ in_int c.detector_shot_stride) ∧
  (in_int c.small_chunksize ∧ in_int c.vlen_chunksize ∧ in_int c.detector_chunksize) ∧
  (in_int c.vlen_min_per_shot ∧ in_int c.vlen_max_per_shot) ∧
  (in_int c.detector_rows ∧ in_int c.detector_columns) ∧
  in_int c.flush_interval ∧ in_int c.writers_hang

instance (c : DaqWriterConfig) : Decidable c.wf := by unfold wf; infer_instance

end DaqWriterConfig

/-! ## Dataset handles (`ana_daq_util.h`) -/

/-- An identifier of the format library: the path of the object below the
root of the file. -/
abbrev hid_t := List String

/-- The element types the writer uses. -/
inductive H5Type where
  | H5T_NATIVE_LONG
  | H5T_NATIVE_SHORT
  deriving DecidableEq, Repr

/-- The call `H5Gcreate2(parent, name, ...)`: the new group below `parent`. -/
def H5Gcreate2 (parent : hid_t) (name : String) : hid_t := parent ++ [name]

/-- Modelled from the spec: the dataset handle `DsetInfo` declared in
`ana_daq_util.h`, which is not among the sources.  It holds the identifier of
the dataset, its chunk shape and its element size; the current logical length
along the extensible axis is the length of the contents, kept here as the
elements of a 1D dataset (`elems`) and the planes of a 3D one (`frames`). -/
structure DsetInfo where
  dset_id : hid_t
  h5_type : H5Type
  type_size_bytes : Nat
  chunk : List Int
  elems : List Int
  frames : List (List Int)
  deriving Repr

instance : Inhabited DsetInfo := ⟨⟨[], .H5T_NATIVE_LONG, 0, [], [], []⟩⟩

/-- Modelled from the spec: `create_1d_dataset` of `ana_daq_util.h`, an
extensible 1D dataset with initial length 0 and a single chunk dimension of
`chunk_len`; it fails if `chunk_len ≤ 0`, and failure is fatal. -/
def create_1d_dataset (parent : hid_t) (name : String) (h5_type : H5Type)
    (chunk_len : Int) (type_size_bytes : Nat) : Except Fault DsetInfo :=
  if chunk_len ≤ 0 then .error (.runtime_error "create_1d_dataset")
  else .ok ⟨parent ++ [name], h5_type, type_size_bytes, [chunk_len], [], []⟩

/-- Modelled from the spec: `create_3d_dataset` of `ana_daq_util.h`, an
extensible 3D dataset with shape `(0, rows, cols)` and chunk
`(chunk_frames, rows, cols)`. -/
def create_3d_dataset (parent : hid_t) (name : String) (h5_type : H5Type)
    (rows cols chunk_frames : Int) (type_size_bytes : Nat) : DsetInfo :=
  ⟨parent ++ [name], h5_type, type_size_bytes, [chunk_frames, rows, cols], [], []⟩

/-- Modelled from the spec: `append_to_1d_dset` of `ana_daq_util.h` extends the
length by 1 and writes one element at the new tail. -/
def append_to_1d_dset (d : DsetInfo) (value : Int) : DsetInfo :=
  { d with elems := d.elems ++ [value] }

/-- Modelled from the spec: `append_many_to_1d_dset` of `ana_daq_util.h`
extends the length by `n`, writes the first `n` elements of the buffer starting
at the previous tail, and returns the previous tail.  Reading `n` elements from
a shorter buffer leaves the buffer. -/
def append_many_to_1d_dset (d : DsetInfo) (n : Int) (values : List Int) :
    Except Fault (Int × DsetInfo) :=
  if n < 0 ∨ (values.length : Int) < n then .error .out_of_bounds
  else .ok ((d.elems.length : Int), { d with elems := d.elems ++ values.take n.toNat })

/-- Modelled from the spec: `append_to_3d_dset` of `ana_daq_util.h` extends the
first dimension by 1 and writes one `rows × cols` plane, read from the buffer,
at the new tail.  Reading `rows * cols` elements from a shorter buffer leaves
the buffer. -/
def append_to_3d_dset (d : DsetInfo) (rows cols : Int) (frame : List Int) :
    Except Fault DsetInfo :=
  if rows < 0 ∨ cols < 0 ∨ (frame.length : Int) < rows * cols then .error .out_of_bounds
  else .ok { d with frames := d.frames ++ [frame.take (rows * cols).toNat] }

/-! ## The environment of the process -/

/-- What the process sees of its host: which files `fopen(path, "w")` can
create, the host name (`none` when `gethostname` fails), the process id, and
what has been written so far to files and to the standard error stream. -/
structure Env where
  can_create : String → Bool
  hostname : Option String
  pid : Int
  files : List (String × String)
  stderr : List String

/-- The calls of `run` that are observable from outside, in the order made. -/
inductive Event where
  | file_created (path : String)
  | swmr_started
  | write (fiducial : Int)
  | flush (fiducial : Int)
  | file_closed
  deriving DecidableEq, Repr

/-! ## The writer -/

/-- The state of a `DaqWriter`: its data members, and the log `m_events` of
the observable calls it has made. -/
structure DaqWriter where
  m_config : DaqWriterConfig
  m_basename : String
  m_fname_h5 : String
  m_fname_pid : String
  m_fname_finished : String
  m_fid : hid_t
  m_small_group : hid_t
  m_vlen_group : hid_t
  m_detector_group : hid_t
  m_small_id_to_number_group : IntMap hid_t
  m_vlen_id_to_number_group : IntMap hid_t
  m_detector_id_to_number_group : IntMap hid_t
  m_small_id_to_fiducials_dset : IntMap DsetInfo
  m_vlen_id_to_fiducials_dset : IntMap DsetInfo
  m_detector_id_to_fiducials_dset : IntMap DsetInfo
  m_small_id_to_nano_dset : IntMap DsetInfo
  m_vlen_id_to_nano_dset : IntMap DsetInfo
  m_detector_id_to_nano_dset : IntMap DsetInfo
  m_small_id_to_data_dset : IntMap DsetInfo
  m_vlen_id_to_blob_dset : IntMap DsetInfo
  m_detector_id_to_data_dset : IntMap DsetInfo
  m_vlen_id_to_blob_start_dset : IntMap DsetInfo
  m_vlen_id_to_blob_count_dset : IntMap DsetInfo
  m_next_small : Int
  m_next_vlen : Int
  m_next_detector : Int
  m_next_vlen_count : Int
  m_vlen_data : List Int
  m_detector_data : List Int
  m_events : List Event

/-- The ids a channel loop `for (int id = first; id < first + count; ++id)`
visits, in order. -/
def chan_ids (first count : Int) : List Int :=
  (List.range (wrap32 (first + count) - first).toNat).map (fun (i : Nat) => first + (i : Int))

namespace DaqWriter

/-- The member initialisers and assignments of the constructor
`DaqWriter::DaqWriter`, before it writes the pid file. -/
def init (c : DaqWriterConfig) : DaqWriter :=
  let basename := c.group ++ "-s" ++ sprintf_d 4 4 c.id
  { m_config := c
    m_basename := basename
    m_fname_h5 := c.rundir ++ "/hdf5/" ++ basename ++ ".h5"
    m_fname_pid := c.rundir ++ "/pids/" ++ basename ++ ".pid"
    m_fname_finished := c.rundir ++ "/logs/" ++ basename ++ ".finished"
    m_fid := []
    m_small_group := []
    m_vlen_group := []
    m_detector_group := []
    m_small_id_to_number_group := []
    m_vlen_id_to_number_group := []
    m_detector_id_to_number_group := []
    m_small_id_to_fiducials_dset := []
    m_vlen_id_to_fiducials_dset := []
    m_detector_id_to_fiducials_dset := []
    m_small_id_to_nano_dset := []
    m_vlen_id_to_nano_dset := []
    m_detector_id_to_nano_dset := []
    m_small_id_to_data_dset := []
    m_vlen_id_to_blob_dset := []
    m_detector_id_to_data_dset := []
    m_vlen_id_to_blob_start_dset := []
    m_vlen_id_to_blob_count_dset := []
    m_next_small := c.small_shot_first
    m_next_vlen := c.vlen_shot_first
    m_next_detector := c.detector_shot_first
    m_next_vlen_count := c.vlen_min_per_shot
    m_vlen_data := List.replicate c.vlen_max_per_shot.toNat 0
    m_detector_data := List.replicate (wrap32 (c.detector_columns * c.detector_rows)).toNat 0
    m_events := [] }

/-- The method `DaqWriter::write_pid_file`: the environment afterwards, and
whether the call returned or threw. -/
def write_pid_file (w : DaqWriter) (env : Env) : Env × Except Fault Unit :=
  let env1 : Env :=
    match env.hostname with
    | some _ => env
    | none => { env with stderr := env.stderr ++ ["DaqWriter: gethostname failed in write_pid_file"] }
  let hostname := env.hostname.getD "--unknown--"
  if env.can_create w.m_fname_pid then
    ({ env1 with
        files := env1.files ++
          [(w.m_fname_pid, "group=" ++ w.m_config.group ++ " idx=" ++ sprintf_d 0 1 w.m_config.id
              ++ " hostname=" ++ hostname ++ " pid=" ++ sprintf_d 0 1 env.pid ++ "\n")] },
      .ok ())
  else
    ({ env1 with stderr := env1.stderr ++ ["Could not create file: " ++ w.m_fname_pid] },
      .error (.runtime_error "FATAL - write_pid_file"))

/-- The constructor `DaqWriter::DaqWriter`: `resize` with a negative size
throws, and so does `write_pid_file` when the pid file cannot be created. -/
def ctor (c : DaqWriterConfig) (env : Env) : Env × Except Fault DaqWriter :=
  if c.vlen_max_per_shot < 0 ∨ wrap32 (c.detector_columns * c.detector_rows) < 0 then
    (env, .error .length_error)
  else
    match write_pid_file (init c) env with
    | (env1, .ok _) => (env1, .ok (init c))
    | (env1, .error e) => (env1, .error e)

/-- The destructor `DaqWriter::~DaqWriter`. -/
def dtor (w : DaqWriter) (env : Env) : Env :=
  if env.can_create w.m_fname_finished then
    { env with files := env.files ++ [(w.m_fname_finished, "done.\n")] }
  else
    { env with stderr := env.stderr ++ ["could not create finished file\n"] }

/-! ### The file layout builder -/

/-- The method `DaqWriter::create_file`. -/
def create_file (w : DaqWriter) : DaqWriter :=
  { w with m_fid := [], m_events := w.m_events ++ [.file_created w.m_fname_h5] }

/-- The loop of `DaqWriter::create_number_groups` over the ids still to visit. -/
def create_number_groups_loop (parent : hid_t) : List Int → IntMap hid_t → IntMap hid_t
  | [], name_to_group => name_to_group
  | name :: rest, name_to_group =>
    create_number_groups_loop parent rest
      (map_insert name_to_group name (H5Gcreate2 parent (sprintf_d 5 5 name)))

/-- The method `DaqWriter::create_number_groups`. -/
def create_number_groups (parent : hid_t) (name_to_group : IntMap hid_t) (first count : Int) :
    IntMap hid_t :=
  create_number_groups_loop parent (chan_ids first count) name_to_group

/-- The method `DaqWriter::create_small_dsets_helper`: the loop over the
entries of `id_to_parent` still to visit. -/
def create_small_dsets_helper (dset_name : String) (h5_type : H5Type) (type_size_bytes : Nat)
    (chunksize : Int) : IntMap hid_t → IntMap DsetInfo → Except Fault (IntMap DsetInfo)
  | [], id_to_dset => .ok id_to_dset
  | (group_id, h5_group) :: rest, id_to_dset =>
    if (map_find id_to_dset group_id).isSome then
      .error (.runtime_error "create_small_dsets_helper, id already in map")
    else
      match create_1d_dataset h5_group dset_name h5_type chunksize type_size_bytes with
      | .error e => .error e
      | .ok d =>
        create_small_dsets_helper dset_name h5_type type_size_bytes chunksize rest
          (map_insert id_to_dset group_id d)

/-- The method `DaqWriter::create_fiducials_dsets`. -/
def create_fiducials_dsets (w : DaqWriter) (id_to_number_group : IntMap hid_t)
    (id_to_dset : IntMap DsetInfo) : Except Fault (IntMap DsetInfo) :=
  create_small_dsets_helper "fiducials" .H5T_NATIVE_LONG 8 w.m_config.small_chunksize
    id_to_number_group id_to_dset

/-- The method `DaqWriter::create_nano_dsets`. -/
def create_nano_dsets (w : DaqWriter) (id_to_number_group : IntMap hid_t)
    (id_to_dset : IntMap DsetInfo) : Except Fault (IntMap DsetInfo) :=
  create_small_dsets_helper "nano" .H5T_NATIVE_LONG 8 w.m_config.small_chunksize
    id_to_number_group id_to_dset

/-- The method `DaqWriter::create_small_data_dsets`. -/
def create_small_data_dsets (w : DaqWriter) : Except Fault DaqWriter :=
  match create_small_dsets_helper "data" .H5T_NATIVE_LONG 8 w.m_config.small_chunksize
      w.m_small_id_to_number_group w.m_small_id_to_data_dset with
  | .error e => .error e
  | .ok m => .ok { w with m_small_id_to_data_dset := m }

/-- The loop of `DaqWriter::create_detector_data_dsets` over the entries of the
detector group map still to visit. -/
def create_detector_data_dsets_loop (c : DaqWriterConfig) :
    IntMap hid_t → IntMap DsetInfo → Except Fault (IntMap DsetInfo)
  | [], id_to_dset => .ok id_to_dset
  | (group_id, h5_group) :: rest, id_to_dset =>
    if (map_find id_to_dset group_id).isSome then
      .error (.runtime_error "create_detector_data_dsets, id already in map")
    else
      create_detector_data_dsets_loop c rest
        (map_insert id_to_dset group_id
          (create_3d_dataset h5_group "data" .H5T_NATIVE_SHORT c.detector_rows
            c.detector_columns c.detector_chunksize 2))

/-- The method `DaqWriter::create_detector_data_dsets`. -/
def create_detector_data_dsets (w : DaqWriter) : Except Fault DaqWriter :=
  match create_detector_data_dsets_loop w.m_config w.m_detector_id_to_number_group
      w.m_detector_id_to_data_dset with
  | .error e => .error e
  | .ok m => .ok { w with m_detector_id_to_data_dset := m }

/-- The method `DaqWriter::create_vlen_blob_and_index_dsets`. -/
def create_vlen_blob_and_index_dsets (w : DaqWriter) : Except Fault DaqWriter :=
  match create_small_dsets_helper "blob" .H5T_NATIVE_LONG 8 w.m_config.small_chunksize
      w.m_vlen_id_to_number_group w.m_vlen_id_to_blob_dset with
  | .error e => .error e
  | .ok blob =>
    match create_small_dsets_helper "blobstart" .H5T_NATIVE_LONG 8 w.m_config.small_chunksize
        w.m_vlen_id_to_number_group w.m_vlen_id_to_blob_start_dset with
    | .error e => .error e
    | .ok blobstart =>
      match create_small_dsets_helper "blobcount" .H5T_NATIVE_LONG 8 w.m_config.small_chunksize
          w.m_vlen_id_to_number_group w.m_vlen_id_to_blob_count_dset with
      | .error e => .error e
      | .ok blobcount =>
        .ok { w with
              m_vlen_id_to_blob_dset := blob
              m_vlen_id_to_blob_start_dset := blobstart
              m_vlen_id_to_blob_count_dset := blobcount }

/-- First part of `DaqWriter::create_all_groups_datasets_and_attributes`: the
three family groups and their channel subgroups. -/
def create_groups (w : DaqWriter) : DaqWriter :=
  let small_group := H5Gcreate2 w.m_fid "small"
  let vlen_group := H5Gcreate2 w.m_fid "vlen"
  let detector_group := H5Gcreate2 w.m_fid "detctor"
  { w with
    m_small_group := small_group
    m_vlen_group := vlen_group
    m_detector_group := detector_group
    m_small_id_to_number_group :=
      create_number_groups small_group w.m_small_id_to_number_group
        w.m_config.small_name_first w.m_config.small_name_count
    m_vlen_id_to_number_group :=
      create_number_groups vlen_group w.m_vlen_id_to_number_group
        w.m_config.vlen_name_first w.m_config.vlen_name_count
    m_detector_id_to_number_group :=
      create_number_groups detector_group w.m_detector_id_to_number_group
        w.m_config.detector_name_first w.m_config.detector_name_count }

/-- Second part of `DaqWriter::create_all_groups_datasets_and_attributes`: the
`fiducials` and `nano` datasets of the three families. -/
def create_index_dsets (w : DaqWriter) : Except Fault DaqWriter :=
  match w.create_fiducials_dsets w.m_small_id_to_number_group w.m_small_id_to_fiducials_dset with
  | .error e => .error e
  | .ok sf =>
  match w.create_fiducials_dsets w.m_vlen_id_to_number_group w.m_vlen_id_to_fiducials_dset with
  | .error e => .error e
  | .ok vf =>
  match w.create_fiducials_dsets w.m_detector_id_to_number_group
      w.m_detector_id_to_fiducials_dset with
  | .error e => .error e
  | .ok df =>
  match w.create_nano_dsets w.m_small_id_to_number_group w.m_small_id_to_nano_dset with
  | .error e => .error e
  | .ok sn =>
  match w.create_nano_dsets w.m_vlen_id_to_number_group w.m_vlen_id_to_nano_dset with
  | .error e => .error e
  | .ok vn =>
  match w.create_nano_dsets w.m_detector_id_to_number_group w.m_detector_id_to_nano_dset with
  | .error e => .error e
  | .ok dn =>
    .ok { w with
          m_small_id_to_fiducials_dset := sf
          m_vlen_id_to_fiducials_dset := vf
          m_detector_id_to_fiducials_dset := df
          m_small_id_to_nano_dset := sn
          m_vlen_id_to_nano_dset := vn
          m_detector_id_to_nano_dset := dn }

/-- The method `DaqWriter::create_all_groups_datasets_and_attributes`. -/
def create_all_groups_datasets_and_attributes (w : DaqWriter) : Except Fault DaqWriter :=
  match create_index_dsets (create_groups w) with
  | .error e => .error e
  | .ok w1 =>
    match create_small_data_dsets w1 with
    | .error e => .error e
    | .ok w2 =>
      match create_detector_data_dsets w2 with
      | .error e => .error e
      | .ok w3 => create_vlen_blob_and_index_dsets w3

/-- The method `DaqWriter::start_SWMR_access_to_file`. -/
def start_SWMR_access_to_file (w : DaqWriter) : DaqWriter :=
  { w with m_events := w.m_events ++ [.swmr_started] }

/-! ### The write engine -/

/-- The body of the channel loop of `DaqWriter::write_small`. -/
def write_small_chan (fiducial nano : Int) (w : DaqWriter) (small_id : Int) : DaqWriter :=
  { w with
    m_small_id_to_fiducials_dset :=
      map_modify w.m_small_id_to_fiducials_dset small_id (fun d => append_to_1d_dset d fiducial)
    m_small_id_to_nano_dset :=
      map_modify w.m_small_id_to_nano_dset small_id (fun d => append_to_1d_dset d nano)
    m_small_id_to_data_dset :=
      map_modify w.m_small_id_to_data_dset small_id (fun d => append_to_1d_dset d fiducial) }

/-- The method `DaqWriter::write_small`. -/
def write_small (w : DaqWriter) (clk : Family → Int → Int) (fiducial : Int) : DaqWriter :=
  if fiducial = w.m_next_small then
    let w1 := { w with
      m_next_small := wrap32 (w.m_next_small + max 1 w.m_config.small_shot_stride) }
    (chan_ids w.m_config.small_name_first w.m_config.small_name_count).foldl
      (write_small_chan fiducial (clk .small fiducial)) w1
  else w

/-- The body of the channel loop of `DaqWriter::write_vlen`. -/
def write_vlen_chan (fiducial nano : Int) (w : DaqWriter) (vlen_id : Int) :
    Except Fault DaqWriter :=
  match append_many_to_1d_dset (map_at w.m_vlen_id_to_blob_dset vlen_id) w.m_next_vlen_count
      w.m_vlen_data with
  | .error e => .error e
  | .ok (start_idx, blob) =>
    .ok { w with
          m_vlen_id_to_fiducials_dset :=
            map_modify w.m_vlen_id_to_fiducials_dset vlen_id
              (fun d => append_to_1d_dset d fiducial)
          m_vlen_id_to_nano_dset :=
            map_modify w.m_vlen_id_to_nano_dset vlen_id (fun d => append_to_1d_dset d nano)
          m_vlen_id_to_blob_dset := map_insert w.m_vlen_id_to_blob_dset vlen_id blob
          m_vlen_id_to_blob_start_dset :=
            map_modify w.m_vlen_id_to_blob_start_dset vlen_id
              (fun d => append_to_1d_dset d start_idx)
          m_vlen_id_to_blob_count_dset :=
            map_modify w.m_vlen_id_to_blob_count_dset vlen_id
              (fun d => append_to_1d_dset d w.m_next_vlen_count) }

/-- The channel loop of `DaqWriter::write_vlen` over the ids still to visit. -/
def write_vlen_chans (fiducial nano : Int) : List Int → DaqWriter → Except Fault DaqWriter
  | [], w => .ok w
  | vlen_id :: rest, w =>
    match write_vlen_chan fiducial nano w vlen_id with
    | .error e => .error e
    | .ok w1 => write_vlen_chans fiducial nano rest w1

/-- The method `DaqWriter::write_vlen`. -/
def write_vlen (w : DaqWriter) (clk : Family → Int → Int) (fiducial : Int) :
    Except Fault DaqWriter :=
  if fiducial = w.m_next_vlen then
    let next_vlen := wrap32 (w.m_next_vlen + max 1 w.m_config.vlen_shot_stride)
    let count1 := wrap32 (w.m_next_vlen_count + 1)
    if w.m_config.vlen_max_per_shot = 0 ∨
        (count1 = -(2 ^ 31) ∧ w.m_config.vlen_max_per_shot = -1) then
      .error .div_by_zero
    else
      let count := max w.m_config.vlen_min_per_shot (Int.tmod count1 w.m_config.vlen_max_per_shot)
      if w.m_vlen_data.length < to_unsigned count then .error .out_of_bounds
      else
        let data := (List.range (to_unsigned count)).foldl
          (fun buf idx => buf.set idx fiducial) w.m_vlen_data
        write_vlen_chans fiducial (clk .vlen fiducial)
          (chan_ids w.m_config.vlen_name_first w.m_config.vlen_name_count)
          { w with m_next_vlen := next_vlen, m_next_vlen_count := count, m_vlen_data := data }
  else .ok w

/-- The body of the channel loop of `DaqWriter::write_detector`. -/
def write_detector_chan (fiducial nano : Int) (w : DaqWriter) (detector_id : Int) :
    Except Fault DaqWriter :=
  match append_to_3d_dset (map_at w.m_detector_id_to_data_dset detector_id)
      w.m_config.detector_rows w.m_config.detector_columns w.m_detector_data with
  | .error e => .error e
  | .ok data =>
    .ok { w with
          m_detector_id_to_fiducials_dset :=
            map_modify w.m_detector_id_to_fiducials_dset detector_id
              (fun d => append_to_1d_dset d fiducial)
          m_detector_id_to_nano_dset :=
            map_modify w.m_detector_id_to_nano_dset detector_id
              (fun d => append_to_1d_dset d nano)
          m_detector_id_to_data_dset := map_insert w.m_detector_id_to_data_dset detector_id data }

/-- The channel loop of `DaqWriter::write_detector` over the ids still to
visit. -/
def write_detector_chans (fiducial nano : Int) : List Int → DaqWriter → Except Fault DaqWriter
  | [], w => .ok w
  | detector_id :: rest, w =>
    match write_detector_chan fiducial nano w detector_id with
    | .error e => .error e
    | .ok w1 => write_detector_chans fiducial nano rest w1

/-- The method `DaqWriter::write_detector`. -/
def write_detector (w : DaqWriter) (clk : Family → Int → Int) (fiducial : Int) :
    Except Fault DaqWriter :=
  if fiducial = w.m_next_detector then
    write_detector_chans fiducial (clk .detector fiducial)
      (chan_ids w.m_config.detector_name_first w.m_config.detector_name_count)
      { w with
        m_next_detector := wrap32 (w.m_next_detector + max 1 w.m_config.detector_shot_stride)
        m_detector_data := w.m_detector_data.map (fun _ => wrap16 fiducial) }
  else .ok w

/-- The method `DaqWriter::write`. -/
def write (w : DaqWriter) (clk : Family → Int → Int) (fiducial : Int) : Except Fault DaqWriter :=
  match write_vlen (write_small { w with m_events := w.m_events ++ [.write fiducial] }
      clk fiducial) clk fiducial with
  | .error e => .error e
  | .ok w1 => write_detector w1 clk fiducial

/-! ### The durability controller and the run loop -/

/-- The method `DaqWriter::flush_data`: `H5Dflush` on every leaf dataset, which
leaves the handles and the contents as they are. -/
def flush_data (w : DaqWriter) (fiducial : Int) : DaqWriter :=
  { w with m_events := w.m_events ++ [.flush fiducial] }

/-- The body of the loop of `DaqWriter::run` for one fiducial. -/
def run_step (w : DaqWriter) (clk : Family → Int → Int) (fiducial : Int) :
    Except Fault DaqWriter :=
  match w.write clk fiducial with
  | .error e => .error e
  | .ok w1 =>
    if 0 < fiducial then
      if w1.m_config.flush_interval = 0 then .error .div_by_zero
      else if 0 = Int.tmod fiducial w1.m_config.flush_interval then .ok (w1.flush_data fiducial)
      else .ok w1
    else .ok w1

/-- The first `n` iterations of the loop of `DaqWriter::run`, for the fiducials
`0, 1, ..., n - 1`. -/
def run_loop (w : DaqWriter) (clk : Family → Int → Int) : Nat → Except Fault DaqWriter
  | 0 => .ok w
  | n + 1 =>
    match run_loop w clk n with
    | .error e => .error e
    | .ok w1 => run_step w1 clk (n : Int)

/-- The method `DaqWriter::run` up to and including the first `n` iterations of
its loop: file creation, layout, SWMR start, and the writes and flushes of the
fiducials `0, ..., n - 1`. -/
def run_upto (w : DaqWriter) (clk : Family → Int → Int) (n : Nat) : Except Fault DaqWriter :=
  match create_all_groups_datasets_and_attributes (create_file w) with
  | .error e => .error e
  | .ok w1 => run_loop (start_SWMR_access_to_file w1) clk n

/-- The method `DaqWriter::run`: the loop runs for the fiducials
`0, ..., num_shots - 1`; then the writer hangs if asked to, and closes the file
otherwise. -/
def run (w : DaqWriter) (clk : Family → Int → Int) : Except Fault DaqWriter :=
  match run_upto w clk w.m_config.num_shots.toNat with
  | .error e => .error e
  | .ok w2 =>
    if w2.m_config.writers_hang ≠ 0 then .error .hang
    else .ok { w2 with m_events := w2.m_events ++ [.file_closed] }

/-- The writer's part of `main`: construct the writer, run it, destroy it.  The
destructor also runs when `run` throws an exception, which `main` catches and
rethrows.  It does not run when `run` hangs, nor when `run` divides by zero or
leaves a buffer: these are signals that end the process, not exceptions. -/
def daq_main (c : DaqWriterConfig) (env : Env) (clk : Family → Int → Int) :
    Env × Except Fault Unit :=
  match ctor c env with
  | (env1, .error e) => (env1, .error e)
  | (env1, .ok w) =>
    match w.run clk with
    | .error .hang => (env1, .error .hang)
    | .error .div_by_zero => (env1, .error .div_by_zero)
    | .error .out_of_bounds => (env1, .error .out_of_bounds)
    | .error e => (dtor w env1, .error e)
    | .ok w1 => (dtor w1 env1, .ok ())

end DaqWriter

/-! ## Definitions used by the statements and proofs -/

/-- The keys of a map, in its order. -/
def map_keys {V : Type} (m : IntMap V) : List Int := m.map Prod.fst


/-- The contents of the 1D dataset of channel `id`, when the map has one. -/
def elems_at (m : IntMap DsetInfo) (id : Int) : Option (List Int) :=
  (map_find m id).map (fun d => d.elems)

/-- The planes of the 3D dataset of channel `id`, when the map has one. -/
def frames_at (m : IntMap DsetInfo) (id : Int) : Option (List (List Int)) :=
  (map_find m id).map (fun d => d.frames)

/-- The cursor `m_next_F` of a family with the given `F_shot_first` and
`F_shot_stride` after the fiducials `0, ..., n - 1`: it moves when the fiducial
equals it. -/
def sched_cursor (first stride : Int) : Nat → Int
  | 0 => first
  | n + 1 =>
    if (n : Int) = sched_cursor first stride n then
      wrap32 (sched_cursor first stride n + max 1 stride)
    else sched_cursor first stride n

/-- The fiducials among `0, ..., n - 1` at which the family participates, in
order. -/
def sched_parts (first stride : Int) : Nat → List Int
  | 0 => []
  | n + 1 =>
    if (n : Int) = sched_cursor first stride n then sched_parts first stride n ++ [(n : Int)]
    else sched_parts first stride n

/-- The value of `m_next_vlen_count` after `k` participating vlen writes. -/
def vlen_count (vmin vmax : Int) : Nat → Int
  | 0 => vmin
  | k + 1 => max vmin (Int.tmod (wrap32 (vlen_count vmin vmax k + 1)) vmax)

namespace DaqWriter

/-- The members of the writer that belong to the small family. -/
def small_view (w : DaqWriter) : Int × IntMap DsetInfo × IntMap DsetInfo × IntMap DsetInfo :=
  (w.m_next_small, w.m_small_id_to_fiducials_dset, w.m_small_id_to_nano_dset,
    w.m_small_id_to_data_dset)

/-- The members of the writer that belong to the vlen family. -/
def vlen_view (w : DaqWriter) :
    (Int × Int × List Int) × IntMap DsetInfo × IntMap DsetInfo × IntMap DsetInfo ×
      IntMap DsetInfo × IntMap DsetInfo :=
  ((w.m_next_vlen, w.m_next_vlen_count, w.m_vlen_data), w.m_vlen_id_to_fiducials_dset,
    w.m_vlen_id_to_nano_dset, w.m_vlen_id_to_blob_dset, w.m_vlen_id_to_blob_start_dset,
    w.m_vlen_id_to_blob_count_dset)

/-- The members of the writer that belong to the detector family. -/
def detector_view (w : DaqWriter) :
    (Int × List Int) × IntMap DsetInfo × IntMap DsetInfo × IntMap DsetInfo :=
  ((w.m_next_detector, w.m_detector_data), w.m_detector_id_to_fiducials_dset,
    w.m_detector_id_to_nano_dset, w.m_detector_id_to_data_dset)

/-- The `fiducials` datasets of a family, by channel id. -/
def fiducials_dset (w : DaqWriter) : Family → IntMap DsetInfo
  | .small => w.m_small_id_to_fiducials_dset
  | .vlen => w.m_vlen_id_to_fiducials_dset
  | .detector => w.m_detector_id_to_fiducials_dset

end DaqWriter

namespace DaqWriter

/-- What the body of the vlen channel loop does when the count is within the
buffer: the state `write_vlen_chan` returns then. -/
def write_vlen_chan_ok (fiducial nano count : Int) (buf : List Int) (w : DaqWriter)
    (vlen_id : Int) : DaqWriter :=
  { w with
    m_vlen_id_to_fiducials_dset :=
      map_modify w.m_vlen_id_to_fiducials_dset vlen_id (fun d => append_to_1d_dset d fiducial)
    m_vlen_id_to_nano_dset :=
      map_modify w.m_vlen_id_to_nano_dset vlen_id (fun d => append_to_1d_dset d nano)
    m_vlen_id_to_blob_dset :=
      map_modify w.m_vlen_id_to_blob_dset vlen_id
        (fun d => { d with elems := d.elems ++ buf.take count.toNat })
    m_vlen_id_to_blob_start_dset :=
      map_modify w.m_vlen_id_to_blob_start_dset vlen_id
        (fun d => append_to_1d_dset d ((map_at w.m_vlen_id_to_blob_dset vlen_id).elems.length : Int))
    m_vlen_id_to_blob_count_dset :=
      map_modify w.m_vlen_id_to_blob_count_dset vlen_id (fun d => append_to_1d_dset d count) }

/-- What the body of the detector channel loop does when the frame is within
the buffer: the state `write_detector_chan` returns then. -/
def write_detector_chan_ok (fiducial nano : Int) (frame : List Int) (w : DaqWriter)
    (detector_id : Int) : DaqWriter :=
  { w with
    m_detector_id_to_fiducials_dset :=
      map_modify w.m_detector_id_to_fiducials_dset detector_id
        (fun d => append_to_1d_dset d fiducial)
    m_detector_id_to_nano_dset :=
      map_modify w.m_detector_id_to_nano_dset detector_id (fun d => append_to_1d_dset d nano)
    m_detector_id_to_data_dset :=
      map_modify w.m_detector_id_to_data_dset detector_id
        (fun d => { d with frames := d.frames ++ [frame] }) }

end DaqWriter

/-- The update of `m_next_vlen_count` in a participating vlen write: increment,
remainder by `vlen_max_per_shot`, clamp from below by `vlen_min_per_shot`. -/
def next_count (vmin vmax c : Int) : Int := max vmin (Int.tmod (wrap32 (c + 1)) vmax)

/-- The contents of the `blob`, `blobstart` and `blobcount` datasets of a vlen
channel. -/
structure VlenFile where
  blob : List Int
  blobstart : List Int
  blobcount : List Int

/-- The contents of the three vlen payload datasets of a channel after the
fiducials `0, ..., n - 1`. -/
def vlen_file (c : DaqWriterConfig) : Nat → VlenFile
  | 0 => ⟨[], [], []⟩
  | n + 1 =>
    if (n : Int) = sched_cursor c.vlen_shot_first c.vlen_shot_stride n then
      ⟨(vlen_file c n).blob ++
          List.replicate (vlen_count c.vlen_min_per_shot c.vlen_max_per_shot
            ((sched_parts c.vlen_shot_first c.vlen_shot_stride n).length + 1)).toNat (n : Int),
        (vlen_file c n).blobstart ++ [((vlen_file c n).blob.length : Int)],
        (vlen_file c n).blobcount ++
          [vlen_count c.vlen_min_per_shot c.vlen_max_per_shot
            ((sched_parts c.vlen_shot_first c.vlen_shot_stride n).length + 1)]⟩
    else vlen_file c n

/-- The calls the loop of `run` logs for the fiducials `0, ..., n - 1`. -/
def loop_events (flush_interval : Int) : Nat → List Event
  | 0 => []
  | n + 1 =>
    loop_events flush_interval n ++ [.write (n : Int)] ++
      (if 0 < (n : Int) ∧ 0 = Int.tmod (n : Int) flush_interval then [.flush (n : Int)] else [])

/-- The state of the writer after `n` iterations of the loop of `run` started
with empty datasets: configuration, cursors and the contents of every dataset
of every channel. -/
structure LoopInv (c : DaqWriterConfig) (clk : Family → Int → Int)
    (n : Nat) (w : DaqWriter) : Prop where
  config : w.m_config = c
  vlen_data : w.m_vlen_data.length = c.vlen_max_per_shot.toNat
  detector_data :
    w.m_detector_data.length = (wrap32 (c.detector_columns * c.detector_rows)).toNat
  count_nonneg : ∀ x ∈ (vlen_file c n).blobcount, 0 ≤ x
  next_small : w.m_next_small = sched_cursor c.small_shot_first c.small_shot_stride n
  next_vlen : w.m_next_vlen = sched_cursor c.vlen_shot_first c.vlen_shot_stride n
  next_detector :
    w.m_next_detector = sched_cursor c.detector_shot_first c.detector_shot_stride n
  next_vlen_count :
    w.m_next_vlen_count = vlen_count c.vlen_min_per_shot c.vlen_max_per_shot
      (sched_parts c.vlen_shot_first c.vlen_shot_stride n).length
  small : ∀ id ∈ chan_ids c.small_name_first c.small_name_count,
    elems_at w.m_small_id_to_fiducials_dset id
      = some (sched_parts c.small_shot_first c.small_shot_stride n) ∧
    elems_at w.m_small_id_to_nano_dset id
      = some ((sched_parts c.small_shot_first c.small_shot_stride n).map (clk .small)) ∧
    elems_at w.m_small_id_to_data_dset id
      = some (sched_parts c.small_shot_first c.small_shot_stride n)
  vlen : ∀ id ∈ chan_ids c.vlen_name_first c.vlen_name_count,
    elems_at w.m_vlen_id_to_fiducials_dset id
      = some (sched_parts c.vlen_shot_first c.vlen_shot_stride n) ∧
    elems_at w.m_vlen_id_to_nano_dset id
      = some ((sched_parts c.vlen_shot_first c.vlen_shot_stride n).map (clk .vlen)) ∧
    elems_at w.m_vlen_id_to_blob_dset id = some (vlen_file c n).blob ∧
    elems_at w.m_vlen_id_to_blob_start_dset id = some (vlen_file c n).blobstart ∧
    elems_at w.m_vlen_id_to_blob_count_dset id = some (vlen_file c n).blobcount
  detector : ∀ id ∈ chan_ids c.detector_name_first c.detector_name_count,
    elems_at w.m_detector_id_to_fiducials_dset id
      = some (sched_parts c.detector_shot_first c.detector_shot_stride n) ∧
    elems_at w.m_detector_id_to_nano_dset id
      = some ((sched_parts c.detector_shot_first c.detector_shot_stride n).map (clk .detector)) ∧
    frames_at w.m_detector_id_to_data_dset id
      = some ((sched_parts c.detector_shot_first c.detector_shot_stride n).map
          (fun f => List.replicate (c.detector_rows * c.detector_columns).toNat (wrap16 f)))

/-- A configuration the writer is meant for: the fields fit their types, the
vlen bounds satisfy `0 ≤ min < max`, the flush interval and the chunk length of
the 1D datasets are positive, and the frame dimensions are not negative and
their product fits an `int`. -/
def DaqWriterConfig.valid (c : DaqWriterConfig) : Prop :=
  c.wf ∧ (0 ≤ c.vlen_min_per_shot ∧ c.vlen_min_per_shot < c.vlen_max_per_shot) ∧
  0 < c.flush_interval ∧ 0 < c.small_chunksize ∧
  (0 ≤ c.detector_rows ∧ 0 ≤ c.detector_columns ∧
    c.detector_rows * c.detector_columns < 2 ^ 31)

instance (c : DaqWriterConfig) : Decidable c.valid := by
  unfold DaqWriterConfig.valid; infer_instance

/-- The value a string of decimal digits denotes. -/
def dec_value (l : List Char) : Nat := l.foldl (fun acc ch => acc * 10 + (ch.toNat - 48)) 0

/-- The fiducials flushed, in the order of the flushes. -/
def flushed (ev : List Event) : List Int :=
  ev.filterMap (fun e => match e with | .flush f => some f | _ => none)

/-! ## Sample inputs -/

/-- A sample configuration: six shots, three small channels written every
second shot, one vlen channel with counts between 2 and 4 (scenario S3 of the
specification), one detector channel of 2 x 3 frames starting at shot 1 with a
stride of 0. -/
def sample_config : DaqWriterConfig :=
  { verbose := 0, rundir := "run", group := "daq", id := 3, num_shots := 6,
    small_name_first := 7, vlen_name_first := 0, detector_name_first := 0,
    small_name_count := 3, vlen_name_count := 1, detector_name_count := 1,
    small_shot_first := 0, vlen_shot_first := 0, detector_shot_first := 1,
    small_shot_stride := 2, vlen_shot_stride := 1, detector_shot_stride := 0,
    small_chunksize := 2, vlen_chunksize := 3, detector_chunksize := 2,
    vlen_min_per_shot := 2, vlen_max_per_shot := 4,
    detector_rows := 2, detector_columns := 3, flush_interval := 4, writers_hang := 0 }

/-- A sample clock. -/
def sample_clock : Family → Int → Int := fun _ f => 1000 * f + 7

/-- The writer after the run on the sample configuration. -/
def sample_run : DaqWriter :=
  match (DaqWriter.init sample_config).run sample_clock with
  | .ok w => w
  | .error _ => DaqWriter.init sample_config

/-- The writer at the end of the loop of the run on the sample configuration. -/
def sample_loop : DaqWriter :=
  match (DaqWriter.init sample_config).run_upto sample_clock sample_config.num_shots.toNat with
  | .ok w => w
  | .error _ => DaqWriter.init sample_config

/-- The writer after the first four iterations of the run on the sample
configuration. -/
def sample_upto : DaqWriter :=
  match (DaqWriter.init sample_config).run_upto sample_clock 4 with
  | .ok w => w
  | .error _ => DaqWriter.init sample_config

/-- The sample configuration with the small family starting at shot -1, a
stride of 1 and four shots. -/
def negative_first_config : DaqWriterConfig :=
  { sample_config with small_shot_first := -1, small_shot_stride := 1, num_shots := 4 }

/-- The writer after the run on `negative_first_config`. -/
def negative_first_run : DaqWriter :=
  match (DaqWriter.init negative_first_config).run sample_clock with
  | .ok w => w
  | .error _ => DaqWriter.init negative_first_config

/-- The sample configuration with ten shots; its flush interval is 4 (scenario
S5 of the specification). -/
def flush_config : DaqWriterConfig := { sample_config with num_shots := 10 }

/-- The writer after the run on `flush_config`. -/
def flush_run : DaqWriter :=
  match (DaqWriter.init flush_config).run sample_clock with
  | .ok w => w
  | .error _ => DaqWriter.init flush_config

/-- A host on which no file can be created. -/
def no_files_env : Env :=
  { can_create := fun _ => false, hostname := some "host", pid := 42, files := [], stderr := [] }

/-- A host on which only the pid file of the sample writer can be created. -/
def pid_only_env : Env :=
  { can_create := fun path => decide (path = "run/pids/daq-s0003.pid"), hostname := none,
    pid := 42, files := [], stderr := [] }

/-- A host on which every file can be created. -/
def all_files_env : Env :=
  { can_create := fun _ => true, hostname := some "host", pid := 42, files := [], stderr := [] }

/-- The sample configuration with writer id 4 instead of 3. -/
def second_writer_config : DaqWriterConfig := { sample_config with id := 4 }

/-- The writer after the layout builder on the sample configuration, whose
`small_chunksize` is 2 and whose `vlen_chunksize` is 3. -/
def sample_layout : DaqWriter :=
  match DaqWriter.create_all_groups_datasets_and_attributes
      (DaqWriter.create_file (DaqWriter.init sample_config)) with
  | .ok w => w
  | .error _ => DaqWriter.init sample_config

/-- The state in which `DaqWriter::write` calls `write_vlen` for a fiducial:
the call is logged and `write_small` has run. -/
def DaqWriter.at_write_vlen (w : DaqWriter) (clk : Family → Int → Int) (fiducial : Int) :
    DaqWriter :=
  DaqWriter.write_small { w with m_events := w.m_events ++ [.write fiducial] } clk fiducial

/-- The cursor `m_next_F` of a family. -/
def DaqWriter.next_shot (w : DaqWriter) : Family → Int
  | .small => w.m_next_small
  | .vlen => w.m_next_vlen
  | .detector => w.m_next_detector

/-- The number of items in each dataset of channel `id` of a family, in the
order of creation: elements for the 1D datasets, planes for the detector `data`
dataset; `none` stands for a dataset the writer does not have. -/
def DaqWriter.leaf_lengths (w : DaqWriter) (F : Family) (id : Int) : List (Option Nat) :=
  match F with
  | .small =>
    [(elems_at w.m_small_id_to_fiducials_dset id).map List.length,
      (elems_at w.m_small_id_to_nano_dset id).map List.length,
      (elems_at w.m_small_id_to_data_dset id).map List.length]
  | .vlen =>
    [(elems_at w.m_vlen_id_to_fiducials_dset id).map List.length,
      (elems_at w.m_vlen_id_to_nano_dset id).map List.length,
      (elems_at w.m_vlen_id_to_blob_dset id).map List.length,
      (elems_at w.m_vlen_id_to_blob_start_dset id).map List.length,
      (elems_at w.m_vlen_id_to_blob_count_dset id).map List.length]
  | .detector =>
    [(elems_at w.m_detector_id_to_fiducials_dset id).map List.length,
      (elems_at w.m_detector_id_to_nano_dset id).map List.length,
      (frames_at w.m_detector_id_to_data_dset id).map List.length]

/-- The writer after the four iterations of the run on `negative_first_config`. -/
def negative_first_upto : DaqWriter :=
  match (DaqWriter.init negative_first_config).run_upto sample_clock 4 with
  | .ok w => w
  | .error _ => DaqWriter.init negative_first_config

/-- The sample configuration with the small family starting at shot 5 with the
stride `2^31 - 1`, the largest an `int` holds. -/
def large_stride_config : DaqWriterConfig :=
  { sample_config with small_shot_first := 5, small_shot_stride := 2147483647 }

/-- The writer after the first five iterations of the run on
`large_stride_config`. -/
def large_stride_before : DaqWriter :=
  match (DaqWriter.init large_stride_config).run_upto sample_clock 5 with
  | .ok w => w
  | .error _ => DaqWriter.init large_stride_config

/-- The writer after the six iterations of the run on `large_stride_config`. -/
def large_stride_upto : DaqWriter :=
  match (DaqWriter.init large_stride_config).run_upto sample_clock 6 with
  | .ok w => w
  | .error _ => DaqWriter.init large_stride_config

/-! ## Lemmas on maps -/

theorem map_find_insert_self {V : Type} (m : IntMap V) (k : Int) (v : V) :
    map_find (map_insert m k v) k = some v := by
  induction m with
  | nil => simp [map_insert, map_find]
  | cons p t ih =>
    obtain ⟨k', v'⟩ := p
    unfold map_insert
    split_ifs with h1 h2
    · simp [map_find]
    · simp [map_find]
    · have : k' ≠ k := fun h => h2 h.symm
      simp [map_find, this, ih]

theorem map_find_insert_ne {V : Type} (m : IntMap V) (k j : Int) (v : V) (h : j ≠ k) :
    map_find (map_insert m k v) j = map_find m j := by
  induction m with
  | nil => simp [map_insert, map_find, h.symm]
  | cons p t ih =>
    obtain ⟨k', v'⟩ := p
    unfold map_insert
    split_ifs with h1 h2
    · simp [map_find, h.symm]
    · subst h2
      simp [map_find, h.symm]
    · simp [map_find, ih]

theorem map_at_modify_self {V : Type} [Inhabited V] (m : IntMap V) (k : Int) (f : V → V) :
    map_find (map_modify m k f) k = some (f (map_at m k)) := by
  simp [map_modify, map_find_insert_self]

theorem map_find_modify_ne {V : Type} [Inhabited V] (m : IntMap V) (k j : Int) (f : V → V)
    (h : j ≠ k) : map_find (map_modify m k f) j = map_find m j := by
  simp [map_modify, map_find_insert_ne _ _ _ _ h]

theorem mem_map_keys_insert {V : Type} (m : IntMap V) (k j : Int) (v : V) :
    j ∈ map_keys (map_insert m k v) ↔ j = k ∨ j ∈ map_keys m := by
  induction m with
  | nil => simp [map_insert, map_keys]
  | cons p t ih =>
    obtain ⟨k', v'⟩ := p
    unfold map_insert
    split_ifs with h1 h2
    · simp [map_keys]
    · subst h2
      simp [map_keys]
    · simp only [map_keys, List.map_cons, List.mem_cons] at ih ⊢
      rw [ih]
      tauto

theorem map_find_eq_none_iff {V : Type} (m : IntMap V) (k : Int) :
    map_find m k = none ↔ k ∉ map_keys m := by
  induction m with
  | nil => simp [map_find, map_keys]
  | cons p t ih =>
    obtain ⟨k', v'⟩ := p
    simp only [map_find, map_keys, List.map_cons, List.mem_cons, not_or] at ih ⊢
    split_ifs with h
    · simp [h]
    · rw [ih]
      constructor
      · intro h2
        exact ⟨fun h3 => h h3.symm, h2⟩
      · exact fun h2 => h2.2

theorem map_keys_insert_sorted {V : Type} (m : IntMap V) (k : Int) (v : V)
    (hs : (map_keys m).Pairwise (· < ·)) : (map_keys (map_insert m k v)).Pairwise (· < ·) := by
  induction m with
  | nil => simp [map_insert, map_keys]
  | cons p t ih =>
    obtain ⟨k', v'⟩ := p
    have hs' : (∀ a ∈ map_keys t, k' < a) ∧ (map_keys t).Pairwise (· < ·) := by
      simpa [map_keys] using hs
    unfold map_insert
    split_ifs with h1 h2
    · have : (map_keys ((k, v) :: (k', v') :: t)) = k :: k' :: map_keys t := rfl
      rw [this]
      refine List.Pairwise.cons ?_ (by simpa [map_keys] using hs)
      intro a ha
      rcases List.mem_cons.1 ha with h | h
      · omega
      · have := hs'.1 a h
        omega
    · subst h2
      simpa [map_keys] using hs
    · have : map_keys ((k', v') :: map_insert t k v) = k' :: map_keys (map_insert t k v) := rfl
      rw [this]
      refine List.Pairwise.cons ?_ (ih hs'.2)
      intro a ha
      rcases (mem_map_keys_insert t k a v).1 ha with h | h
      · omega
      · exact hs'.1 a h

/-! ## Channel ids -/

theorem mem_chan_ids (first count id : Int) :
    id ∈ chan_ids first count ↔ first ≤ id ∧ id < wrap32 (first + count) := by
  unfold chan_ids
  simp only [List.mem_map, List.mem_range]
  constructor
  · rintro ⟨i, hi, rfl⟩
    omega
  · rintro ⟨h1, h2⟩
    refine ⟨(id - first).toNat, ?_, ?_⟩ <;> omega

theorem chan_ids_nodup (first count : Int) : (chan_ids first count).Nodup := by
  unfold chan_ids
  refine (List.nodup_range _).map ?_
  intro a b h
  simpa using h

/-! ## Channel loops -/

theorem foldl_proj {α : Type} (proj : DaqWriter → α) (g : α → Int → α)
    (step : DaqWriter → Int → DaqWriter) (h : ∀ w i, proj (step w i) = g (proj w) i)
    (ids : List Int) (w : DaqWriter) : proj (ids.foldl step w) = ids.foldl g (proj w) := by
  induction ids generalizing w with
  | nil => rfl
  | cons i rest ih => simp only [List.foldl_cons, ih, h]

theorem foldl_frame {α : Type} (proj : DaqWriter → α)
    (step : DaqWriter → Int → DaqWriter) (h : ∀ w i, proj (step w i) = proj w)
    (ids : List Int) (w : DaqWriter) : proj (ids.foldl step w) = proj w := by
  induction ids generalizing w with
  | nil => rfl
  | cons i rest ih => simp only [List.foldl_cons, ih, h]

theorem map_at_of_elems_at {m : IntMap DsetInfo} {id : Int} {l : List Int}
    (h : elems_at m id = some l) : (map_at m id).elems = l := by
  unfold elems_at at h
  unfold map_at
  cases hf : map_find m id with
  | none => simp [hf] at h
  | some d => simpa [hf] using h

theorem map_at_of_frames_at {m : IntMap DsetInfo} {id : Int} {l : List (List Int)}
    (h : frames_at m id = some l) : (map_at m id).frames = l := by
  unfold frames_at at h
  unfold map_at
  cases hf : map_find m id with
  | none => simp [hf] at h
  | some d => simpa [hf] using h

theorem elems_at_modify_self (m : IntMap DsetInfo) (id v : Int) :
    elems_at (map_modify m id (fun d => append_to_1d_dset d v)) id
      = some ((map_at m id).elems ++ [v]) := by
  simp [elems_at, map_at_modify_self, append_to_1d_dset]

theorem elems_at_modify_ne (m : IntMap DsetInfo) (id j : Int) (g : DsetInfo → DsetInfo)
    (h : j ≠ id) : elems_at (map_modify m id g) j = elems_at m j := by
  simp [elems_at, map_find_modify_ne _ _ _ _ h]

theorem map_at_modify_ne (m : IntMap DsetInfo) (id j : Int) (g : DsetInfo → DsetInfo)
    (h : j ≠ id) : map_at (map_modify m id g) j = map_at m j := by
  simp [map_at, map_find_modify_ne _ _ _ _ h]

/-- A channel loop that appends `v` to the dataset of every visited id appends
it once to each of them and leaves the other datasets alone. -/
theorem elems_at_foldl_modify (ids : List Int) (hn : ids.Nodup) (m : IntMap DsetInfo)
    (v id : Int) :
    elems_at (ids.foldl (fun m i => map_modify m i (fun d => append_to_1d_dset d v)) m) id
      = if id ∈ ids then some ((map_at m id).elems ++ [v]) else elems_at m id := by
  induction ids generalizing m with
  | nil => simp
  | cons i rest ih =>
    have hi : i ∉ rest := (List.nodup_cons.1 hn).1
    rw [List.foldl_cons, ih (List.nodup_cons.1 hn).2]
    by_cases h1 : id ∈ rest
    · have hne : id ≠ i := fun h => hi (h ▸ h1)
      simp [h1, map_at_modify_ne _ _ _ _ hne]
    · by_cases h2 : id = i
      · subst h2
        simp [h1, elems_at_modify_self]
      · simp [h1, h2, elems_at_modify_ne _ _ _ _ h2]

/-! ## One call of `write_small` -/

namespace DaqWriter

theorem write_small_eq (w : DaqWriter) (clk : Family → Int → Int) (f : Int) :
    w.write_small clk f =
      if f = w.m_next_small then
        (chan_ids w.m_config.small_name_first w.m_config.small_name_count).foldl
          (write_small_chan f (clk .small f))
          { w with m_next_small := wrap32 (w.m_next_small + max 1 w.m_config.small_shot_stride) }
      else w := rfl

theorem write_small_config (w : DaqWriter) (clk : Family → Int → Int) (f : Int) :
    (w.write_small clk f).m_config = w.m_config := by
  rw [write_small_eq]
  split_ifs
  · rw [foldl_frame (fun w => w.m_config) (write_small_chan f (clk .small f)) (fun _ _ => rfl)]
  · rfl

theorem write_small_events (w : DaqWriter) (clk : Family → Int → Int) (f : Int) :
    (w.write_small clk f).m_events = w.m_events := by
  rw [write_small_eq]
  split_ifs
  · rw [foldl_frame (fun w => w.m_events) (write_small_chan f (clk .small f)) (fun _ _ => rfl)]
  · rfl

theorem write_small_vlen_view (w : DaqWriter) (clk : Family → Int → Int) (f : Int) :
    (w.write_small clk f).vlen_view = w.vlen_view := by
  rw [write_small_eq]
  split_ifs
  · rw [foldl_frame vlen_view (write_small_chan f (clk .small f)) (fun _ _ => rfl)]
    rfl
  · rfl

theorem write_small_detector_view (w : DaqWriter) (clk : Family → Int → Int) (f : Int) :
    (w.write_small clk f).detector_view = w.detector_view := by
  rw [write_small_eq]
  split_ifs
  · rw [foldl_frame detector_view (write_small_chan f (clk .small f)) (fun _ _ => rfl)]
    rfl
  · rfl

theorem write_small_next (w : DaqWriter) (clk : Family → Int → Int) (f : Int) :
    (w.write_small clk f).m_next_small
      = if f = w.m_next_small then wrap32 (w.m_next_small + max 1 w.m_config.small_shot_stride)
        else w.m_next_small := by
  rw [write_small_eq]
  split_ifs
  · rw [foldl_frame (fun w => w.m_next_small) (write_small_chan f (clk .small f))
      (fun _ _ => rfl)]
  · rfl

theorem write_small_fiducials (w : DaqWriter) (clk : Family → Int → Int) (f id : Int) :
    elems_at (w.write_small clk f).m_small_id_to_fiducials_dset id
      = if f = w.m_next_small ∧
            id ∈ chan_ids w.m_config.small_name_first w.m_config.small_name_count then
          some ((map_at w.m_small_id_to_fiducials_dset id).elems ++ [f])
        else elems_at w.m_small_id_to_fiducials_dset id := by
  rw [write_small_eq]
  by_cases h : f = w.m_next_small
  · rw [if_pos h]
    rw [foldl_proj (fun w => w.m_small_id_to_fiducials_dset)
      (fun m i => map_modify m i (fun d => append_to_1d_dset d f))
      (write_small_chan f (clk .small f)) (fun _ _ => rfl),
      elems_at_foldl_modify _ (chan_ids_nodup _ _)]
    simp [h]
  · simp [h]

theorem write_small_nano (w : DaqWriter) (clk : Family → Int → Int) (f id : Int) :
    elems_at (w.write_small clk f).m_small_id_to_nano_dset id
      = if f = w.m_next_small ∧
            id ∈ chan_ids w.m_config.small_name_first w.m_config.small_name_count then
          some ((map_at w.m_small_id_to_nano_dset id).elems ++ [clk .small f])
        else elems_at w.m_small_id_to_nano_dset id := by
  rw [write_small_eq]
  by_cases h : f = w.m_next_small
  · rw [if_pos h]
    rw [foldl_proj (fun w => w.m_small_id_to_nano_dset)
      (fun m i => map_modify m i (fun d => append_to_1d_dset d (clk .small f)))
      (write_small_chan f (clk .small f)) (fun _ _ => rfl),
      elems_at_foldl_modify _ (chan_ids_nodup _ _)]
    simp [h]
  · simp [h]

theorem write_small_data (w : DaqWriter) (clk : Family → Int → Int) (f id : Int) :
    elems_at (w.write_small clk f).m_small_id_to_data_dset id
      = if f = w.m_next_small ∧
            id ∈ chan_ids w.m_config.small_name_first w.m_config.small_name_count then
          some ((map_at w.m_small_id_to_data_dset id).elems ++ [f])
        else elems_at w.m_small_id_to_data_dset id := by
  rw [write_small_eq]
  by_cases h : f = w.m_next_small
  · rw [if_pos h]
    rw [foldl_proj (fun w => w.m_small_id_to_data_dset)
      (fun m i => map_modify m i (fun d => append_to_1d_dset d f))
      (write_small_chan f (clk .small f)) (fun _ _ => rfl),
      elems_at_foldl_modify _ (chan_ids_nodup _ _)]
    simp [h]
  · simp [h]

end DaqWriter

/-! ## One call of `write_vlen` -/

theorem tmod_lt_of_in_int (a b : Int) (hb : in_int b) (h0 : b ≠ 0) : Int.tmod a b < 2 ^ 31 := by
  unfold in_int at hb
  rcases lt_or_gt_of_ne h0 with h | h
  · have := Int.tmod_lt_of_pos a (show 0 < -b by omega)
    rw [Int.tmod_neg] at this
    omega
  · have := Int.tmod_lt_of_pos a h
    omega

theorem fill_buffer (f : Int) (n : Nat) (buf : List Int) (h : n ≤ buf.length) :
    (List.range n).foldl (fun b idx => b.set idx f) buf = List.replicate n f ++ buf.drop n := by
  induction n with
  | zero => simp
  | succ n ih =>
    rw [List.range_succ, List.foldl_append, ih (by omega)]
    simp only [List.foldl_cons, List.foldl_nil]
    apply List.ext_getElem
    · simp
      omega
    · intro i h1 h2
      simp only [List.getElem_set, List.getElem_append, List.length_replicate,
        List.getElem_replicate, List.getElem_drop]
      by_cases h3 : n = i
      · subst h3
        simp
      · by_cases h4 : i < n
        · simp [h3, h4, show i < n + 1 by omega]
        · have h5 : ¬ i < n + 1 := by omega
          simp only [h3, h4, h5, if_false, dite_false]
          congr 1
          omega

theorem unsigned_guard {c : Int} {L : Nat} (hc : in_int c) (hL : (L : Int) < 2 ^ 31)
    (h : ¬ L < to_unsigned c) : 0 ≤ c ∧ c ≤ L ∧ to_unsigned c = c.toNat := by
  unfold in_int at hc
  unfold to_unsigned at h ⊢
  omega

namespace DaqWriter

theorem write_vlen_chan_eq (f nano : Int) (w : DaqWriter) (id : Int)
    (h : 0 ≤ w.m_next_vlen_count ∧ w.m_next_vlen_count ≤ w.m_vlen_data.length) :
    write_vlen_chan f nano w id
      = .ok (write_vlen_chan_ok f nano w.m_next_vlen_count w.m_vlen_data w id) := by
  unfold write_vlen_chan append_many_to_1d_dset
  have h1 : ¬ (w.m_next_vlen_count < 0 ∨ (w.m_vlen_data.length : Int) < w.m_next_vlen_count) := by
    omega
  simp only [h1, if_false]
  simp [write_vlen_chan_ok, map_modify, append_to_1d_dset]

theorem write_vlen_chans_eq (f nano : Int) (ids : List Int) (w : DaqWriter)
    (h : 0 ≤ w.m_next_vlen_count ∧ w.m_next_vlen_count ≤ w.m_vlen_data.length) :
    write_vlen_chans f nano ids w
      = .ok (ids.foldl (write_vlen_chan_ok f nano w.m_next_vlen_count w.m_vlen_data) w) := by
  induction ids generalizing w with
  | nil => rfl
  | cons i rest ih =>
    unfold write_vlen_chans
    rw [write_vlen_chan_eq f nano w i h]
    exact ih (write_vlen_chan_ok f nano w.m_next_vlen_count w.m_vlen_data w i) h

theorem elems_at_modify_self' (m : IntMap DsetInfo) (id : Int) (g : DsetInfo → DsetInfo) :
    elems_at (map_modify m id g) id = some (g (map_at m id)).elems := by
  simp [elems_at, map_at_modify_self]

/-- A channel loop that appends the list `l` to the dataset of every visited
id. -/
theorem elems_at_foldl_extend (ids : List Int) (hn : ids.Nodup) (m : IntMap DsetInfo)
    (l : List Int) (id : Int) :
    elems_at (ids.foldl (fun m i => map_modify m i (fun d => { d with elems := d.elems ++ l })) m)
        id
      = if id ∈ ids then some ((map_at m id).elems ++ l) else elems_at m id := by
  induction ids generalizing m with
  | nil => simp
  | cons i rest ih =>
    have hi : i ∉ rest := (List.nodup_cons.1 hn).1
    rw [List.foldl_cons, ih (List.nodup_cons.1 hn).2]
    by_cases h1 : id ∈ rest
    · have hne : id ≠ i := fun h => hi (h ▸ h1)
      simp [h1, map_at_modify_ne _ _ _ _ hne]
    · by_cases h2 : id = i
      · subst h2
        simp [h1, elems_at_modify_self']
      · simp [h1, h2, elems_at_modify_ne _ _ _ _ h2]

theorem vlen_foldl_blob_start (f nano c : Int) (buf : List Int) (ids : List Int)
    (hn : ids.Nodup) (w : DaqWriter) (id : Int) :
    elems_at (ids.foldl (write_vlen_chan_ok f nano c buf) w).m_vlen_id_to_blob_start_dset id
      = if id ∈ ids then
          some ((map_at w.m_vlen_id_to_blob_start_dset id).elems
            ++ [((map_at w.m_vlen_id_to_blob_dset id).elems.length : Int)])
        else elems_at w.m_vlen_id_to_blob_start_dset id := by
  induction ids generalizing w with
  | nil => simp
  | cons i rest ih =>
    have hi : i ∉ rest := (List.nodup_cons.1 hn).1
    rw [List.foldl_cons, ih (List.nodup_cons.1 hn).2]
    by_cases h1 : id ∈ rest
    · have hne : id ≠ i := fun h => hi (h ▸ h1)
      simp [h1, write_vlen_chan_ok, map_at_modify_ne _ _ _ _ hne]
    · by_cases h2 : id = i
      · subst h2
        simp [h1, write_vlen_chan_ok, elems_at_modify_self', append_to_1d_dset]
      · simp [h1, h2, write_vlen_chan_ok, elems_at_modify_ne _ _ _ _ h2]

/-- The effect of the vlen channel loop on the five datasets of a channel. -/
theorem vlen_foldl_elems (f nano c : Int) (buf : List Int) (ids : List Int)
    (hn : ids.Nodup) (w : DaqWriter) (id : Int) :
    let w1 := ids.foldl (write_vlen_chan_ok f nano c buf) w
    (elems_at w1.m_vlen_id_to_fiducials_dset id
      = if id ∈ ids then some ((map_at w.m_vlen_id_to_fiducials_dset id).elems ++ [f])
        else elems_at w.m_vlen_id_to_fiducials_dset id) ∧
    (elems_at w1.m_vlen_id_to_nano_dset id
      = if id ∈ ids then some ((map_at w.m_vlen_id_to_nano_dset id).elems ++ [nano])
        else elems_at w.m_vlen_id_to_nano_dset id) ∧
    (elems_at w1.m_vlen_id_to_blob_dset id
      = if id ∈ ids then
          some ((map_at w.m_vlen_id_to_blob_dset id).elems ++ buf.take c.toNat)
        else elems_at w.m_vlen_id_to_blob_dset id) ∧
    (elems_at w1.m_vlen_id_to_blob_start_dset id
      = if id ∈ ids then
          some ((map_at w.m_vlen_id_to_blob_start_dset id).elems
            ++ [((map_at w.m_vlen_id_to_blob_dset id).elems.length : Int)])
        else elems_at w.m_vlen_id_to_blob_start_dset id) ∧
    (elems_at w1.m_vlen_id_to_blob_count_dset id
      = if id ∈ ids then some ((map_at w.m_vlen_id_to_blob_count_dset id).elems ++ [c])
        else elems_at w.m_vlen_id_to_blob_count_dset id) := by
  refine ⟨?_, ?_, ?_, vlen_foldl_blob_start f nano c buf ids hn w id, ?_⟩
  · rw [foldl_proj (fun w => w.m_vlen_id_to_fiducials_dset)
      (fun m i => map_modify m i (fun d => append_to_1d_dset d f))
      (write_vlen_chan_ok f nano c buf) (fun _ _ => rfl)]
    exact elems_at_foldl_modify _ hn _ _ _
  · rw [foldl_proj (fun w => w.m_vlen_id_to_nano_dset)
      (fun m i => map_modify m i (fun d => append_to_1d_dset d nano))
      (write_vlen_chan_ok f nano c buf) (fun _ _ => rfl)]
    exact elems_at_foldl_modify _ hn _ _ _
  · rw [foldl_proj (fun w => w.m_vlen_id_to_blob_dset)
      (fun m i => map_modify m i (fun d => { d with elems := d.elems ++ buf.take c.toNat }))
      (write_vlen_chan_ok f nano c buf) (fun _ _ => rfl)]
    exact elems_at_foldl_extend _ hn _ _ _
  · rw [foldl_proj (fun w => w.m_vlen_id_to_blob_count_dset)
      (fun m i => map_modify m i (fun d => append_to_1d_dset d c))
      (write_vlen_chan_ok f nano c buf) (fun _ _ => rfl)]
    exact elems_at_foldl_modify _ hn _ _ _


/-- The method `write_vlen` with its channel loop and its buffer fill in closed
form. -/
theorem write_vlen_eq (w : DaqWriter) (clk : Family → Int → Int) (f : Int)
    (hmin : in_int w.m_config.vlen_min_per_shot) (hmax : in_int w.m_config.vlen_max_per_shot)
    (hL : (w.m_vlen_data.length : Int) < 2 ^ 31) :
    w.write_vlen clk f =
      if f = w.m_next_vlen then
        if w.m_config.vlen_max_per_shot = 0 ∨
            (wrap32 (w.m_next_vlen_count + 1) = -(2 ^ 31) ∧ w.m_config.vlen_max_per_shot = -1) then
          .error .div_by_zero
        else if w.m_vlen_data.length <
            to_unsigned (max w.m_config.vlen_min_per_shot
              (Int.tmod (wrap32 (w.m_next_vlen_count + 1)) w.m_config.vlen_max_per_shot)) then
          .error .out_of_bounds
        else
          .ok ((chan_ids w.m_config.vlen_name_first w.m_config.vlen_name_count).foldl
            (write_vlen_chan_ok f (clk .vlen f)
              (max w.m_config.vlen_min_per_shot
                (Int.tmod (wrap32 (w.m_next_vlen_count + 1)) w.m_config.vlen_max_per_shot))
              (List.replicate (max w.m_config.vlen_min_per_shot
                  (Int.tmod (wrap32 (w.m_next_vlen_count + 1))
                    w.m_config.vlen_max_per_shot)).toNat f
                ++ w.m_vlen_data.drop (max w.m_config.vlen_min_per_shot
                  (Int.tmod (wrap32 (w.m_next_vlen_count + 1))
                    w.m_config.vlen_max_per_shot)).toNat))
            { w with
              m_next_vlen := wrap32 (w.m_next_vlen + max 1 w.m_config.vlen_shot_stride)
              m_next_vlen_count := max w.m_config.vlen_min_per_shot
                (Int.tmod (wrap32 (w.m_next_vlen_count + 1)) w.m_config.vlen_max_per_shot)
              m_vlen_data := List.replicate (max w.m_config.vlen_min_per_shot
                  (Int.tmod (wrap32 (w.m_next_vlen_count + 1))
                    w.m_config.vlen_max_per_shot)).toNat f
                ++ w.m_vlen_data.drop (max w.m_config.vlen_min_per_shot
                  (Int.tmod (wrap32 (w.m_next_vlen_count + 1))
                    w.m_config.vlen_max_per_shot)).toNat })
      else .ok w := by
  unfold write_vlen
  by_cases h1 : f = w.m_next_vlen
  · simp only [h1, if_true]
    by_cases h2 : w.m_config.vlen_max_per_shot = 0 ∨
      (wrap32 (w.m_next_vlen_count + 1) = -(2 ^ 31) ∧ w.m_config.vlen_max_per_shot = -1)
    · simp only [h2, if_true]
    · simp only [h2, if_false]
      have h0 : w.m_config.vlen_max_per_shot ≠ 0 := fun h => h2 (Or.inl h)
      by_cases h3 : w.m_vlen_data.length <
          to_unsigned (max w.m_config.vlen_min_per_shot
            (Int.tmod (wrap32 (w.m_next_vlen_count + 1)) w.m_config.vlen_max_per_shot))
      · simp only [h3, if_true]
      · simp only [h3, if_false]
        have hc : in_int (max w.m_config.vlen_min_per_shot
            (Int.tmod (wrap32 (w.m_next_vlen_count + 1)) w.m_config.vlen_max_per_shot)) := by
          have := tmod_lt_of_in_int (wrap32 (w.m_next_vlen_count + 1)) _ hmax h0
          unfold in_int at hmin ⊢
          omega
        obtain ⟨g1, g2, g3⟩ := unsigned_guard hc hL h3
        rw [g3, fill_buffer _ _ _ (by omega)]
        rw [write_vlen_chans_eq]
        simp only [List.length_append, List.length_replicate, List.length_drop]
        omega
  · simp only [h1, if_false]


/-- What a call of `write_vlen` that returns has done. -/
theorem write_vlen_ok {w w' : DaqWriter} {clk : Family → Int → Int} {f : Int}
    (h : w.write_vlen clk f = .ok w')
    (hmin : in_int w.m_config.vlen_min_per_shot) (hmax : in_int w.m_config.vlen_max_per_shot)
    (hL : (w.m_vlen_data.length : Int) < 2 ^ 31) :
    (w'.m_config = w.m_config ∧ w'.m_events = w.m_events ∧ w'.small_view = w.small_view ∧
      w'.detector_view = w.detector_view ∧ w'.m_vlen_data.length = w.m_vlen_data.length) ∧
    (w'.m_next_vlen = if f = w.m_next_vlen then
        wrap32 (w.m_next_vlen + max 1 w.m_config.vlen_shot_stride) else w.m_next_vlen) ∧
    (w'.m_next_vlen_count = if f = w.m_next_vlen then
        next_count w.m_config.vlen_min_per_shot w.m_config.vlen_max_per_shot w.m_next_vlen_count
      else w.m_next_vlen_count) ∧
    (f = w.m_next_vlen → w.m_config.vlen_max_per_shot ≠ 0 ∧
      0 ≤ next_count w.m_config.vlen_min_per_shot w.m_config.vlen_max_per_shot
        w.m_next_vlen_count ∧
      next_count w.m_config.vlen_min_per_shot w.m_config.vlen_max_per_shot
        w.m_next_vlen_count ≤ w.m_vlen_data.length) ∧
    ∀ id,
      (elems_at w'.m_vlen_id_to_fiducials_dset id
        = if f = w.m_next_vlen ∧
              id ∈ chan_ids w.m_config.vlen_name_first w.m_config.vlen_name_count then
            some ((map_at w.m_vlen_id_to_fiducials_dset id).elems ++ [f])
          else elems_at w.m_vlen_id_to_fiducials_dset id) ∧
      (elems_at w'.m_vlen_id_to_nano_dset id
        = if f = w.m_next_vlen ∧
              id ∈ chan_ids w.m_config.vlen_name_first w.m_config.vlen_name_count then
            some ((map_at w.m_vlen_id_to_nano_dset id).elems ++ [clk .vlen f])
          else elems_at w.m_vlen_id_to_nano_dset id) ∧
      (elems_at w'.m_vlen_id_to_blob_dset id
        = if f = w.m_next_vlen ∧
              id ∈ chan_ids w.m_config.vlen_name_first w.m_config.vlen_name_count then
            some ((map_at w.m_vlen_id_to_blob_dset id).elems ++
              List.replicate (next_count w.m_config.vlen_min_per_shot
                w.m_config.vlen_max_per_shot w.m_next_vlen_count).toNat f)
          else elems_at w.m_vlen_id_to_blob_dset id) ∧
      (elems_at w'.m_vlen_id_to_blob_start_dset id
        = if f = w.m_next_vlen ∧
              id ∈ chan_ids w.m_config.vlen_name_first w.m_config.vlen_name_count then
            some ((map_at w.m_vlen_id_to_blob_start_dset id).elems
              ++ [((map_at w.m_vlen_id_to_blob_dset id).elems.length : Int)])
          else elems_at w.m_vlen_id_to_blob_start_dset id) ∧
      (elems_at w'.m_vlen_id_to_blob_count_dset id
        = if f = w.m_next_vlen ∧
              id ∈ chan_ids w.m_config.vlen_name_first w.m_config.vlen_name_count then
            some ((map_at w.m_vlen_id_to_blob_count_dset id).elems ++
              [next_count w.m_config.vlen_min_per_shot w.m_config.vlen_max_per_shot
                w.m_next_vlen_count])
          else elems_at w.m_vlen_id_to_blob_count_dset id) := by
  rw [write_vlen_eq w clk f hmin hmax hL] at h
  by_cases h1 : f = w.m_next_vlen
  · rw [if_pos h1] at h
    split_ifs at h with h2 h3
    have h0 : w.m_config.vlen_max_per_shot ≠ 0 := fun h => h2 (Or.inl h)
    have hc : in_int (next_count w.m_config.vlen_min_per_shot w.m_config.vlen_max_per_shot
        w.m_next_vlen_count) := by
      have := tmod_lt_of_in_int (wrap32 (w.m_next_vlen_count + 1)) _ hmax h0
      unfold in_int at hmin ⊢
      unfold next_count
      omega
    obtain ⟨g1, g2, g3⟩ := unsigned_guard hc hL h3
    injection h with h
    subst h
    refine ⟨⟨?_, ?_, ?_, ?_, ?_⟩, ?_, ?_, fun _ => ⟨h0, g1, g2⟩, fun id => ?_⟩
    · rw [foldl_frame (fun w => w.m_config) (write_vlen_chan_ok _ _ _ _) (fun _ _ => rfl)]
    · rw [foldl_frame (fun w => w.m_events) (write_vlen_chan_ok _ _ _ _) (fun _ _ => rfl)]
    · rw [foldl_frame small_view (write_vlen_chan_ok _ _ _ _) (fun _ _ => rfl)]
      rfl
    · rw [foldl_frame detector_view (write_vlen_chan_ok _ _ _ _) (fun _ _ => rfl)]
      rfl
    · rw [foldl_frame (fun w => w.m_vlen_data) (write_vlen_chan_ok _ _ _ _) (fun _ _ => rfl)]
      simp only [List.length_append, List.length_replicate, List.length_drop]
      unfold next_count at g1 g2
      omega
    · rw [foldl_frame (fun w => w.m_next_vlen) (write_vlen_chan_ok _ _ _ _) (fun _ _ => rfl)]
      simp [h1]
    · rw [foldl_frame (fun w => w.m_next_vlen_count) (write_vlen_chan_ok _ _ _ _)
        (fun _ _ => rfl)]
      simp [h1, next_count]
    · have key := vlen_foldl_elems f (clk .vlen f)
        (next_count w.m_config.vlen_min_per_shot w.m_config.vlen_max_per_shot
          w.m_next_vlen_count)
        (List.replicate (next_count w.m_config.vlen_min_per_shot
            w.m_config.vlen_max_per_shot w.m_next_vlen_count).toNat f
          ++ w.m_vlen_data.drop (next_count w.m_config.vlen_min_per_shot
            w.m_config.vlen_max_per_shot w.m_next_vlen_count).toNat)
        (chan_ids w.m_config.vlen_name_first w.m_config.vlen_name_count)
        (chan_ids_nodup _ _)
        { w with
          m_next_vlen := wrap32 (w.m_next_vlen + max 1 w.m_config.vlen_shot_stride)
          m_next_vlen_count := next_count w.m_config.vlen_min_per_shot
            w.m_config.vlen_max_per_shot w.m_next_vlen_count
          m_vlen_data := List.replicate (next_count w.m_config.vlen_min_per_shot
              w.m_config.vlen_max_per_shot w.m_next_vlen_count).toNat f
            ++ w.m_vlen_data.drop (next_count w.m_config.vlen_min_per_shot
              w.m_config.vlen_max_per_shot w.m_next_vlen_count).toNat } id
      have htake : ∀ (n : Nat) (l : List Int), (List.replicate n f ++ l).take n
          = List.replicate n f := by
        intro n l
        rw [List.take_append_of_le_length (by simp)]
        simp
      simp only [htake] at key
      simpa [h1, next_count] using key
  · rw [if_neg h1] at h
    injection h with h
    subst h
    simp [h1]

end DaqWriter

/-! ## One call of `write_detector` -/

theorem frames_at_modify_self (m : IntMap DsetInfo) (id : Int) (g : DsetInfo → DsetInfo) :
    frames_at (map_modify m id g) id = some (g (map_at m id)).frames := by
  simp [frames_at, map_at_modify_self]

theorem frames_at_modify_ne (m : IntMap DsetInfo) (id j : Int) (g : DsetInfo → DsetInfo)
    (h : j ≠ id) : frames_at (map_modify m id g) j = frames_at m j := by
  simp [frames_at, map_find_modify_ne _ _ _ _ h]

/-- A channel loop that appends the plane `fr` to the dataset of every visited
id. -/
theorem frames_at_foldl_extend (ids : List Int) (hn : ids.Nodup) (m : IntMap DsetInfo)
    (fr : List Int) (id : Int) :
    frames_at
        (ids.foldl (fun m i => map_modify m i (fun d => { d with frames := d.frames ++ [fr] })) m)
        id
      = if id ∈ ids then some ((map_at m id).frames ++ [fr]) else frames_at m id := by
  induction ids generalizing m with
  | nil => simp
  | cons i rest ih =>
    have hi : i ∉ rest := (List.nodup_cons.1 hn).1
    rw [List.foldl_cons, ih (List.nodup_cons.1 hn).2]
    by_cases h1 : id ∈ rest
    · have hne : id ≠ i := fun h => hi (h ▸ h1)
      simp [h1, map_at_modify_ne _ _ _ _ hne]
    · by_cases h2 : id = i
      · subst h2
        simp [h1, frames_at_modify_self]
      · simp [h1, h2, frames_at_modify_ne _ _ _ _ h2]

namespace DaqWriter

/-- The detector channel loop returns only if the plane lies within the buffer
(or no channel is visited), and then it has appended to every visited
channel. -/
theorem write_detector_chans_ok (f nano : Int) (ids : List Int) (w w' : DaqWriter)
    (h : write_detector_chans f nano ids w = .ok w') :
    w' = ids.foldl (write_detector_chan_ok f nano
      (w.m_detector_data.take (w.m_config.detector_rows * w.m_config.detector_columns).toNat)) w
    ∧ (ids ≠ [] → 0 ≤ w.m_config.detector_rows ∧ 0 ≤ w.m_config.detector_columns ∧
        w.m_config.detector_rows * w.m_config.detector_columns ≤ w.m_detector_data.length) := by
  induction ids generalizing w with
  | nil =>
    simp only [write_detector_chans] at h
    injection h with h
    simp [h]
  | cons i rest ih =>
    unfold write_detector_chans at h
    unfold write_detector_chan append_to_3d_dset at h
    by_cases hp : w.m_config.detector_rows < 0 ∨ w.m_config.detector_columns < 0 ∨
        (w.m_detector_data.length : Int) < w.m_config.detector_rows * w.m_config.detector_columns
    · simp [hp] at h
    · simp only [hp, if_false] at h
      have := (ih _ h).1
      refine ⟨?_, fun _ => by omega⟩
      rw [this]
      simp [write_detector_chan_ok, map_modify]

/-- The detector channel loop returns when the plane lies within the buffer. -/
theorem write_detector_chans_eq (f nano : Int) (ids : List Int) (w : DaqWriter)
    (hp : 0 ≤ w.m_config.detector_rows ∧ 0 ≤ w.m_config.detector_columns ∧
        w.m_config.detector_rows * w.m_config.detector_columns ≤ w.m_detector_data.length) :
    ∃ w', write_detector_chans f nano ids w = .ok w' := by
  induction ids generalizing w with
  | nil => exact ⟨w, rfl⟩
  | cons i rest ih =>
    unfold write_detector_chans
    unfold write_detector_chan append_to_3d_dset
    have hp' : ¬ (w.m_config.detector_rows < 0 ∨ w.m_config.detector_columns < 0 ∨
        (w.m_detector_data.length : Int)
          < w.m_config.detector_rows * w.m_config.detector_columns) := by omega
    simp only [hp', if_false]
    exact ih _ hp


/-- What a call of `write_detector` that returns has done. -/
theorem write_detector_ok {w w' : DaqWriter} {clk : Family → Int → Int} {f : Int}
    (h : w.write_detector clk f = .ok w') :
    (w'.m_config = w.m_config ∧ w'.m_events = w.m_events ∧ w'.small_view = w.small_view ∧
      w'.vlen_view = w.vlen_view ∧ w'.m_detector_data.length = w.m_detector_data.length) ∧
    (w'.m_next_detector = if f = w.m_next_detector then
        wrap32 (w.m_next_detector + max 1 w.m_config.detector_shot_stride)
      else w.m_next_detector) ∧
    ∀ id,
      (elems_at w'.m_detector_id_to_fiducials_dset id
        = if f = w.m_next_detector ∧
              id ∈ chan_ids w.m_config.detector_name_first w.m_config.detector_name_count then
            some ((map_at w.m_detector_id_to_fiducials_dset id).elems ++ [f])
          else elems_at w.m_detector_id_to_fiducials_dset id) ∧
      (elems_at w'.m_detector_id_to_nano_dset id
        = if f = w.m_next_detector ∧
              id ∈ chan_ids w.m_config.detector_name_first w.m_config.detector_name_count then
            some ((map_at w.m_detector_id_to_nano_dset id).elems ++ [clk .detector f])
          else elems_at w.m_detector_id_to_nano_dset id) ∧
      (frames_at w'.m_detector_id_to_data_dset id
        = if f = w.m_next_detector ∧
              id ∈ chan_ids w.m_config.detector_name_first w.m_config.detector_name_count then
            some ((map_at w.m_detector_id_to_data_dset id).frames ++
              [List.replicate (w.m_config.detector_rows * w.m_config.detector_columns).toNat
                (wrap16 f)])
          else frames_at w.m_detector_id_to_data_dset id) := by
  unfold write_detector at h
  by_cases h1 : f = w.m_next_detector
  · rw [if_pos h1] at h
    obtain ⟨h2, h3⟩ := write_detector_chans_ok _ _ _ _ _ h
    simp only at h2 h3
    subst h2
    refine ⟨⟨?_, ?_, ?_, ?_, ?_⟩, ?_, fun id => ⟨?_, ?_, ?_⟩⟩
    · rw [foldl_frame (fun w => w.m_config) (write_detector_chan_ok _ _ _) (fun _ _ => rfl)]
    · rw [foldl_frame (fun w => w.m_events) (write_detector_chan_ok _ _ _) (fun _ _ => rfl)]
    · rw [foldl_frame small_view (write_detector_chan_ok _ _ _) (fun _ _ => rfl)]
      rfl
    · rw [foldl_frame vlen_view (write_detector_chan_ok _ _ _) (fun _ _ => rfl)]
      rfl
    · rw [foldl_frame (fun w => w.m_detector_data) (write_detector_chan_ok _ _ _)
        (fun _ _ => rfl)]
      simp
    · rw [foldl_frame (fun w => w.m_next_detector) (write_detector_chan_ok _ _ _)
        (fun _ _ => rfl)]
      simp [h1]
    · rw [foldl_proj (fun w => w.m_detector_id_to_fiducials_dset)
        (fun m i => map_modify m i (fun d => append_to_1d_dset d f))
        (write_detector_chan_ok _ _ _) (fun _ _ => rfl),
        elems_at_foldl_modify _ (chan_ids_nodup _ _)]
      simp [h1]
    · rw [foldl_proj (fun w => w.m_detector_id_to_nano_dset)
        (fun m i => map_modify m i (fun d => append_to_1d_dset d (clk .detector f)))
        (write_detector_chan_ok _ _ _) (fun _ _ => rfl),
        elems_at_foldl_modify _ (chan_ids_nodup _ _)]
      simp [h1]
    · rw [foldl_proj (fun w => w.m_detector_id_to_data_dset)
        (fun m i => map_modify m i (fun d => { d with frames := d.frames ++
          [(w.m_detector_data.map (fun _ => wrap16 f)).take
            (w.m_config.detector_rows * w.m_config.detector_columns).toNat] }))
        (write_detector_chan_ok _ _ _) (fun _ _ => rfl),
        frames_at_foldl_extend _ (chan_ids_nodup _ _)]
      by_cases h4 : id ∈ chan_ids w.m_config.detector_name_first w.m_config.detector_name_count
      · have h5 := h3 (List.ne_nil_of_mem h4)
        simp only [List.length_map] at h5
        have h6 : (w.m_detector_data.map (fun _ => wrap16 f)).take
            (w.m_config.detector_rows * w.m_config.detector_columns).toNat
            = List.replicate (w.m_config.detector_rows * w.m_config.detector_columns).toNat
                (wrap16 f) := by
          apply List.ext_getElem
          · simp
            omega
          · intro i g1 g2
            simp
        rw [h6]
        simp [h1, h4]
      · simp [h4]
  · rw [if_neg h1] at h
    injection h with h
    subst h
    simp [h1]

end DaqWriter

/-! ## The loop of `run` -/

namespace DaqWriter

theorem LoopInv.of_views {c : DaqWriterConfig} {clk : Family → Int → Int} {n : Nat}
    {w w' : DaqWriter} (hi : LoopInv c clk n w) (hc : w'.m_config = w.m_config)
    (hs : w'.small_view = w.small_view) (hv : w'.vlen_view = w.vlen_view)
    (hd : w'.detector_view = w.detector_view) : LoopInv c clk n w' := by
  simp only [small_view, vlen_view, detector_view, Prod.mk.injEq] at hs hv hd
  obtain ⟨s1, s2, s3, s4⟩ := hs
  obtain ⟨⟨v1, v2, v3⟩, v4, v5, v6, v7, v8⟩ := hv
  obtain ⟨⟨d1, d2⟩, d3, d4, d5⟩ := hd
  constructor
  · rw [hc]; exact hi.config
  · rw [v3]; exact hi.vlen_data
  · rw [d2]; exact hi.detector_data
  · exact hi.count_nonneg
  · rw [s1]; exact hi.next_small
  · rw [v1]; exact hi.next_vlen
  · rw [d1]; exact hi.next_detector
  · rw [v2]; exact hi.next_vlen_count
  · rw [s2, s3, s4]; exact hi.small
  · rw [v4, v5, v6, v7, v8]; exact hi.vlen
  · rw [d3, d4, d5]; exact hi.detector

theorem wf_vlen {c : DaqWriterConfig} (hwf : c.wf) :
    in_int c.vlen_min_per_shot ∧ in_int c.vlen_max_per_shot := by
  unfold DaqWriterConfig.wf at hwf
  exact hwf.2.2.2.2.2.2.2.2.1

/-- One call of `write` takes the description of the state after `n`
iterations to the one after `n + 1`, and logs itself. -/
theorem write_inv {c : DaqWriterConfig} {clk : Family → Int → Int}
    {n : Nat} {w w' : DaqWriter} (hwf : c.wf) (hi : LoopInv c clk n w)
    (h : w.write clk (n : Int) = .ok w') :
    LoopInv c clk (n + 1) w' ∧ w'.m_events = w.m_events ++ [.write (n : Int)] := by
  unfold write at h
  generalize hws : write_small { w with m_events := w.m_events ++ [.write (n : Int)] } clk n
    = ws at h
  cases hv : write_vlen ws clk n with
  | error e => simp [hv] at h
  | ok wv =>
    simp only [hv] at h
    -- the three calls
    have hsc := write_small_config { w with m_events := w.m_events ++ [.write (n : Int)] } clk n
    have hse := write_small_events { w with m_events := w.m_events ++ [.write (n : Int)] } clk n
    have hsv := write_small_vlen_view { w with m_events := w.m_events ++ [.write (n : Int)] } clk n
    have hsd := write_small_detector_view
      { w with m_events := w.m_events ++ [.write (n : Int)] } clk n
    have hsn := write_small_next { w with m_events := w.m_events ++ [.write (n : Int)] } clk n
    have hsf := write_small_fiducials
      { w with m_events := w.m_events ++ [.write (n : Int)] } clk n
    have hsa := write_small_nano { w with m_events := w.m_events ++ [.write (n : Int)] } clk n
    have hsx := write_small_data { w with m_events := w.m_events ++ [.write (n : Int)] } clk n
    rw [hws] at hsc hse hsv hsd hsn hsf hsa hsx
    simp only at hsc hse hsn hsf hsa hsx
    simp only [small_view, vlen_view, detector_view, Prod.mk.injEq] at hsv hsd
    obtain ⟨⟨sv1, sv2, sv3⟩, sv4, sv5, sv6, sv7, sv8⟩ := hsv
    obtain ⟨⟨sd1, sd2⟩, sd3, sd4, sd5⟩ := hsd
    have hcfg : ws.m_config = c := by rw [hsc]; exact hi.config
    obtain ⟨hmin, hmax⟩ := wf_vlen hwf
    have hL : (ws.m_vlen_data.length : Int) < 2 ^ 31 := by
      rw [sv3, hi.vlen_data]
      unfold in_int at hmax
      omega
    obtain ⟨⟨vc, ve, vs, vd, vl⟩, vn, vk, vg, vel⟩ :=
      write_vlen_ok hv (by rw [hcfg]; exact hmin) (by rw [hcfg]; exact hmax) hL
    obtain ⟨⟨dc, de, ds, dv, dl⟩, dn, del⟩ := write_detector_ok h
    simp only [small_view, vlen_view, detector_view, Prod.mk.injEq] at vs vd ds dv
    obtain ⟨vs1, vs2, vs3, vs4⟩ := vs
    obtain ⟨⟨vd1, vd2⟩, vd3, vd4, vd5⟩ := vd
    obtain ⟨ds1, ds2, ds3, ds4⟩ := ds
    obtain ⟨⟨dv1, dv2, dv3⟩, dv4, dv5, dv6, dv7, dv8⟩ := dv
    have hwvc : wv.m_config = c := by rw [vc]; exact hcfg
    refine ⟨?_, by rw [de, ve, hse]⟩
    constructor
    · rw [dc]; exact hwvc
    · rw [dv3, vl, sv3]; exact hi.vlen_data
    · rw [dl, vd2, sd2]; exact hi.detector_data
    · intro x hx
      simp only [vlen_file] at hx
      split_ifs at hx with hp
      · rcases List.mem_append.1 hx with hx | hx
        · exact hi.count_nonneg x hx
        · have := (vg (by rw [sv1, hi.next_vlen]; exact hp)).2.1
          rw [hcfg, sv2, hi.next_vlen_count] at this
          simp only [List.mem_singleton] at hx
          rw [hx]
          exact this
      · exact hi.count_nonneg x hx
    · rw [ds1, vs1, hsn, hi.next_small, hi.config]
      rfl
    · rw [dv1, vn, sv1, hi.next_vlen, hcfg]
      rfl
    · rw [dn, vd1, sd1, hi.next_detector, hwvc]
      rfl
    · rw [dv2, vk, sv1, sv2, hi.next_vlen, hi.next_vlen_count, hcfg]
      simp only [sched_parts]
      split_ifs
      · simp [vlen_count, next_count]
      · rfl
    · intro id hid
      obtain ⟨i1, i2, i3⟩ := hi.small id hid
      rw [ds2, ds3, ds4, vs2, vs3, vs4, hsf, hsa, hsx, hi.next_small, hi.config,
        map_at_of_elems_at i1, map_at_of_elems_at i2, map_at_of_elems_at i3, i1, i2, i3]
      simp only [sched_parts, hid, and_true]
      split_ifs <;> simp
    · intro id hid
      obtain ⟨i1, i2, i3, i4, i5⟩ := hi.vlen id hid
      obtain ⟨e1, e2, e3, e4, e5⟩ := vel id
      simp only [hcfg, sv1, sv2, sv4, sv5, sv6, sv7, sv8, hi.next_vlen, hi.next_vlen_count,
        map_at_of_elems_at i1, map_at_of_elems_at i2, map_at_of_elems_at i3,
        map_at_of_elems_at i4, map_at_of_elems_at i5, i1, i2, i3, i4, i5] at e1 e2 e3 e4 e5
      rw [dv4, dv5, dv6, dv7, dv8, e1, e2, e3, e4, e5]
      simp only [sched_parts, vlen_file, hid, and_true]
      split_ifs <;> simp [vlen_count, next_count]
    · intro id hid
      obtain ⟨i1, i2, i3⟩ := hi.detector id hid
      obtain ⟨e1, e2, e3⟩ := del id
      have m3 := map_at_of_frames_at i3
      simp only [hwvc, vd1, vd3, vd4, vd5, sd1, sd3, sd4, sd5, hi.next_detector,
        map_at_of_elems_at i1, map_at_of_elems_at i2, i1, i2, i3, m3] at e1 e2 e3
      rw [e1, e2, e3]
      simp only [sched_parts, hid, and_true]
      split_ifs <;> simp


/-- One iteration of the loop of `run` takes the description of the state after
`n` iterations to the one after `n + 1`; it logs the write and then, on a flush
boundary, the flush. -/
theorem run_step_inv {c : DaqWriterConfig} {clk : Family → Int → Int}
    {n : Nat} {w w' : DaqWriter} (hwf : c.wf) (hi : LoopInv c clk n w)
    (h : w.run_step clk (n : Int) = .ok w') :
    LoopInv c clk (n + 1) w' ∧
      w'.m_events = w.m_events ++ [.write (n : Int)] ++
        (if 0 < (n : Int) ∧ 0 = Int.tmod (n : Int) c.flush_interval then [.flush (n : Int)]
          else []) := by
  unfold run_step at h
  cases hw : w.write clk (n : Int) with
  | error e => simp [hw] at h
  | ok w1 =>
    simp only [hw] at h
    obtain ⟨h1, h2⟩ := write_inv hwf hi hw
    have hc : w1.m_config = c := h1.config
    rw [hc] at h
    by_cases hn : 0 < (n : Int)
    · rw [if_pos hn] at h
      by_cases h0 : c.flush_interval = 0
      · simp [h0] at h
      · rw [if_neg h0] at h
        by_cases hm : 0 = Int.tmod (n : Int) c.flush_interval
        · rw [if_pos hm] at h
          injection h with h
          subst h
          refine ⟨LoopInv.of_views h1 rfl rfl rfl rfl, ?_⟩
          simp [flush_data, h2, hn, ← hm]
        · rw [if_neg hm] at h
          injection h with h
          subst h
          exact ⟨h1, by simp [h2, hm]⟩
    · rw [if_neg hn] at h
      injection h with h
      subst h
      exact ⟨h1, by simp [h2, hn]⟩

/-- The state after `n` iterations of the loop of `run`, started from a state
with empty datasets. -/
theorem run_loop_inv {c : DaqWriterConfig} {clk : Family → Int → Int} {w0 : DaqWriter}
    (hwf : c.wf) (h0 : LoopInv c clk 0 w0) (n : Nat) {w : DaqWriter}
    (h : w0.run_loop clk n = .ok w) :
    LoopInv c clk n w ∧ w.m_events = w0.m_events ++ loop_events c.flush_interval n := by
  induction n generalizing w with
  | zero =>
    simp only [run_loop] at h
    injection h with h
    subst h
    exact ⟨h0, by simp [loop_events]⟩
  | succ n ih =>
    simp only [run_loop] at h
    cases hr : w0.run_loop clk n with
    | error e => simp [hr] at h
    | ok w1 =>
      simp only [hr] at h
      obtain ⟨i1, i2⟩ := ih hr
      obtain ⟨j1, j2⟩ := run_step_inv hwf i1 h
      refine ⟨j1, ?_⟩
      rw [j2, i2]
      simp [loop_events]

end DaqWriter

/-! ## The file layout builder -/

namespace DaqWriter

theorem mem_keys_create_number_groups_loop (parent : hid_t) (ids : List Int) (m : IntMap hid_t)
    (j : Int) :
    j ∈ map_keys (create_number_groups_loop parent ids m) ↔ j ∈ ids ∨ j ∈ map_keys m := by
  induction ids generalizing m with
  | nil => simp [create_number_groups_loop]
  | cons i rest ih =>
    simp only [create_number_groups_loop, ih, mem_map_keys_insert, List.mem_cons]
    tauto

theorem create_number_groups_loop_sorted (parent : hid_t) (ids : List Int) (m : IntMap hid_t)
    (hs : (map_keys m).Pairwise (· < ·)) :
    (map_keys (create_number_groups_loop parent ids m)).Pairwise (· < ·) := by
  induction ids generalizing m with
  | nil => simpa [create_number_groups_loop] using hs
  | cons i rest ih =>
    simp only [create_number_groups_loop]
    exact ih _ (map_keys_insert_sorted m i _ hs)

/-- The keys of the group map that `create_number_groups` fills from empty are
the channel ids, each once. -/
theorem create_number_groups_keys (parent : hid_t) (first count : Int) :
    (∀ j, j ∈ map_keys (create_number_groups parent [] first count) ↔ j ∈ chan_ids first count)
    ∧ (map_keys (create_number_groups parent [] first count)).Nodup := by
  constructor
  · intro j
    unfold create_number_groups
    rw [mem_keys_create_number_groups_loop]
    simp [map_keys]
  · unfold create_number_groups
    have := create_number_groups_loop_sorted parent (chan_ids first count) [] (by simp [map_keys])
    exact this.imp (fun h => ne_of_lt h)

/-- When `create_small_dsets_helper` returns, every key of the group map was
new to the dataset map and now has a fresh, empty 1D dataset with the given
chunk length below its group; the other entries are as before. -/
theorem create_small_dsets_helper_ok {name : String} {ty : H5Type} {sz : Nat} {chunk : Int}
    (gs : IntMap hid_t) (m m' : IntMap DsetInfo)
    (h : create_small_dsets_helper name ty sz chunk gs m = .ok m') (k : Int) :
    (k ∈ map_keys gs → map_find m k = none ∧ 0 < chunk ∧
      ∃ g, (k, g) ∈ gs ∧ map_find m' k = some ⟨g ++ [name], ty, sz, [chunk], [], []⟩) ∧
    (k ∉ map_keys gs → map_find m' k = map_find m k) := by
  induction gs generalizing m with
  | nil =>
    simp only [create_small_dsets_helper] at h
    injection h with h
    subst h
    simp [map_keys]
  | cons p rest ih =>
    obtain ⟨k0, g0⟩ := p
    simp only [create_small_dsets_helper] at h
    by_cases hs : (map_find m k0).isSome
    · simp [hs] at h
    · rw [if_neg hs] at h
      unfold create_1d_dataset at h
      by_cases hc : chunk ≤ 0
      · simp [hc] at h
      · simp only [hc, if_false] at h
        have hk0 : map_find m k0 = none := by simpa using hs
        obtain ⟨ih1, ih2⟩ := ih _ h
        have hkeys : map_keys ((k0, g0) :: rest) = k0 :: map_keys rest := rfl
        rw [hkeys]
        constructor
        · intro hk
          by_cases hr : k ∈ map_keys rest
          · obtain ⟨a1, a2, g, a3, a4⟩ := ih1 hr
            have hne : k ≠ k0 := by
              intro he
              rw [he, map_find_insert_self] at a1
              exact Option.noConfusion a1
            rw [map_find_insert_ne _ _ _ _ hne] at a1
            exact ⟨a1, a2, g, List.mem_cons_of_mem _ a3, a4⟩
          · have he : k = k0 := by
              rcases List.mem_cons.1 hk with h1 | h1
              · exact h1
              · exact absurd h1 hr
            subst he
            refine ⟨hk0, by omega, g0, List.mem_cons_self _ _, ?_⟩
            rw [ih2 hr, map_find_insert_self]
        · intro hk
          have hne : k ≠ k0 := fun he => hk (he ▸ List.mem_cons_self _ _)
          have hr : k ∉ map_keys rest := fun hr => hk (List.mem_cons_of_mem _ hr)
          rw [ih2 hr, map_find_insert_ne _ _ _ _ hne]

/-- The helper `create_small_dsets_helper` returns when the chunk length is
positive and the keys of the group map are distinct and new to the dataset
map. -/
theorem create_small_dsets_helper_total {name : String} {ty : H5Type} {sz : Nat} {chunk : Int}
    (hc : 0 < chunk) (gs : IntMap hid_t) (m : IntMap DsetInfo) (hn : (map_keys gs).Nodup)
    (hm : ∀ k ∈ map_keys gs, map_find m k = none) :
    ∃ m', create_small_dsets_helper name ty sz chunk gs m = .ok m' := by
  induction gs generalizing m with
  | nil => exact ⟨m, rfl⟩
  | cons p rest ih =>
    obtain ⟨k0, g0⟩ := p
    have hkeys : map_keys ((k0, g0) :: rest) = k0 :: map_keys rest := rfl
    rw [hkeys] at hn hm
    simp only [create_small_dsets_helper]
    have hk0 : map_find m k0 = none := hm k0 (List.mem_cons_self _ _)
    have hc' : ¬ chunk ≤ 0 := by omega
    simp only [hk0, Option.isSome_none, Bool.false_eq_true, if_false, create_1d_dataset, hc']
    apply ih _ (List.nodup_cons.1 hn).2
    intro k hk
    have hne : k ≠ k0 := fun he => (List.nodup_cons.1 hn).1 (he ▸ hk)
    rw [map_find_insert_ne _ _ _ _ hne]
    exact hm k (List.mem_cons_of_mem _ hk)

/-- When the loop of `create_detector_data_dsets` returns, every key of the
group map was new to the dataset map and now has a fresh, empty 3D dataset;
the other entries are as before. -/
theorem create_detector_data_dsets_loop_ok (c : DaqWriterConfig)
    (gs : IntMap hid_t) (m m' : IntMap DsetInfo)
    (h : create_detector_data_dsets_loop c gs m = .ok m') (k : Int) :
    (k ∈ map_keys gs → map_find m k = none ∧
      ∃ g, (k, g) ∈ gs ∧ map_find m' k = some (create_3d_dataset g "data" .H5T_NATIVE_SHORT
        c.detector_rows c.detector_columns c.detector_chunksize 2)) ∧
    (k ∉ map_keys gs → map_find m' k = map_find m k) := by
  induction gs generalizing m with
  | nil =>
    simp only [create_detector_data_dsets_loop] at h
    injection h with h
    subst h
    simp [map_keys]
  | cons p rest ih =>
    obtain ⟨k0, g0⟩ := p
    simp only [create_detector_data_dsets_loop] at h
    by_cases hs : (map_find m k0).isSome
    · simp [hs] at h
    · rw [if_neg hs] at h
      have hk0 : map_find m k0 = none := by simpa using hs
      obtain ⟨ih1, ih2⟩ := ih _ h
      have hkeys : map_keys ((k0, g0) :: rest) = k0 :: map_keys rest := rfl
      rw [hkeys]
      constructor
      · intro hk
        by_cases hr : k ∈ map_keys rest
        · obtain ⟨a1, g, a3, a4⟩ := ih1 hr
          have hne : k ≠ k0 := by
            intro he
            rw [he, map_find_insert_self] at a1
            exact Option.noConfusion a1
          rw [map_find_insert_ne _ _ _ _ hne] at a1
          exact ⟨a1, g, List.mem_cons_of_mem _ a3, a4⟩
        · have he : k = k0 := by
            rcases List.mem_cons.1 hk with h1 | h1
            · exact h1
            · exact absurd h1 hr
          subst he
          refine ⟨hk0, g0, List.mem_cons_self _ _, ?_⟩
          rw [ih2 hr, map_find_insert_self]
      · intro hk
        have hne : k ≠ k0 := fun he => hk (he ▸ List.mem_cons_self _ _)
        have hr : k ∉ map_keys rest := fun hr => hk (List.mem_cons_of_mem _ hr)
        rw [ih2 hr, map_find_insert_ne _ _ _ _ hne]

theorem create_detector_data_dsets_loop_total (c : DaqWriterConfig)
    (gs : IntMap hid_t) (m : IntMap DsetInfo) (hn : (map_keys gs).Nodup)
    (hm : ∀ k ∈ map_keys gs, map_find m k = none) :
    ∃ m', create_detector_data_dsets_loop c gs m = .ok m' := by
  induction gs generalizing m with
  | nil => exact ⟨m, rfl⟩
  | cons p rest ih =>
    obtain ⟨k0, g0⟩ := p
    have hkeys : map_keys ((k0, g0) :: rest) = k0 :: map_keys rest := rfl
    rw [hkeys] at hn hm
    simp only [create_detector_data_dsets_loop]
    have hk0 : map_find m k0 = none := hm k0 (List.mem_cons_self _ _)
    simp only [hk0, Option.isSome_none, Bool.false_eq_true, if_false]
    apply ih _ (List.nodup_cons.1 hn).2
    intro k hk
    have hne : k ≠ k0 := fun he => (List.nodup_cons.1 hn).1 (he ▸ hk)
    rw [map_find_insert_ne _ _ _ _ hne]
    exact hm k (List.mem_cons_of_mem _ hk)


theorem create_index_dsets_ok {w w' : DaqWriter} (h : create_index_dsets w = .ok w') :
    ∃ sf vf df sn vn dn,
      w.create_fiducials_dsets w.m_small_id_to_number_group w.m_small_id_to_fiducials_dset
        = .ok sf ∧
      w.create_fiducials_dsets w.m_vlen_id_to_number_group w.m_vlen_id_to_fiducials_dset
        = .ok vf ∧
      w.create_fiducials_dsets w.m_detector_id_to_number_group w.m_detector_id_to_fiducials_dset
        = .ok df ∧
      w.create_nano_dsets w.m_small_id_to_number_group w.m_small_id_to_nano_dset = .ok sn ∧
      w.create_nano_dsets w.m_vlen_id_to_number_group w.m_vlen_id_to_nano_dset = .ok vn ∧
      w.create_nano_dsets w.m_detector_id_to_number_group w.m_detector_id_to_nano_dset
        = .ok dn ∧
      w' = { w with
              m_small_id_to_fiducials_dset := sf
              m_vlen_id_to_fiducials_dset := vf
              m_detector_id_to_fiducials_dset := df
              m_small_id_to_nano_dset := sn
              m_vlen_id_to_nano_dset := vn
              m_detector_id_to_nano_dset := dn } := by
  unfold create_index_dsets at h
  split at h
  · cases h
  split at h
  · cases h
  split at h
  · cases h
  split at h
  · cases h
  split at h
  · cases h
  split at h
  · cases h
  injection h with h
  exact ⟨_, _, _, _, _, _, ‹_›, ‹_›, ‹_›, ‹_›, ‹_›, ‹_›, h.symm⟩

theorem create_small_data_dsets_ok {w w' : DaqWriter} (h : create_small_data_dsets w = .ok w') :
    ∃ m, create_small_dsets_helper "data" .H5T_NATIVE_LONG 8 w.m_config.small_chunksize
        w.m_small_id_to_number_group w.m_small_id_to_data_dset = .ok m ∧
      w' = { w with m_small_id_to_data_dset := m } := by
  unfold create_small_data_dsets at h
  split at h
  · cases h
  injection h with h
  exact ⟨_, ‹_›, h.symm⟩

theorem create_detector_data_dsets_ok {w w' : DaqWriter}
    (h : create_detector_data_dsets w = .ok w') :
    ∃ m, create_detector_data_dsets_loop w.m_config w.m_detector_id_to_number_group
        w.m_detector_id_to_data_dset = .ok m ∧
      w' = { w with m_detector_id_to_data_dset := m } := by
  unfold create_detector_data_dsets at h
  split at h
  · cases h
  injection h with h
  exact ⟨_, ‹_›, h.symm⟩

theorem create_vlen_blob_and_index_dsets_ok {w w' : DaqWriter}
    (h : create_vlen_blob_and_index_dsets w = .ok w') :
    ∃ blob blobstart blobcount,
      create_small_dsets_helper "blob" .H5T_NATIVE_LONG 8 w.m_config.small_chunksize
        w.m_vlen_id_to_number_group w.m_vlen_id_to_blob_dset = .ok blob ∧
      create_small_dsets_helper "blobstart" .H5T_NATIVE_LONG 8 w.m_config.small_chunksize
        w.m_vlen_id_to_number_group w.m_vlen_id_to_blob_start_dset = .ok blobstart ∧
      create_small_dsets_helper "blobcount" .H5T_NATIVE_LONG 8 w.m_config.small_chunksize
        w.m_vlen_id_to_number_group w.m_vlen_id_to_blob_count_dset = .ok blobcount ∧
      w' = { w with
              m_vlen_id_to_blob_dset := blob
              m_vlen_id_to_blob_start_dset := blobstart
              m_vlen_id_to_blob_count_dset := blobcount } := by
  unfold create_vlen_blob_and_index_dsets at h
  split at h
  · cases h
  split at h
  · cases h
  split at h
  · cases h
  injection h with h
  exact ⟨_, _, _, ‹_›, ‹_›, ‹_›, h.symm⟩

theorem create_all_ok {w w' : DaqWriter}
    (h : create_all_groups_datasets_and_attributes w = .ok w') :
    ∃ w1 w2 w3, create_index_dsets (create_groups w) = .ok w1 ∧
      create_small_data_dsets w1 = .ok w2 ∧ create_detector_data_dsets w2 = .ok w3 ∧
      create_vlen_blob_and_index_dsets w3 = .ok w' := by
  unfold create_all_groups_datasets_and_attributes at h
  split at h
  · cases h
  split at h
  · cases h
  split at h
  · cases h
  exact ⟨_, _, _, ‹_›, ‹_›, ‹_›, h⟩

/-- A dataset made by `create_small_dsets_helper` from an empty map is empty. -/
theorem helper_elems {name : String} {ty : H5Type} {sz : Nat} {chunk : Int}
    {gs : IntMap hid_t} {m' : IntMap DsetInfo}
    (h : create_small_dsets_helper name ty sz chunk gs [] = .ok m') {k : Int}
    (hk : k ∈ map_keys gs) : elems_at m' k = some [] := by
  obtain ⟨_, _, g, _, hg⟩ := (create_small_dsets_helper_ok gs [] m' h k).1 hk
  simp [elems_at, hg]


/-- After the layout builder every channel of every family has its datasets,
all empty, and the cursors are where the constructor put them. -/
theorem layout_inv (c : DaqWriterConfig) (clk : Family → Int → Int) {w1 : DaqWriter}
    (h : create_all_groups_datasets_and_attributes (create_file (init c)) = .ok w1) :
    LoopInv c clk 0 (start_SWMR_access_to_file w1) ∧
      (start_SWMR_access_to_file w1).m_events
        = [.file_created (init c).m_fname_h5, .swmr_started] := by
  obtain ⟨wa, wb, wc, h1, h2, h3, h4⟩ := create_all_ok h
  obtain ⟨sf, vf, df, sn, vn, dn, a1, a2, a3, a4, a5, a6, ha⟩ := create_index_dsets_ok h1
  subst ha
  obtain ⟨sd, b1, hb⟩ := create_small_data_dsets_ok h2
  subst hb
  obtain ⟨dd, c1, hc⟩ := create_detector_data_dsets_ok h3
  subst hc
  obtain ⟨bl, bs, bc, d1, d2, d3, hd⟩ := create_vlen_blob_and_index_dsets_ok h4
  subst hd
  have ks := (create_number_groups_keys (H5Gcreate2 [] "small") c.small_name_first
    c.small_name_count).1
  have kv := (create_number_groups_keys (H5Gcreate2 [] "vlen") c.vlen_name_first
    c.vlen_name_count).1
  have kd := (create_number_groups_keys (H5Gcreate2 [] "detctor") c.detector_name_first
    c.detector_name_count).1
  refine ⟨?_, rfl⟩
  constructor
  · rfl
  · simp [start_SWMR_access_to_file, create_groups, create_file, init]
  · simp [start_SWMR_access_to_file, create_groups, create_file, init]
  · intro x hx
    simp [vlen_file] at hx
  · rfl
  · rfl
  · rfl
  · rfl
  · intro id hid
    have hk := (ks id).2 hid
    exact ⟨helper_elems a1 hk, helper_elems a4 hk, helper_elems b1 hk⟩
  · intro id hid
    have hk := (kv id).2 hid
    exact ⟨helper_elems a2 hk, helper_elems a5 hk, helper_elems d1 hk, helper_elems d2 hk,
      helper_elems d3 hk⟩
  · intro id hid
    have hk := (kd id).2 hid
    refine ⟨helper_elems a3 hk, helper_elems a6 hk, ?_⟩
    obtain ⟨_, g, _, hg⟩ := (create_detector_data_dsets_loop_ok _ _ _ _ c1 id).1 hk
    simp only [start_SWMR_access_to_file, frames_at, hg]
    rfl

end DaqWriter

/-! ## The shot scheduler -/

/-- A family whose first shot is negative never participates: its cursor never
moves. -/
theorem sched_neg (first stride : Int) (h : first < 0) (n : Nat) :
    sched_cursor first stride n = first ∧ sched_parts first stride n = [] := by
  induction n with
  | zero => exact ⟨rfl, rfl⟩
  | succ n ih =>
    have hne : ¬ ((n : Int) = sched_cursor first stride n) := by
      rw [ih.1]
      omega
    simp only [sched_cursor, sched_parts, hne, if_false]
    exact ih

/-- A family whose first shot is not negative participates at `first`,
`first + s`, `first + 2 s`, ... with `s = max 1 stride`, as long as these are
below the current fiducial; its cursor is the next such value, or negative once
the addition has left the range of an `int`. -/
theorem sched_spec (first stride : Int) (hf : in_int first) (hs : in_int stride)
    (h0 : 0 ≤ first) (n : Nat) :
    sched_parts first stride n
      = (List.range (sched_parts first stride n).length).map
          (fun (k : Nat) => first + (k : Int) * max 1 stride) ∧
    (∀ k : Nat, k < (sched_parts first stride n).length →
      first + (k : Int) * max 1 stride < n) ∧
    ((sched_cursor first stride n
        = first + ((sched_parts first stride n).length : Int) * max 1 stride ∧
      (n : Int) ≤ sched_cursor first stride n ∧ sched_cursor first stride n < 2 ^ 31) ∨
     (sched_cursor first stride n < 0 ∧
      2 ^ 31 ≤ first + ((sched_parts first stride n).length : Int) * max 1 stride)) := by
  have hs1 : 1 ≤ max 1 stride := le_max_left _ _
  have hs2 : max 1 stride < 2 ^ 31 := by
    unfold in_int at hs
    omega
  generalize hsdef : max 1 stride = s at hs1 hs2 ⊢
  unfold in_int at hf
  induction n with
  | zero =>
    refine ⟨by simp [sched_parts], by simp [sched_parts], Or.inl ?_⟩
    simp only [sched_cursor, sched_parts, List.length_nil]
    omega
  | succ n ih =>
    obtain ⟨ih1, ih2, ih3⟩ := ih
    by_cases hp : (n : Int) = sched_cursor first stride n
    · have hc : sched_cursor first stride n
          = first + ((sched_parts first stride n).length : Int) * s := by
        rcases ih3 with h | h
        · exact h.1
        · omega
      have hlt : sched_cursor first stride n < 2 ^ 31 := by
        rcases ih3 with h | h
        · exact h.2.2
        · omega
      simp only [sched_cursor, sched_parts, if_pos hp, List.length_append, List.length_singleton]
      have e : (((sched_parts first stride n).length + 1 : Nat) : Int) * s
          = ((sched_parts first stride n).length : Int) * s + s := by
        push_cast
        ring
      refine ⟨?_, ?_, ?_⟩
      · rw [List.range_succ, List.map_append, ← ih1]
        simp only [List.map_cons, List.map_nil]
        rw [← hc, ← hp]
      · intro k hk
        by_cases hk' : k < (sched_parts first stride n).length
        · have := ih2 k hk'
          push_cast
          omega
        · have hk2 : k = (sched_parts first stride n).length := by omega
          rw [hk2, ← hc, ← hp]
          push_cast
          omega
      · rw [e, hsdef]
        generalize ((sched_parts first stride n).length : Int) * s = q at hc ⊢
        by_cases hw : (n : Int) + s < 2 ^ 31
        · left
          unfold wrap32
          push_cast
          omega
        · right
          unfold wrap32
          omega
    · simp only [sched_cursor, sched_parts, if_neg hp]
      refine ⟨ih1, ?_, ?_⟩
      · intro k hk
        have := ih2 k hk
        push_cast
        omega
      · rcases ih3 with h | h
        · left
          refine ⟨h.1, ?_, h.2.2⟩
          push_cast
          omega
        · right
          exact h

/-! ## The vlen element count and the vlen payload -/

/-- With `0 ≤ min < max` the count stays in `[min, max)`, and the update never
leaves the range of an `int`: it is `max(min, (c + 1) mod max)`. -/
theorem vlen_count_bounds (vmin vmax : Int) (h0 : 0 ≤ vmin) (h1 : vmin < vmax)
    (h2 : vmax < 2 ^ 31) (k : Nat) :
    (vmin ≤ vlen_count vmin vmax k ∧ vlen_count vmin vmax k < vmax) ∧
    vlen_count vmin vmax (k + 1) = max vmin ((vlen_count vmin vmax k + 1) % vmax) := by
  induction k with
  | zero =>
    refine ⟨⟨by simp [vlen_count], by simpa [vlen_count] using h1⟩, ?_⟩
    simp only [vlen_count]
    have hw : wrap32 (vmin + 1) = vmin + 1 := by
      unfold wrap32
      omega
    rw [hw, Int.tmod_eq_emod (by omega) (by omega)]
  | succ k ih =>
    obtain ⟨⟨i1, i2⟩, i3⟩ := ih
    have hm := Int.emod_nonneg (vlen_count vmin vmax k + 1) (show vmax ≠ 0 by omega)
    have hm2 := Int.emod_lt_of_pos (vlen_count vmin vmax k + 1) (show 0 < vmax by omega)
    have b1 : vmin ≤ vlen_count vmin vmax (k + 1) := by
      rw [i3]
      exact le_max_left _ _
    have b2 : vlen_count vmin vmax (k + 1) < vmax := by
      rw [i3]
      exact max_lt h1 hm2
    refine ⟨⟨b1, b2⟩, ?_⟩
    have hw : wrap32 (vlen_count vmin vmax (k + 1) + 1) = vlen_count vmin vmax (k + 1) + 1 := by
      unfold wrap32
      omega
    have : vlen_count vmin vmax (k + 1 + 1)
        = max vmin (Int.tmod (wrap32 (vlen_count vmin vmax (k + 1) + 1)) vmax) := rfl
    rw [this, hw, Int.tmod_eq_emod (by omega) (by omega)]

/-- The vlen payload of a channel after `n` fiducials: one `blobstart` and one
`blobcount` entry per participation, the counts in the order of the count
sequence, every start the length of the blob before it, and the slice of a
participation filled with its fiducial. -/
theorem vlen_file_spec (c : DaqWriterConfig) (n : Nat) :
    ((vlen_file c n).blobcount.length
        = (sched_parts c.vlen_shot_first c.vlen_shot_stride n).length ∧
      (vlen_file c n).blobstart.length
        = (sched_parts c.vlen_shot_first c.vlen_shot_stride n).length) ∧
    (vlen_file c n).blobcount
      = (List.range (sched_parts c.vlen_shot_first c.vlen_shot_stride n).length).map
          (fun k => vlen_count c.vlen_min_per_shot c.vlen_max_per_shot (k + 1)) ∧
    ((∀ x ∈ (vlen_file c n).blobcount, 0 ≤ x) →
      ((vlen_file c n).blob.length : Int) = (vlen_file c n).blobcount.sum ∧
      ∀ k, k < (vlen_file c n).blobcount.length →
        (vlen_file c n).blobstart[k]? = some (((vlen_file c n).blobcount.take k).sum)) ∧
    (∀ (k : Nat) (s cnt f : Int), (vlen_file c n).blobstart[k]? = some s →
      (vlen_file c n).blobcount[k]? = some cnt →
      (sched_parts c.vlen_shot_first c.vlen_shot_stride n)[k]? = some f →
      ∀ j : Nat, s ≤ j → (j : Int) < s + cnt → (vlen_file c n).blob[j]? = some f) := by
  induction n with
  | zero => simp [vlen_file, sched_parts]
  | succ n ih =>
    obtain ⟨⟨l1, l2⟩, ih2, ih3, ih4⟩ := ih
    by_cases hp : (n : Int) = sched_cursor c.vlen_shot_first c.vlen_shot_stride n
    · simp only [vlen_file, sched_parts, if_pos hp]
      generalize hcnt : vlen_count c.vlen_min_per_shot c.vlen_max_per_shot
        ((sched_parts c.vlen_shot_first c.vlen_shot_stride n).length + 1) = cn
      refine ⟨⟨by simp [l1], by simp [l2]⟩, ?_, ?_, ?_⟩
      · rw [List.length_append, List.length_singleton, List.range_succ, List.map_append, ← ih2]
        simp [hcnt]
      · intro hnn
        have hnn1 : ∀ x ∈ (vlen_file c n).blobcount, 0 ≤ x :=
          fun x hx => hnn x (List.mem_append_left _ hx)
        have hcn : 0 ≤ cn := hnn cn (by simp)
        obtain ⟨j1, j2⟩ := ih3 hnn1
        constructor
        · simp only [List.length_append, List.length_replicate, List.sum_append, List.sum_cons,
            List.sum_nil]
          push_cast
          omega
        · intro k hk
          simp only [List.length_append, List.length_singleton] at hk
          by_cases hk' : k < (vlen_file c n).blobcount.length
          · rw [List.getElem?_append_left (by omega), j2 k hk',
              List.take_append_of_le_length (by omega)]
          · have hk2 : k = (vlen_file c n).blobcount.length := by omega
            rw [List.getElem?_append_right (by omega)]
            have : k - (vlen_file c n).blobstart.length = 0 := by omega
            rw [this, hk2, List.take_append_of_le_length (le_refl _), List.take_length]
            simp [j1]
      · intro k s cnt f hs hc hf j hj1 hj2
        by_cases hk' : k < (sched_parts c.vlen_shot_first c.vlen_shot_stride n).length
        · rw [List.getElem?_append_left (by omega)] at hs hc hf
          have := ih4 k s cnt f hs hc hf j hj1 hj2
          have hlt : j < (vlen_file c n).blob.length := by
            rcases List.getElem?_eq_some.1 this with ⟨h, _⟩
            exact h
          rw [List.getElem?_append_left hlt]
          exact this
        · by_cases hk2 : k = (sched_parts c.vlen_shot_first c.vlen_shot_stride n).length
          · rw [List.getElem?_append_right (by omega)] at hs hc hf
            have e1 : k - (vlen_file c n).blobstart.length = 0 := by omega
            have e2 : k - (vlen_file c n).blobcount.length = 0 := by omega
            have e3 : k - (sched_parts c.vlen_shot_first c.vlen_shot_stride n).length = 0 := by
              omega
            rw [e1] at hs
            rw [e2] at hc
            rw [e3] at hf
            simp only [List.getElem?_cons_zero, Option.some.injEq] at hs hc hf
            subst hs hc hf
            rw [List.getElem?_append_right (by omega), List.getElem?_replicate_of_lt (by omega)]
          · have : (sched_parts c.vlen_shot_first c.vlen_shot_stride n ++ [(n : Int)])[k]?
                = none := by
              apply List.getElem?_eq_none
              simp
              omega
            rw [this] at hf
            exact Option.noConfusion hf
    · simp only [vlen_file, sched_parts, if_neg hp]
      exact ⟨⟨l1, l2⟩, ih2, ih3, ih4⟩

/-! ## The run returns -/

namespace DaqWriter

/-- On a valid configuration a call of `write` returns. -/
theorem write_total {c : DaqWriterConfig} {clk : Family → Int → Int}
    {n : Nat} {w : DaqWriter} (hv : c.valid) (hi : LoopInv c clk n w) :
    ∃ w', w.write clk (n : Int) = .ok w' := by
  obtain ⟨hwf, ⟨v0, v1⟩, _, _, r0, r1, r2⟩ := hv
  obtain ⟨hmin, hmax⟩ := wf_vlen hwf
  unfold write
  generalize hws : write_small { w with m_events := w.m_events ++ [.write (n : Int)] } clk n
    = ws
  have hsc := write_small_config { w with m_events := w.m_events ++ [.write (n : Int)] } clk n
  have hsv := write_small_vlen_view { w with m_events := w.m_events ++ [.write (n : Int)] } clk n
  have hsd := write_small_detector_view
    { w with m_events := w.m_events ++ [.write (n : Int)] } clk n
  rw [hws] at hsc hsv hsd
  simp only at hsc
  simp only [small_view, vlen_view, detector_view, Prod.mk.injEq] at hsv hsd
  obtain ⟨⟨sv1, sv2, sv3⟩, -⟩ := hsv
  obtain ⟨⟨sd1, sd2⟩, -⟩ := hsd
  have hcfg : ws.m_config = c := by rw [hsc]; exact hi.config
  have hmax2 : c.vlen_max_per_shot < 2 ^ 31 := hmax.2
  have hL : (ws.m_vlen_data.length : Int) < 2 ^ 31 := by
    rw [sv3, hi.vlen_data]
    omega
  have hb := vlen_count_bounds c.vlen_min_per_shot c.vlen_max_per_shot v0 v1 hmax2
    ((sched_parts c.vlen_shot_first c.vlen_shot_stride n).length + 1)
  have hvl : ∃ wv, ws.write_vlen clk n = .ok wv := by
    rw [write_vlen_eq ws clk n (by rw [hcfg]; exact hmin) (by rw [hcfg]; exact hmax) hL]
    by_cases hp : (n : Int) = ws.m_next_vlen
    · rw [if_pos hp, hcfg, sv2, sv3, hi.next_vlen_count]
      have g1 : ¬ (c.vlen_max_per_shot = 0 ∨
          (wrap32 (vlen_count c.vlen_min_per_shot c.vlen_max_per_shot
            (sched_parts c.vlen_shot_first c.vlen_shot_stride n).length + 1) = -(2 ^ 31) ∧
            c.vlen_max_per_shot = -1)) := by omega
      rw [if_neg g1]
      have g2 : ¬ (w.m_vlen_data.length < to_unsigned (max c.vlen_min_per_shot
          (Int.tmod (wrap32 (vlen_count c.vlen_min_per_shot c.vlen_max_per_shot
            (sched_parts c.vlen_shot_first c.vlen_shot_stride n).length + 1))
            c.vlen_max_per_shot))) := by
        have e : max c.vlen_min_per_shot
            (Int.tmod (wrap32 (vlen_count c.vlen_min_per_shot c.vlen_max_per_shot
              (sched_parts c.vlen_shot_first c.vlen_shot_stride n).length + 1))
              c.vlen_max_per_shot)
            = vlen_count c.vlen_min_per_shot c.vlen_max_per_shot
              ((sched_parts c.vlen_shot_first c.vlen_shot_stride n).length + 1) := rfl
        rw [e, hi.vlen_data]
        unfold to_unsigned
        omega
      rw [if_neg g2]
      exact ⟨_, rfl⟩
    · rw [if_neg hp]
      exact ⟨_, rfl⟩
  obtain ⟨wv, hwv⟩ := hvl
  rw [hwv]
  simp only
  obtain ⟨⟨vc, _, _, vd, _⟩, -⟩ :=
    write_vlen_ok hwv (by rw [hcfg]; exact hmin) (by rw [hcfg]; exact hmax) hL
  simp only [detector_view, Prod.mk.injEq] at vd
  obtain ⟨⟨vd1, vd2⟩, -⟩ := vd
  unfold write_detector
  split_ifs
  · apply write_detector_chans_eq
    simp only [List.length_map]
    rw [vc, hcfg, vd2, sd2, hi.detector_data]
    have hw : wrap32 (c.detector_columns * c.detector_rows)
        = c.detector_rows * c.detector_columns := by
      have h0 : 0 ≤ c.detector_rows * c.detector_columns := Int.mul_nonneg r0 r1
      rw [Int.mul_comm]
      unfold wrap32
      omega
    rw [hw]
    have h0 : 0 ≤ c.detector_rows * c.detector_columns := Int.mul_nonneg r0 r1
    omega
  · exact ⟨_, rfl⟩

/-- On a valid configuration every iteration of the loop of `run` returns. -/
theorem run_loop_total {c : DaqWriterConfig} {clk : Family → Int → Int} {w0 : DaqWriter}
    (hv : c.valid) (h0 : LoopInv c clk 0 w0) (n : Nat) :
    ∃ w, w0.run_loop clk n = .ok w := by
  induction n with
  | zero => exact ⟨w0, rfl⟩
  | succ n ih =>
    obtain ⟨w, hw⟩ := ih
    have hi := (run_loop_inv hv.1 h0 n hw).1
    obtain ⟨w1, hw1⟩ := write_total hv hi
    have hc : w1.m_config = c := (write_inv hv.1 hi hw1).1.config
    have hfi : c.flush_interval ≠ 0 := by
      have := hv.2.2.1
      omega
    simp only [run_loop, hw, run_step, hw1, hc, hfi, if_false]
    split_ifs <;> exact ⟨_, rfl⟩


/-- On a valid configuration the layout builder returns. -/
theorem layout_total (c : DaqWriterConfig) (hv : c.valid) :
    ∃ w1, create_all_groups_datasets_and_attributes (create_file (init c)) = .ok w1 := by
  have hc : 0 < c.small_chunksize := hv.2.2.2.1
  have ns := (create_number_groups_keys (H5Gcreate2 [] "small") c.small_name_first
    c.small_name_count).2
  have nv := (create_number_groups_keys (H5Gcreate2 [] "vlen") c.vlen_name_first
    c.vlen_name_count).2
  have nd := (create_number_groups_keys (H5Gcreate2 [] "detctor") c.detector_name_first
    c.detector_name_count).2
  have he : ∀ (gs : IntMap hid_t), ∀ k ∈ map_keys gs, map_find ([] : IntMap DsetInfo) k = none :=
    fun _ _ _ => rfl
  obtain ⟨sf, hsf⟩ := @create_small_dsets_helper_total "fiducials" .H5T_NATIVE_LONG 8 _ hc _ []
    ns (he _)
  obtain ⟨vf, hvf⟩ := @create_small_dsets_helper_total "fiducials" .H5T_NATIVE_LONG 8 _ hc _ []
    nv (he _)
  obtain ⟨df, hdf⟩ := @create_small_dsets_helper_total "fiducials" .H5T_NATIVE_LONG 8 _ hc _ []
    nd (he _)
  obtain ⟨sn, hsn⟩ := @create_small_dsets_helper_total "nano" .H5T_NATIVE_LONG 8 _ hc _ []
    ns (he _)
  obtain ⟨vn, hvn⟩ := @create_small_dsets_helper_total "nano" .H5T_NATIVE_LONG 8 _ hc _ []
    nv (he _)
  obtain ⟨dn, hdn⟩ := @create_small_dsets_helper_total "nano" .H5T_NATIVE_LONG 8 _ hc _ []
    nd (he _)
  obtain ⟨sd, hsd⟩ := @create_small_dsets_helper_total "data" .H5T_NATIVE_LONG 8 _ hc _ []
    ns (he _)
  obtain ⟨dd, hdd⟩ := create_detector_data_dsets_loop_total c _ [] nd (he _)
  obtain ⟨bl, hbl⟩ := @create_small_dsets_helper_total "blob" .H5T_NATIVE_LONG 8 _ hc _ []
    nv (he _)
  obtain ⟨bs, hbs⟩ := @create_small_dsets_helper_total "blobstart" .H5T_NATIVE_LONG 8 _ hc _ []
    nv (he _)
  obtain ⟨bc, hbc⟩ := @create_small_dsets_helper_total "blobcount" .H5T_NATIVE_LONG 8 _ hc _ []
    nv (he _)
  have s1 : create_index_dsets (create_groups (create_file (init c))) = .ok
      { create_groups (create_file (init c)) with
        m_small_id_to_fiducials_dset := sf
        m_vlen_id_to_fiducials_dset := vf
        m_detector_id_to_fiducials_dset := df
        m_small_id_to_nano_dset := sn
        m_vlen_id_to_nano_dset := vn
        m_detector_id_to_nano_dset := dn } := by
    unfold create_index_dsets
    have e1 : (create_groups (create_file (init c))).create_fiducials_dsets
        (create_groups (create_file (init c))).m_small_id_to_number_group
        (create_groups (create_file (init c))).m_small_id_to_fiducials_dset = .ok sf := hsf
    have e2 : (create_groups (create_file (init c))).create_fiducials_dsets
        (create_groups (create_file (init c))).m_vlen_id_to_number_group
        (create_groups (create_file (init c))).m_vlen_id_to_fiducials_dset = .ok vf := hvf
    have e3 : (create_groups (create_file (init c))).create_fiducials_dsets
        (create_groups (create_file (init c))).m_detector_id_to_number_group
        (create_groups (create_file (init c))).m_detector_id_to_fiducials_dset = .ok df := hdf
    have e4 : (create_groups (create_file (init c))).create_nano_dsets
        (create_groups (create_file (init c))).m_small_id_to_number_group
        (create_groups (create_file (init c))).m_small_id_to_nano_dset = .ok sn := hsn
    have e5 : (create_groups (create_file (init c))).create_nano_dsets
        (create_groups (create_file (init c))).m_vlen_id_to_number_group
        (create_groups (create_file (init c))).m_vlen_id_to_nano_dset = .ok vn := hvn
    have e6 : (create_groups (create_file (init c))).create_nano_dsets
        (create_groups (create_file (init c))).m_detector_id_to_number_group
        (create_groups (create_file (init c))).m_detector_id_to_nano_dset = .ok dn := hdn
    rw [e1, e2, e3, e4, e5, e6]
  unfold create_all_groups_datasets_and_attributes
  rw [s1]
  simp only
  unfold create_small_data_dsets
  have e7 : create_small_dsets_helper "data" .H5T_NATIVE_LONG 8
      ({ create_groups (create_file (init c)) with
        m_small_id_to_fiducials_dset := sf
        m_vlen_id_to_fiducials_dset := vf
        m_detector_id_to_fiducials_dset := df
        m_small_id_to_nano_dset := sn
        m_vlen_id_to_nano_dset := vn
        m_detector_id_to_nano_dset := dn } : DaqWriter).m_config.small_chunksize
      ({ create_groups (create_file (init c)) with
        m_small_id_to_fiducials_dset := sf
        m_vlen_id_to_fiducials_dset := vf
        m_detector_id_to_fiducials_dset := df
        m_small_id_to_nano_dset := sn
        m_vlen_id_to_nano_dset := vn
        m_detector_id_to_nano_dset := dn } : DaqWriter).m_small_id_to_number_group
      ({ create_groups (create_file (init c)) with
        m_small_id_to_fiducials_dset := sf
        m_vlen_id_to_fiducials_dset := vf
        m_detector_id_to_fiducials_dset := df
        m_small_id_to_nano_dset := sn
        m_vlen_id_to_nano_dset := vn
        m_detector_id_to_nano_dset := dn } : DaqWriter).m_small_id_to_data_dset = .ok sd := hsd
  rw [e7]
  simp only
  unfold create_detector_data_dsets
  simp only
  have e8 : create_detector_data_dsets_loop (create_groups (create_file (init c))).m_config
      (create_groups (create_file (init c))).m_detector_id_to_number_group
      (create_groups (create_file (init c))).m_detector_id_to_data_dset = .ok dd := hdd
  rw [e8]
  simp only
  unfold create_vlen_blob_and_index_dsets
  simp only
  have e9 : create_small_dsets_helper "blob" .H5T_NATIVE_LONG 8
      (create_groups (create_file (init c))).m_config.small_chunksize
      (create_groups (create_file (init c))).m_vlen_id_to_number_group
      (create_groups (create_file (init c))).m_vlen_id_to_blob_dset = .ok bl := hbl
  have e10 : create_small_dsets_helper "blobstart" .H5T_NATIVE_LONG 8
      (create_groups (create_file (init c))).m_config.small_chunksize
      (create_groups (create_file (init c))).m_vlen_id_to_number_group
      (create_groups (create_file (init c))).m_vlen_id_to_blob_start_dset = .ok bs := hbs
  have e11 : create_small_dsets_helper "blobcount" .H5T_NATIVE_LONG 8
      (create_groups (create_file (init c))).m_config.small_chunksize
      (create_groups (create_file (init c))).m_vlen_id_to_number_group
      (create_groups (create_file (init c))).m_vlen_id_to_blob_count_dset = .ok bc := hbc
  rw [e9, e10, e11]
  exact ⟨_, rfl⟩

end DaqWriter

/-! ## The whole run -/

namespace DaqWriter

/-- The state after the first `n` iterations of `run` on a freshly constructed
writer, and the calls logged so far. -/
theorem run_upto_inv {c : DaqWriterConfig} {clk : Family → Int → Int} {n : Nat}
    {w' : DaqWriter} (hwf : c.wf) (h : (init c).run_upto clk n = .ok w') :
    LoopInv c clk n w' ∧
      w'.m_events = [.file_created (init c).m_fname_h5, .swmr_started]
        ++ loop_events c.flush_interval n := by
  unfold run_upto at h
  split at h
  · cases h
  · rename_i w1 h1
    obtain ⟨i1, i2⟩ := layout_inv c clk h1
    obtain ⟨j1, j2⟩ := run_loop_inv hwf i1 n h
    exact ⟨j1, by rw [j2, i2]⟩

/-- On a valid configuration the first `n` iterations of `run` return. -/
theorem run_upto_total {c : DaqWriterConfig} (clk : Family → Int → Int) (n : Nat)
    (hv : c.valid) : ∃ w', (init c).run_upto clk n = .ok w' := by
  obtain ⟨w1, h1⟩ := layout_total c hv
  unfold run_upto
  rw [h1]
  exact run_loop_total hv (layout_inv c clk h1).1 n

/-- A run that returns has done all its iterations, was not asked to hang, and
has closed the file. -/
theorem run_ok {w w' : DaqWriter} {clk : Family → Int → Int} (h : w.run clk = .ok w') :
    ∃ w2, w.run_upto clk w.m_config.num_shots.toNat = .ok w2 ∧ w2.m_config.writers_hang = 0 ∧
      w' = { w2 with m_events := w2.m_events ++ [.file_closed] } := by
  unfold run at h
  split at h
  · cases h
  · rename_i w2 h2
    by_cases hh : w2.m_config.writers_hang = 0
    · simp only [hh, ne_eq, not_true_eq_false, if_false] at h
      injection h with h
      exact ⟨w2, h2, hh, h.symm⟩
    · simp [hh] at h

/-- On a valid configuration that does not ask the writer to hang, `run`
returns. -/
theorem run_total {c : DaqWriterConfig} (clk : Family → Int → Int) (hv : c.valid)
    (hh : c.writers_hang = 0) : ∃ w', (init c).run clk = .ok w' := by
  obtain ⟨w2, h2⟩ := run_upto_total clk c.num_shots.toNat hv
  have hc : w2.m_config = c := (run_upto_inv hv.1 h2).1.config
  unfold run
  have e : (init c).m_config = c := rfl
  rw [e, h2]
  simp [hc, hh]

/-- The state after a run that returned. -/
theorem run_inv {c : DaqWriterConfig} {clk : Family → Int → Int} {w' : DaqWriter}
    (hwf : c.wf) (h : (init c).run clk = .ok w') :
    LoopInv c clk c.num_shots.toNat w' ∧
      w'.m_events = [.file_created (init c).m_fname_h5, .swmr_started]
        ++ loop_events c.flush_interval c.num_shots.toNat ++ [.file_closed] := by
  obtain ⟨w2, h2, _, h3⟩ := run_ok h
  have e : (init c).m_config = c := rfl
  rw [e] at h2
  obtain ⟨i1, i2⟩ := run_upto_inv hwf h2
  subst h3
  exact ⟨LoopInv.of_views i1 rfl rfl rfl rfl, by simp [i2]⟩

end DaqWriter

/-! ## Participation count (C1) -/

theorem wf_sched {c : DaqWriterConfig} (hwf : c.wf) (F : Family) :
    in_int (c.shot_first F) ∧ in_int (c.shot_stride F) := by
  unfold DaqWriterConfig.wf at hwf
  obtain ⟨_, _, _, _, _, ⟨a1, a2, a3⟩, ⟨b1, b2, b3⟩, _⟩ := hwf
  cases F
  · exact ⟨a1, b1⟩
  · exact ⟨a2, b2⟩
  · exact ⟨a3, b3⟩

/-- The `fiducials` dataset of every channel of every family holds the
fiducials at which the family participated. -/
theorem LoopInv.fiducials {c : DaqWriterConfig} {clk : Family → Int → Int} {n : Nat}
    {w : DaqWriter} (hi : LoopInv c clk n w) (F : Family) {id : Int}
    (hid : id ∈ chan_ids (c.name_first F) (c.name_count F)) :
    elems_at (w.fiducials_dset F) id = some (sched_parts (c.shot_first F) (c.shot_stride F) n) := by
  cases F
  · exact (hi.small id hid).1
  · exact (hi.vlen id hid).1
  · exact (hi.detector id hid).1

theorem elems_at_some {m : IntMap DsetInfo} {id : Int} {l : List Int}
    (h : elems_at m id = some l) : ∃ d, map_find m id = some d ∧ d.elems = l := by
  unfold elems_at at h
  cases hf : map_find m id with
  | none => simp [hf] at h
  | some d => exact ⟨d, rfl, by simpa [hf] using h⟩

theorem frames_at_some {m : IntMap DsetInfo} {id : Int} {l : List (List Int)}
    (h : frames_at m id = some l) : ∃ d, map_find m id = some d ∧ d.frames = l := by
  unfold frames_at at h
  cases hf : map_find m id with
  | none => simp [hf] at h
  | some d => exact ⟨d, rfl, by simpa [hf] using h⟩

/-- The number of participations among the fiducials `0, ..., n - 1`, for `n`
up to `2^31`. -/
theorem sched_parts_length (first stride : Int) (hf : in_int first) (hs : in_int stride)
    (n : Nat) (hn : (n : Int) ≤ 2 ^ 31) :
    ((sched_parts first stride n).length : Int)
      = if 0 ≤ first ∧ first < n then
          ⌈(((n : Int) - first : Int) : ℚ) / ((max 1 stride : Int) : ℚ)⌉
        else 0 := by
  by_cases h0 : 0 ≤ first
  · obtain ⟨_, h2, h3⟩ := sched_spec first stride hf hs h0 n
    have hs1 : 1 ≤ max 1 stride := le_max_left _ _
    generalize max 1 stride = s at h2 h3 hs1 ⊢
    generalize hK : (sched_parts first stride n).length = K at h2 h3 ⊢
    by_cases h1 : first < n
    · rw [if_pos ⟨h0, h1⟩]
      symm
      rw [Int.ceil_eq_iff]
      have hsq : (0 : ℚ) < (s : ℚ) := by exact_mod_cast (show (0 : Int) < s by omega)
      constructor
      · rw [lt_div_iff₀ hsq]
        have key : ((K : Int) - 1) * s < (n : Int) - first := by
          rcases Nat.eq_zero_or_pos K with hz | hz
          · subst hz
            simp only [Nat.cast_zero, zero_sub, neg_mul, one_mul]
            omega
          · have := h2 (K - 1) (by omega)
            have e : ((K - 1 : Nat) : Int) = (K : Int) - 1 := by omega
            rw [e] at this
            omega
        exact_mod_cast key
      · rw [div_le_iff₀ hsq]
        have key : (n : Int) - first ≤ (K : Int) * s := by
          rcases h3 with h | h
          · omega
          · omega
        exact_mod_cast key
    · have hz : K = 0 := by
        rcases Nat.eq_zero_or_pos K with hz | hz
        · exact hz
        · have := h2 0 hz
          simp only [Nat.cast_zero, zero_mul, add_zero] at this
          omega
      have hc : ¬ (0 ≤ first ∧ first < (n : Int)) := fun h => h1 h.2
      rw [if_neg hc, hz]
      rfl
  · have hc : ¬ (0 ≤ first ∧ first < (n : Int)) := fun h => h0 h.1
    rw [if_neg hc, (sched_neg first stride (by omega) n).2]
    rfl

/-- C1 (as amended): participation count.  For every configuration with
`num_shots ≤ 2^31` and every family `F`, after a completed `run` the
`fiducials` dataset of each channel of `F` has
`ceil((num_shots - F_shot_first) / max(1, F_shot_stride))` elements when
`0 ≤ F_shot_first < num_shots`, and none otherwise; in particular a family with
a negative `F_shot_first` writes nothing. -/
theorem participation_count (c : DaqWriterConfig) (clk : Family → Int → Int) (w' : DaqWriter)
    (hwf : c.wf) (hshots : c.num_shots ≤ 2 ^ 31)
    (hrun : (DaqWriter.init c).run clk = .ok w') (F : Family) (id : Int)
    (hid : id ∈ chan_ids (c.name_first F) (c.name_count F)) :
    ∃ d, map_find (w'.fiducials_dset F) id = some d ∧
      (d.elems.length : Int)
        = if 0 ≤ c.shot_first F ∧ c.shot_first F < c.num_shots then
            ⌈((c.num_shots - c.shot_first F : Int) : ℚ) / ((max 1 (c.shot_stride F) : Int) : ℚ)⌉
          else 0 := by
  obtain ⟨hi, _⟩ := DaqWriter.run_inv hwf hrun
  obtain ⟨d, hd, he⟩ := elems_at_some (hi.fiducials F hid)
  refine ⟨d, hd, ?_⟩
  obtain ⟨hf, hs⟩ := wf_sched hwf F
  rw [he, sched_parts_length _ _ hf hs _ (by omega)]
  by_cases hpos : 0 ≤ c.num_shots
  · rw [Int.toNat_of_nonneg hpos]
  · have e : c.num_shots.toNat = 0 := by omega
    rw [e]
    have c1 : ¬ (0 ≤ c.shot_first F ∧ c.shot_first F < ((0 : Nat) : Int)) := by
      simp only [Nat.cast_zero]
      omega
    have c2 : ¬ (0 ≤ c.shot_first F ∧ c.shot_first F < c.num_shots) := by omega
    rw [if_neg c1, if_neg c2]

/-- Witness of C1: the sample run, the small family and its channel 7. -/
theorem participation_count_witness :
    sample_config.wf ∧ sample_config.num_shots ≤ 2 ^ 31 ∧
    (DaqWriter.init sample_config).run sample_clock = .ok sample_run ∧
    (7 : Int) ∈ chan_ids (sample_config.name_first .small) (sample_config.name_count .small) ∧
    ∃ d, map_find (sample_run.fiducials_dset .small) 7 = some d ∧
      (d.elems.length : Int)
        = if 0 ≤ sample_config.shot_first .small ∧
              sample_config.shot_first .small < sample_config.num_shots then
            ⌈((sample_config.num_shots - sample_config.shot_first .small : Int) : ℚ)
              / ((max 1 (sample_config.shot_stride .small) : Int) : ℚ)⌉
          else 0 :=
  ⟨by decide, by decide, rfl, by decide,
    participation_count sample_config sample_clock sample_run (by decide) (by decide) rfl
      .small 7 (by decide)⟩

/-- Counterexample to C1 as stated: with `small_shot_first = -1`, a stride of 1
and four shots the run completes, and the `fiducials` dataset of small channel 7
does not have `ceil((4 - (-1)) / 1) = 5` elements: it is empty. -/
theorem participation_count_counterexample :
    (DaqWriter.init negative_first_config).run sample_clock = .ok negative_first_run ∧
    ¬ ∃ d, map_find (negative_first_run.fiducials_dset .small) 7 = some d ∧
      (d.elems.length : Int)
        = if negative_first_config.small_shot_first < negative_first_config.num_shots then
            ⌈((negative_first_config.num_shots - negative_first_config.small_shot_first : Int) : ℚ)
              / ((max 1 negative_first_config.small_shot_stride : Int) : ℚ)⌉
          else 0 := by
  refine ⟨rfl, ?_⟩
  rintro ⟨d, hd, hl⟩
  have e : elems_at (negative_first_run.fiducials_dset .small) 7 = some [] := rfl
  unfold elems_at at e
  rw [hd] at e
  simp only [Option.map_some', Option.some.injEq] at e
  rw [e, if_pos (by decide)] at hl
  have h5 : ⌈((negative_first_config.num_shots - negative_first_config.small_shot_first : Int) : ℚ)
      / ((max 1 negative_first_config.small_shot_stride : Int) : ℚ)⌉ = 5 := by
    rw [Int.ceil_eq_iff]
    simp only [negative_first_config, sample_config]
    norm_num
  rw [h5] at hl
  simp at hl

/-! ## The vlen sawtooth (C2, C4) -/

theorem getElem?_map_range {α : Type} (f : Nat → α) (K k : Nat) (x : α) :
    ((List.range K).map f)[k]? = some x ↔ k < K ∧ f k = x := by
  by_cases h : k < K
  · simp [List.getElem?_map, List.getElem?_range h, h]
  · have : ((List.range K).map f)[k]? = none := by
      apply List.getElem?_eq_none
      simp
      omega
    simp [this, h]

/-- The `blobcount` dataset of a vlen channel after `n` iterations: the count
sequence from its second term on. -/
theorem LoopInv.blobcount {c : DaqWriterConfig} {clk : Family → Int → Int} {n : Nat}
    {w : DaqWriter} (hi : LoopInv c clk n w) {id : Int}
    (hid : id ∈ chan_ids c.vlen_name_first c.vlen_name_count) :
    ∃ d, map_find w.m_vlen_id_to_blob_count_dset id = some d ∧
      d.elems = (List.range (sched_parts c.vlen_shot_first c.vlen_shot_stride n).length).map
        (fun k => vlen_count c.vlen_min_per_shot c.vlen_max_per_shot (k + 1)) := by
  obtain ⟨d, hd, he⟩ := elems_at_some (hi.vlen id hid).2.2.2.2
  exact ⟨d, hd, by rw [he, (vlen_file_spec c n).2.1]⟩

/-- C2 (as amended): the vlen sawtooth.  For every configuration with
`0 ≤ vlen_min_per_shot < vlen_max_per_shot`, the values appended to the
`blobcount` dataset of a vlen channel start at `max(min, (min + 1) mod max)`,
the count being updated before it is written, and then follow
`blobcount[k+1] = max(min, (blobcount[k] + 1) mod max)`; for min 2, max 4, six
shots, first shot 0 and stride 1 the written counts are `[3, 2, 3, 2, 3, 2]`. -/
theorem vlen_sawtooth (c : DaqWriterConfig) (clk : Family → Int → Int) (n : Nat)
    (w' : DaqWriter) (hwf : c.wf) (v0 : 0 ≤ c.vlen_min_per_shot)
    (v1 : c.vlen_min_per_shot < c.vlen_max_per_shot)
    (hrun : (DaqWriter.init c).run_upto clk n = .ok w') (id : Int)
    (hid : id ∈ chan_ids c.vlen_name_first c.vlen_name_count) :
    (∃ d, map_find w'.m_vlen_id_to_blob_count_dset id = some d ∧
      (∀ x, d.elems[0]? = some x →
        x = max c.vlen_min_per_shot ((c.vlen_min_per_shot + 1) % c.vlen_max_per_shot)) ∧
      (∀ (k : Nat) (x y : Int), d.elems[k]? = some x → d.elems[k + 1]? = some y →
        y = max c.vlen_min_per_shot ((x + 1) % c.vlen_max_per_shot))) ∧
    ((DaqWriter.init sample_config).run sample_clock = .ok sample_run ∧
      elems_at sample_run.m_vlen_id_to_blob_count_dset 0 = some [3, 2, 3, 2, 3, 2]) := by
  refine ⟨?_, rfl, rfl⟩
  obtain ⟨hi, _⟩ := DaqWriter.run_upto_inv hwf hrun
  obtain ⟨d, hd, he⟩ := hi.blobcount hid
  have hmax : c.vlen_max_per_shot < 2 ^ 31 := (DaqWriter.wf_vlen hwf).2.2
  refine ⟨d, hd, ?_, ?_⟩
  · intro x hx
    rw [he, getElem?_map_range] at hx
    rw [← hx.2]
    exact (vlen_count_bounds _ _ v0 v1 hmax 0).2
  · intro k x y hx hy
    rw [he, getElem?_map_range] at hx hy
    rw [← hx.2, ← hy.2]
    exact (vlen_count_bounds _ _ v0 v1 hmax (k + 1)).2

/-- Witness of C2: the first four iterations on the sample configuration and
its vlen channel 0. -/
theorem vlen_sawtooth_witness :
    sample_config.wf ∧ 0 ≤ sample_config.vlen_min_per_shot ∧
    sample_config.vlen_min_per_shot < sample_config.vlen_max_per_shot ∧
    (DaqWriter.init sample_config).run_upto sample_clock 4 = .ok sample_upto ∧
    (0 : Int) ∈ chan_ids sample_config.vlen_name_first sample_config.vlen_name_count ∧
    ((∃ d, map_find sample_upto.m_vlen_id_to_blob_count_dset 0 = some d ∧
      (∀ x, d.elems[0]? = some x →
        x = max sample_config.vlen_min_per_shot
          ((sample_config.vlen_min_per_shot + 1) % sample_config.vlen_max_per_shot)) ∧
      (∀ (k : Nat) (x y : Int), d.elems[k]? = some x → d.elems[k + 1]? = some y →
        y = max sample_config.vlen_min_per_shot ((x + 1) % sample_config.vlen_max_per_shot))) ∧
    ((DaqWriter.init sample_config).run sample_clock = .ok sample_run ∧
      elems_at sample_run.m_vlen_id_to_blob_count_dset 0 = some [3, 2, 3, 2, 3, 2])) :=
  ⟨by decide, by decide, by decide, rfl, by decide,
    vlen_sawtooth sample_config sample_clock 4 sample_upto (by decide) (by decide) (by decide)
      rfl 0 (by decide)⟩

/-- Counterexample to C2 as stated: for min 2, max 4, six shots, first shot 0
and stride 1 the run writes the counts `[3, 2, 3, 2, 3, 2]`, so `blobcount[0]`
is 3 and not `vlen_min_per_shot = 2`, and the counts are not
`[2, 3, 2, 3, 2, 3]`. -/
theorem vlen_sawtooth_counterexample :
    (sample_config.vlen_min_per_shot = 2 ∧ sample_config.vlen_max_per_shot = 4 ∧
      sample_config.num_shots = 6 ∧ sample_config.vlen_shot_first = 0 ∧
      sample_config.vlen_shot_stride = 1) ∧
    (DaqWriter.init sample_config).run sample_clock = .ok sample_run ∧
    ∃ d, map_find sample_run.m_vlen_id_to_blob_count_dset 0 = some d ∧
      d.elems = [3, 2, 3, 2, 3, 2] ∧ d.elems[0]? ≠ some sample_config.vlen_min_per_shot ∧
      d.elems ≠ [2, 3, 2, 3, 2, 3] :=
  ⟨by decide, rfl, _, rfl, rfl, by decide, by decide⟩

/-- C4: vlen count bounds.  For every configuration with
`0 ≤ vlen_min_per_shot < vlen_max_per_shot`, every count written to the
`blobcount` dataset of a vlen channel lies in `[min, max)`. -/
theorem vlen_count_range (c : DaqWriterConfig) (clk : Family → Int → Int) (n : Nat)
    (w' : DaqWriter) (hwf : c.wf) (v0 : 0 ≤ c.vlen_min_per_shot)
    (v1 : c.vlen_min_per_shot < c.vlen_max_per_shot)
    (hrun : (DaqWriter.init c).run_upto clk n = .ok w') (id : Int)
    (hid : id ∈ chan_ids c.vlen_name_first c.vlen_name_count) :
    ∃ d, map_find w'.m_vlen_id_to_blob_count_dset id = some d ∧
      ∀ (k : Nat) (x : Int), d.elems[k]? = some x → c.vlen_min_per_shot ≤ x ∧ x < c.vlen_max_per_shot := by
  obtain ⟨hi, _⟩ := DaqWriter.run_upto_inv hwf hrun
  obtain ⟨d, hd, he⟩ := hi.blobcount hid
  have hmax : c.vlen_max_per_shot < 2 ^ 31 := (DaqWriter.wf_vlen hwf).2.2
  refine ⟨d, hd, ?_⟩
  intro k x hx
  rw [he, getElem?_map_range] at hx
  rw [← hx.2]
  exact (vlen_count_bounds _ _ v0 v1 hmax (k + 1)).1

/-- Witness of C4: the first four iterations on the sample configuration and
its vlen channel 0. -/
theorem vlen_count_range_witness :
    sample_config.wf ∧ 0 ≤ sample_config.vlen_min_per_shot ∧
    sample_config.vlen_min_per_shot < sample_config.vlen_max_per_shot ∧
    (DaqWriter.init sample_config).run_upto sample_clock 4 = .ok sample_upto ∧
    (0 : Int) ∈ chan_ids sample_config.vlen_name_first sample_config.vlen_name_count ∧
    ∃ d, map_find sample_upto.m_vlen_id_to_blob_count_dset 0 = some d ∧
      ∀ (k : Nat) (x : Int), d.elems[k]? = some x →
        sample_config.vlen_min_per_shot ≤ x ∧ x < sample_config.vlen_max_per_shot :=
  ⟨by decide, by decide, by decide, rfl, by decide,
    vlen_count_range sample_config sample_clock 4 sample_upto (by decide) (by decide)
      (by decide) rfl 0 (by decide)⟩

/-! ## Monotone fiducials (C3) -/

/-- C3: monotone fiducials with exact stride.  For every family and every
channel of it, consecutive entries of the `fiducials` dataset differ by exactly
`max(1, F_shot_stride)`, so they increase strictly; a stride of 0 or a negative
stride behaves as 1. -/
theorem fiducials_stride (c : DaqWriterConfig) (clk : Family → Int → Int) (n : Nat)
    (w' : DaqWriter) (hwf : c.wf) (hrun : (DaqWriter.init c).run_upto clk n = .ok w')
    (F : Family) (id : Int) (hid : id ∈ chan_ids (c.name_first F) (c.name_count F)) :
    ∃ d, map_find (w'.fiducials_dset F) id = some d ∧
      ∀ (k : Nat) (x y : Int), d.elems[k]? = some x → d.elems[k + 1]? = some y →
        y - x = max 1 (c.shot_stride F) ∧ x < y := by
  obtain ⟨hi, _⟩ := DaqWriter.run_upto_inv hwf hrun
  obtain ⟨d, hd, he⟩ := elems_at_some (hi.fiducials F hid)
  refine ⟨d, hd, ?_⟩
  intro k x y hx hy
  obtain ⟨hf, hs⟩ := wf_sched hwf F
  by_cases h0 : 0 ≤ c.shot_first F
  · obtain ⟨h1, _, _⟩ := sched_spec _ _ hf hs h0 n
    generalize (sched_parts (c.shot_first F) (c.shot_stride F) n).length = K at h1
    rw [he, h1, getElem?_map_range] at hx hy
    have hs1 : 1 ≤ max 1 (c.shot_stride F) := le_max_left _ _
    obtain ⟨_, hx⟩ := hx
    obtain ⟨_, hy⟩ := hy
    have e : ((k + 1 : Nat) : Int) * max 1 (c.shot_stride F)
        = (k : Int) * max 1 (c.shot_stride F) + max 1 (c.shot_stride F) := by
      push_cast
      ring
    rw [e] at hy
    constructor <;> omega
  · rw [he, (sched_neg _ _ (by omega) n).2] at hx
    simp at hx

/-- Witness of C3: the first four iterations on the sample configuration, the
small family and its channel 7. -/
theorem fiducials_stride_witness :
    sample_config.wf ∧
    (DaqWriter.init sample_config).run_upto sample_clock 4 = .ok sample_upto ∧
    (7 : Int) ∈ chan_ids (sample_config.name_first .small) (sample_config.name_count .small) ∧
    ∃ d, map_find (sample_upto.fiducials_dset .small) 7 = some d ∧
      ∀ (k : Nat) (x y : Int), d.elems[k]? = some x → d.elems[k + 1]? = some y →
        y - x = max 1 (sample_config.shot_stride .small) ∧ x < y :=
  ⟨by decide, rfl, by decide,
    fiducials_stride sample_config sample_clock 4 sample_upto (by decide) rfl .small 7
      (by decide)⟩

/-! ## Vlen indexing (C5) -/

/-- C5: vlen indexing.  With every dataset an append-only list and
`append_many` returning the previous length, after every write step of the run
and for every vlen channel, `blobstart` and `blobcount` have the same length,
`blobstart[k]` is the sum of the `blobcount[i]` with `i < k`, and the length of
`blob` is the sum of all `blobcount` entries. -/
theorem vlen_indexing (c : DaqWriterConfig) (clk : Family → Int → Int) (n : Nat)
    (w' : DaqWriter) (hwf : c.wf) (hrun : (DaqWriter.init c).run_upto clk n = .ok w')
    (id : Int) (hid : id ∈ chan_ids c.vlen_name_first c.vlen_name_count) :
    ∃ bl bs bc, map_find w'.m_vlen_id_to_blob_dset id = some bl ∧
      map_find w'.m_vlen_id_to_blob_start_dset id = some bs ∧
      map_find w'.m_vlen_id_to_blob_count_dset id = some bc ∧
      bs.elems.length = bc.elems.length ∧
      (∀ k : Nat, k < bc.elems.length → bs.elems[k]? = some ((bc.elems.take k).sum)) ∧
      (bl.elems.length : Int) = bc.elems.sum := by
  obtain ⟨hi, _⟩ := DaqWriter.run_upto_inv hwf hrun
  obtain ⟨_, _, h3, h4, h5⟩ := hi.vlen id hid
  obtain ⟨bl, hbl, ebl⟩ := elems_at_some h3
  obtain ⟨bs, hbs, ebs⟩ := elems_at_some h4
  obtain ⟨bc, hbc, ebc⟩ := elems_at_some h5
  obtain ⟨⟨l1, l2⟩, _, s3, _⟩ := vlen_file_spec c n
  obtain ⟨j1, j2⟩ := s3 hi.count_nonneg
  refine ⟨bl, bs, bc, hbl, hbs, hbc, ?_, ?_, ?_⟩
  · rw [ebs, ebc, l1, l2]
  · rw [ebs, ebc]
    exact j2
  · rw [ebl, ebc]
    exact j1

/-- Witness of C5: the first four iterations on the sample configuration and
its vlen channel 0. -/
theorem vlen_indexing_witness :
    sample_config.wf ∧
    (DaqWriter.init sample_config).run_upto sample_clock 4 = .ok sample_upto ∧
    (0 : Int) ∈ chan_ids sample_config.vlen_name_first sample_config.vlen_name_count ∧
    ∃ bl bs bc, map_find sample_upto.m_vlen_id_to_blob_dset 0 = some bl ∧
      map_find sample_upto.m_vlen_id_to_blob_start_dset 0 = some bs ∧
      map_find sample_upto.m_vlen_id_to_blob_count_dset 0 = some bc ∧
      bs.elems.length = bc.elems.length ∧
      (∀ k : Nat, k < bc.elems.length → bs.elems[k]? = some ((bc.elems.take k).sum)) ∧
      (bl.elems.length : Int) = bc.elems.sum :=
  ⟨by decide, rfl, by decide,
    vlen_indexing sample_config sample_clock 4 sample_upto (by decide) rfl 0 (by decide)⟩

/-! ## Length equality (C6) -/

/-- C6: length equality.  After every call of `write` in the run, and after the
completed run, the leaf datasets of a channel have the same length along axis
0: `fiducials`, `nano` and `data` for a small channel, `fiducials`, `nano`,
`blobstart` and `blobcount` for a vlen channel (the `blob` dataset is the
exception), `fiducials`, `nano` and the frames of `data` for a detector
channel. -/
theorem length_equality (c : DaqWriterConfig) (clk : Family → Int → Int) (n : Nat)
    (w' : DaqWriter) (hwf : c.wf)
    (hrun : (DaqWriter.init c).run_upto clk n = .ok w' ∨ (DaqWriter.init c).run clk = .ok w') :
    (∀ id ∈ chan_ids c.small_name_first c.small_name_count,
      ∃ f t d, map_find w'.m_small_id_to_fiducials_dset id = some f ∧
        map_find w'.m_small_id_to_nano_dset id = some t ∧
        map_find w'.m_small_id_to_data_dset id = some d ∧
        f.elems.length = t.elems.length ∧ t.elems.length = d.elems.length) ∧
    (∀ id ∈ chan_ids c.vlen_name_first c.vlen_name_count,
      ∃ f t bs bc, map_find w'.m_vlen_id_to_fiducials_dset id = some f ∧
        map_find w'.m_vlen_id_to_nano_dset id = some t ∧
        map_find w'.m_vlen_id_to_blob_start_dset id = some bs ∧
        map_find w'.m_vlen_id_to_blob_count_dset id = some bc ∧
        f.elems.length = t.elems.length ∧ t.elems.length = bs.elems.length ∧
        bs.elems.length = bc.elems.length) ∧
    (∀ id ∈ chan_ids c.detector_name_first c.detector_name_count,
      ∃ f t d, map_find w'.m_detector_id_to_fiducials_dset id = some f ∧
        map_find w'.m_detector_id_to_nano_dset id = some t ∧
        map_find w'.m_detector_id_to_data_dset id = some d ∧
        f.elems.length = t.elems.length ∧ t.elems.length = d.frames.length) := by
  have key : ∃ m, LoopInv c clk m w' := by
    rcases hrun with h | h
    · exact ⟨n, (DaqWriter.run_upto_inv hwf h).1⟩
    · exact ⟨_, (DaqWriter.run_inv hwf h).1⟩
  obtain ⟨m, hi⟩ := key
  refine ⟨?_, ?_, ?_⟩
  · intro id hid
    obtain ⟨h1, h2, h3⟩ := hi.small id hid
    obtain ⟨f, hf, ef⟩ := elems_at_some h1
    obtain ⟨t, ht, et⟩ := elems_at_some h2
    obtain ⟨d, hd, ed⟩ := elems_at_some h3
    exact ⟨f, t, d, hf, ht, hd, by simp [ef, et], by simp [et, ed]⟩
  · intro id hid
    obtain ⟨h1, h2, _, h4, h5⟩ := hi.vlen id hid
    obtain ⟨f, hf, ef⟩ := elems_at_some h1
    obtain ⟨t, ht, et⟩ := elems_at_some h2
    obtain ⟨bs, hbs, ebs⟩ := elems_at_some h4
    obtain ⟨bc, hbc, ebc⟩ := elems_at_some h5
    obtain ⟨⟨l1, l2⟩, _⟩ := vlen_file_spec c m
    exact ⟨f, t, bs, bc, hf, ht, hbs, hbc, by simp [ef, et], by simp [et, ebs, l2],
      by rw [ebs, ebc, l1, l2]⟩
  · intro id hid
    obtain ⟨h1, h2, h3⟩ := hi.detector id hid
    obtain ⟨f, hf, ef⟩ := elems_at_some h1
    obtain ⟨t, ht, et⟩ := elems_at_some h2
    obtain ⟨d, hd, ed⟩ := frames_at_some h3
    exact ⟨f, t, d, hf, ht, hd, by simp [ef, et], by simp [et, ed]⟩

/-- Witness of C6: the first four iterations on the sample configuration. -/
theorem length_equality_witness :
    sample_config.wf ∧
    ((DaqWriter.init sample_config).run_upto sample_clock 4 = .ok sample_upto ∨
      (DaqWriter.init sample_config).run sample_clock = .ok sample_upto) ∧
    ((∀ id ∈ chan_ids sample_config.small_name_first sample_config.small_name_count,
      ∃ f t d, map_find sample_upto.m_small_id_to_fiducials_dset id = some f ∧
        map_find sample_upto.m_small_id_to_nano_dset id = some t ∧
        map_find sample_upto.m_small_id_to_data_dset id = some d ∧
        f.elems.length = t.elems.length ∧ t.elems.length = d.elems.length) ∧
    (∀ id ∈ chan_ids sample_config.vlen_name_first sample_config.vlen_name_count,
      ∃ f t bs bc, map_find sample_upto.m_vlen_id_to_fiducials_dset id = some f ∧
        map_find sample_upto.m_vlen_id_to_nano_dset id = some t ∧
        map_find sample_upto.m_vlen_id_to_blob_start_dset id = some bs ∧
        map_find sample_upto.m_vlen_id_to_blob_count_dset id = some bc ∧
        f.elems.length = t.elems.length ∧ t.elems.length = bs.elems.length ∧
        bs.elems.length = bc.elems.length) ∧
    (∀ id ∈ chan_ids sample_config.detector_name_first sample_config.detector_name_count,
      ∃ f t d, map_find sample_upto.m_detector_id_to_fiducials_dset id = some f ∧
        map_find sample_upto.m_detector_id_to_nano_dset id = some t ∧
        map_find sample_upto.m_detector_id_to_data_dset id = some d ∧
        f.elems.length = t.elems.length ∧ t.elems.length = d.frames.length)) :=
  ⟨by decide, Or.inl rfl,
    length_equality sample_config sample_clock 4 sample_upto (by decide) (Or.inl rfl)⟩

/-! ## Synthetic payload (C8) -/

/-- C8: synthetic payload.  For every participating shot `k` of a channel:
the small `data[k]` equals `fiducials[k]`; every element of the vlen slice
`blob[blobstart[k] .. blobstart[k] + blobcount[k])` equals `fiducials[k]`; and
detector frame `k` consists of `rows * cols` pixels, each `fiducials[k]`
truncated to a signed 16-bit value, `((f + 2^15) mod 2^16) - 2^15`. -/
theorem synthetic_payload (c : DaqWriterConfig) (clk : Family → Int → Int) (n : Nat)
    (w' : DaqWriter) (hwf : c.wf) (hrun : (DaqWriter.init c).run_upto clk n = .ok w') :
    (∀ id ∈ chan_ids c.small_name_first c.small_name_count,
      ∃ f d, map_find w'.m_small_id_to_fiducials_dset id = some f ∧
        map_find w'.m_small_id_to_data_dset id = some d ∧
        f.elems.length = d.elems.length ∧
        ∀ (k : Nat) (x : Int), f.elems[k]? = some x → d.elems[k]? = some x) ∧
    (∀ id ∈ chan_ids c.vlen_name_first c.vlen_name_count,
      ∃ f bl bs bc, map_find w'.m_vlen_id_to_fiducials_dset id = some f ∧
        map_find w'.m_vlen_id_to_blob_dset id = some bl ∧
        map_find w'.m_vlen_id_to_blob_start_dset id = some bs ∧
        map_find w'.m_vlen_id_to_blob_count_dset id = some bc ∧
        ∀ (k : Nat) (x s cnt : Int), f.elems[k]? = some x → bs.elems[k]? = some s →
          bc.elems[k]? = some cnt →
          ∀ j : Nat, s ≤ j → (j : Int) < s + cnt → bl.elems[j]? = some x) ∧
    (∀ id ∈ chan_ids c.detector_name_first c.detector_name_count,
      ∃ f d, map_find w'.m_detector_id_to_fiducials_dset id = some f ∧
        map_find w'.m_detector_id_to_data_dset id = some d ∧
        f.elems.length = d.frames.length ∧
        ∀ (k : Nat) (x : Int), f.elems[k]? = some x →
          d.frames[k]? = some (List.replicate (c.detector_rows * c.detector_columns).toNat
            ((x + 2 ^ 15) % 2 ^ 16 - 2 ^ 15))) := by
  obtain ⟨hi, _⟩ := DaqWriter.run_upto_inv hwf hrun
  refine ⟨?_, ?_, ?_⟩
  · intro id hid
    obtain ⟨h1, _, h3⟩ := hi.small id hid
    obtain ⟨f, hf, ef⟩ := elems_at_some h1
    obtain ⟨d, hd, ed⟩ := elems_at_some h3
    refine ⟨f, d, hf, hd, by rw [ef, ed], ?_⟩
    intro k x hx
    rw [ed, ← ef]
    exact hx
  · intro id hid
    obtain ⟨h1, _, h3, h4, h5⟩ := hi.vlen id hid
    obtain ⟨f, hf, ef⟩ := elems_at_some h1
    obtain ⟨bl, hbl, ebl⟩ := elems_at_some h3
    obtain ⟨bs, hbs, ebs⟩ := elems_at_some h4
    obtain ⟨bc, hbc, ebc⟩ := elems_at_some h5
    refine ⟨f, bl, bs, bc, hf, hbl, hbs, hbc, ?_⟩
    intro k x s cnt hx hs hc j hj1 hj2
    rw [ef] at hx
    rw [ebs] at hs
    rw [ebc] at hc
    rw [ebl]
    exact (vlen_file_spec c n).2.2.2 k s cnt x hs hc hx j hj1 hj2
  · intro id hid
    obtain ⟨h1, _, h3⟩ := hi.detector id hid
    obtain ⟨f, hf, ef⟩ := elems_at_some h1
    obtain ⟨d, hd, ed⟩ := frames_at_some h3
    refine ⟨f, d, hf, hd, by simp [ef, ed], ?_⟩
    intro k x hx
    rw [ef] at hx
    rw [ed, List.getElem?_map, hx]
    rfl

/-- Witness of C8: the first four iterations on the sample configuration. -/
theorem synthetic_payload_witness :
    sample_config.wf ∧
    (DaqWriter.init sample_config).run_upto sample_clock 4 = .ok sample_upto ∧
    ((∀ id ∈ chan_ids sample_config.small_name_first sample_config.small_name_count,
      ∃ f d, map_find sample_upto.m_small_id_to_fiducials_dset id = some f ∧
        map_find sample_upto.m_small_id_to_data_dset id = some d ∧
        f.elems.length = d.elems.length ∧
        ∀ (k : Nat) (x : Int), f.elems[k]? = some x → d.elems[k]? = some x) ∧
    (∀ id ∈ chan_ids sample_config.vlen_name_first sample_config.vlen_name_count,
      ∃ f bl bs bc, map_find sample_upto.m_vlen_id_to_fiducials_dset id = some f ∧
        map_find sample_upto.m_vlen_id_to_blob_dset id = some bl ∧
        map_find sample_upto.m_vlen_id_to_blob_start_dset id = some bs ∧
        map_find sample_upto.m_vlen_id_to_blob_count_dset id = some bc ∧
        ∀ (k : Nat) (x s cnt : Int), f.elems[k]? = some x → bs.elems[k]? = some s →
          bc.elems[k]? = some cnt →
          ∀ j : Nat, s ≤ j → (j : Int) < s + cnt → bl.elems[j]? = some x) ∧
    (∀ id ∈ chan_ids sample_config.detector_name_first sample_config.detector_name_count,
      ∃ f d, map_find sample_upto.m_detector_id_to_fiducials_dset id = some f ∧
        map_find sample_upto.m_detector_id_to_data_dset id = some d ∧
        f.elems.length = d.frames.length ∧
        ∀ (k : Nat) (x : Int), f.elems[k]? = some x →
          d.frames[k]? = some
            (List.replicate (sample_config.detector_rows * sample_config.detector_columns).toNat
              ((x + 2 ^ 15) % 2 ^ 16 - 2 ^ 15)))) :=
  ⟨by decide, rfl,
    synthetic_payload sample_config sample_clock 4 sample_upto (by decide) rfl⟩

/-! ## Flush cadence (C7) -/

/-- The calls logged by the loop, fiducial by fiducial: the write, then the
flush when the fiducial is a positive multiple of the flush interval. -/
theorem loop_events_eq (fi : Int) (hfi : 0 < fi) (n : Nat) :
    loop_events fi n = (List.range n).flatMap (fun (k : Nat) =>
      Event.write (k : Int) ::
        (if 0 < k ∧ (k : Int) % fi = 0 then [Event.flush (k : Int)] else [])) := by
  induction n with
  | zero => simp [loop_events]
  | succ n ih =>
    rw [List.range_succ, List.flatMap_append, ← ih, List.flatMap_singleton]
    simp only [loop_events, List.append_assoc, List.singleton_append]
    have e : Int.tmod (n : Int) fi = (n : Int) % fi :=
      Int.tmod_eq_emod (by omega) (by omega)
    rw [e]
    have e2 : (0 < (n : Int) ∧ 0 = (n : Int) % fi) ↔ (0 < n ∧ (n : Int) % fi = 0) := by
      constructor
      · rintro ⟨a, b⟩
        exact ⟨by omega, b.symm⟩
      · rintro ⟨a, b⟩
        exact ⟨by omega, b.symm⟩
    simp only [e2]

theorem flushed_loop_events (fi : Int) (hfi : 0 < fi) (n : Nat) :
    flushed (loop_events fi n)
      = ((List.range n).filter (fun (k : Nat) => 0 < k ∧ (k : Int) % fi = 0)).map
          (fun (k : Nat) => (k : Int)) := by
  induction n with
  | zero => rfl
  | succ n ih =>
    have e : Int.tmod (n : Int) fi = (n : Int) % fi :=
      Int.tmod_eq_emod (by omega) (by omega)
    unfold flushed at ih ⊢
    rw [List.range_succ, List.filter_append, List.map_append, ← ih]
    simp only [loop_events, List.filterMap_append, e]
    by_cases h : 0 < n ∧ (n : Int) % fi = 0
    · have h' : 0 < (n : Int) ∧ 0 = (n : Int) % fi := ⟨by omega, h.2.symm⟩
      have f1 : List.filter (fun (k : Nat) => decide (0 < k ∧ (k : Int) % fi = 0)) [n] = [n] := by
        simp only [List.filter, decide_eq_true h]
      rw [if_pos h', f1]
      simp
    · have h' : ¬ (0 < (n : Int) ∧ 0 = (n : Int) % fi) := by
        rintro ⟨a, b⟩
        exact h ⟨by omega, b.symm⟩
      have f1 : List.filter (fun (k : Nat) => decide (0 < k ∧ (k : Int) % fi = 0)) [n] = [] := by
        simp only [List.filter, decide_eq_false h]
      rw [if_neg h', f1]
      simp

/-- C7: flush cadence.  For every configuration with `flush_interval > 0`:
when the loop of `run` has ended, the writer has, after creating the file and
starting SWMR, called `write` for the fiducials `0, ..., num_shots - 1` in
order and `flush_data` right after the write of exactly those fiducials `f`
with `0 < f` and `f mod flush_interval = 0`; so the flushed fiducials are
these, in increasing order, never 0.  A `run` that returns has added nothing
but the close of the file, and on a valid configuration the loop does end.
For ten shots and a flush interval of 4 the flushes happen at the fiducials 4
and 8 only. -/
theorem flush_cadence (c : DaqWriterConfig) (clk : Family → Int → Int) (w' : DaqWriter)
    (hwf : c.wf) (hfi : 0 < c.flush_interval)
    (hloop : (DaqWriter.init c).run_upto clk c.num_shots.toNat = .ok w') :
    w'.m_events
      = [Event.file_created (DaqWriter.init c).m_fname_h5, Event.swmr_started]
        ++ (List.range c.num_shots.toNat).flatMap (fun (k : Nat) =>
            Event.write (k : Int) ::
              (if 0 < k ∧ (k : Int) % c.flush_interval = 0 then [Event.flush (k : Int)]
                else [])) ∧
    flushed w'.m_events
      = ((List.range c.num_shots.toNat).filter
          (fun (k : Nat) => 0 < k ∧ (k : Int) % c.flush_interval = 0)).map
            (fun (k : Nat) => (k : Int)) ∧
    (∀ w'', (DaqWriter.init c).run clk = .ok w'' →
      w''.m_events = w'.m_events ++ [Event.file_closed] ∧
      flushed w''.m_events = flushed w'.m_events) ∧
    (c.valid → ∃ w0, (DaqWriter.init c).run_upto clk c.num_shots.toNat = .ok w0) ∧
    ((DaqWriter.init flush_config).run sample_clock = .ok flush_run ∧
      flush_config.num_shots = 10 ∧ flush_config.flush_interval = 4 ∧
      flushed flush_run.m_events = [4, 8]) := by
  obtain ⟨_, he⟩ := DaqWriter.run_upto_inv hwf hloop
  refine ⟨?_, ?_, ?_, fun hv => DaqWriter.run_upto_total clk _ hv, rfl, rfl, rfl, rfl⟩
  · rw [he, loop_events_eq _ hfi]
  · rw [he]
    have := flushed_loop_events c.flush_interval hfi c.num_shots.toNat
    unfold flushed at this ⊢
    simp only [List.filterMap_append, this]
    simp
  · intro w'' hr
    obtain ⟨w2, h2, _, h3⟩ := DaqWriter.run_ok hr
    have e : (DaqWriter.init c).m_config = c := rfl
    rw [e, hloop] at h2
    injection h2 with h2
    subst h2 h3
    refine ⟨rfl, ?_⟩
    simp [flushed]

/-- Witness of C7: the run on the sample configuration up to the end of its
loop. -/
theorem flush_cadence_witness :
    sample_config.wf ∧ 0 < sample_config.flush_interval ∧
    (DaqWriter.init sample_config).run_upto sample_clock sample_config.num_shots.toNat
      = .ok sample_loop ∧
    (sample_loop.m_events
      = [Event.file_created (DaqWriter.init sample_config).m_fname_h5, Event.swmr_started]
        ++ (List.range sample_config.num_shots.toNat).flatMap (fun (k : Nat) =>
            Event.write (k : Int) ::
              (if 0 < k ∧ (k : Int) % sample_config.flush_interval = 0 then
                [Event.flush (k : Int)] else [])) ∧
    flushed sample_loop.m_events
      = ((List.range sample_config.num_shots.toNat).filter
          (fun (k : Nat) => 0 < k ∧ (k : Int) % sample_config.flush_interval = 0)).map
            (fun (k : Nat) => (k : Int)) ∧
    (∀ w'', (DaqWriter.init sample_config).run sample_clock = .ok w'' →
      w''.m_events = sample_loop.m_events ++ [Event.file_closed] ∧
      flushed w''.m_events = flushed sample_loop.m_events) ∧
    (sample_config.valid →
      ∃ w0, (DaqWriter.init sample_config).run_upto sample_clock sample_config.num_shots.toNat
        = .ok w0) ∧
    ((DaqWriter.init flush_config).run sample_clock = .ok flush_run ∧
      flush_config.num_shots = 10 ∧ flush_config.flush_interval = 4 ∧
      flushed flush_run.m_events = [4, 8])) :=
  ⟨by decide, by decide, rfl,
    flush_cadence sample_config sample_clock sample_loop (by decide) (by decide) rfl⟩

/-! ## Marker files (C9) -/

/-- C9 (as amended): marker failures.  A failure to create the finished marker
is logged and ignored: the destructor writes one line to the standard error
stream, creates no file, and `main` still returns normally.  A failure to create
the pid file is logged and fatal: `write_pid_file` throws
`std::runtime_error("FATAL - write_pid_file")`, so the constructor yields no
writer and `main` does not return normally. -/
theorem marker_failures (c : DaqWriterConfig) (clk : Family → Int → Int)
    (env_p env_f env1 : Env) (w w1 : DaqWriter)
    (hp : env_p.can_create (DaqWriter.init c).m_fname_pid = false)
    (hc : DaqWriter.ctor c env_f = (env1, .ok w)) (hr : w.run clk = .ok w1)
    (hf : env1.can_create w1.m_fname_finished = false) :
    ((DaqWriter.write_pid_file (DaqWriter.init c) env_p).2
        = .error (.runtime_error "FATAL - write_pid_file") ∧
      (DaqWriter.write_pid_file (DaqWriter.init c) env_p).1.files = env_p.files ∧
      ("Could not create file: " ++ (DaqWriter.init c).m_fname_pid)
        ∈ (DaqWriter.write_pid_file (DaqWriter.init c) env_p).1.stderr ∧
      (∀ w', (DaqWriter.ctor c env_p).2 ≠ .ok w') ∧
      (DaqWriter.daq_main c env_p clk).2 ≠ .ok ()) ∧
    ((DaqWriter.dtor w1 env1).files = env1.files ∧
      (DaqWriter.dtor w1 env1).stderr = env1.stderr ++ ["could not create finished file\n"] ∧
      DaqWriter.daq_main c env_f clk = (DaqWriter.dtor w1 env1, .ok ())) := by
  have h1 : (DaqWriter.write_pid_file (DaqWriter.init c) env_p).2
      = .error (.runtime_error "FATAL - write_pid_file") := by
    simp [DaqWriter.write_pid_file, hp]
  have h2 : ∀ w', (DaqWriter.ctor c env_p).2 ≠ .ok w' := by
    intro w' hw
    unfold DaqWriter.ctor at hw
    by_cases hg : c.vlen_max_per_shot < 0 ∨ wrap32 (c.detector_columns * c.detector_rows) < 0
    · rw [if_pos hg] at hw
      cases hw
    · rw [if_neg hg] at hw
      cases hq : DaqWriter.write_pid_file (DaqWriter.init c) env_p with
      | mk e r =>
        rw [hq] at h1 hw
        simp only at h1
        subst h1
        cases hw
  refine ⟨⟨h1, ?_, ?_, h2, ?_⟩, ?_, ?_, ?_⟩
  · simp only [DaqWriter.write_pid_file, hp]
    cases env_p.hostname <;> rfl
  · simp only [DaqWriter.write_pid_file, hp]
    cases env_p.hostname <;> simp
  · intro hm
    unfold DaqWriter.daq_main at hm
    cases hq : DaqWriter.ctor c env_p with
    | mk e r =>
      cases r with
      | error x =>
        rw [hq] at hm
        cases hm
      | ok w' =>
        have := h2 w'
        rw [hq] at this
        exact this rfl
  · simp [DaqWriter.dtor, hf]
  · simp [DaqWriter.dtor, hf]
  · unfold DaqWriter.daq_main
    rw [hc]
    simp only [hr]

/-- Witness of C9: the sample configuration on a host where nothing can be
created, and on a host where only the pid file can. -/
theorem marker_failures_witness :
    no_files_env.can_create (DaqWriter.init sample_config).m_fname_pid = false ∧
    DaqWriter.ctor sample_config pid_only_env
      = ((DaqWriter.write_pid_file (DaqWriter.init sample_config) pid_only_env).1,
          .ok (DaqWriter.init sample_config)) ∧
    (DaqWriter.init sample_config).run sample_clock = .ok sample_run ∧
    (DaqWriter.write_pid_file (DaqWriter.init sample_config) pid_only_env).1.can_create
      sample_run.m_fname_finished = false ∧
    ((DaqWriter.write_pid_file (DaqWriter.init sample_config) no_files_env).2
        = .error (.runtime_error "FATAL - write_pid_file") ∧
      (DaqWriter.write_pid_file (DaqWriter.init sample_config) no_files_env).1.files
        = no_files_env.files ∧
      ("Could not create file: " ++ (DaqWriter.init sample_config).m_fname_pid)
        ∈ (DaqWriter.write_pid_file (DaqWriter.init sample_config) no_files_env).1.stderr ∧
      (∀ w', (DaqWriter.ctor sample_config no_files_env).2 ≠ .ok w') ∧
      (DaqWriter.daq_main sample_config no_files_env sample_clock).2 ≠ .ok ()) ∧
    ((DaqWriter.dtor sample_run
          (DaqWriter.write_pid_file (DaqWriter.init sample_config) pid_only_env).1).files
        = (DaqWriter.write_pid_file (DaqWriter.init sample_config) pid_only_env).1.files ∧
      (DaqWriter.dtor sample_run
          (DaqWriter.write_pid_file (DaqWriter.init sample_config) pid_only_env).1).stderr
        = (DaqWriter.write_pid_file (DaqWriter.init sample_config) pid_only_env).1.stderr
          ++ ["could not create finished file\n"] ∧
      DaqWriter.daq_main sample_config pid_only_env sample_clock
        = (DaqWriter.dtor sample_run
            (DaqWriter.write_pid_file (DaqWriter.init sample_config) pid_only_env).1,
          .ok ())) :=
  ⟨rfl, rfl, rfl, by decide,
    marker_failures sample_config sample_clock no_files_env pid_only_env
      (DaqWriter.write_pid_file (DaqWriter.init sample_config) pid_only_env).1
      (DaqWriter.init sample_config) sample_run rfl rfl rfl (by decide)⟩

/-- Counterexample to C9 as stated: on a host where the pid file cannot be
created the constructor does not log and continue, it throws, and `main` ends
with that error. -/
theorem marker_failures_counterexample :
    no_files_env.can_create (DaqWriter.init sample_config).m_fname_pid = false ∧
    (DaqWriter.ctor sample_config no_files_env).2
      = .error (.runtime_error "FATAL - write_pid_file") ∧
    (DaqWriter.daq_main sample_config no_files_env sample_clock).2
      = .error (.runtime_error "FATAL - write_pid_file") :=
  ⟨rfl, rfl, rfl⟩

/-! ## Channel subgroup names (C10) -/

theorem digitChar_value : ∀ d, d < 10 → (Nat.digitChar d).toNat - 48 = d := by decide

theorem dec_value_append (l : List Char) (ch : Char) :
    dec_value (l ++ [ch]) = dec_value l * 10 + (ch.toNat - 48) := by
  simp [dec_value, List.foldl_append]

/-- The digits `dec_digits` produces denote the number they were made from. -/
theorem dec_value_dec_digits (fuel n : Nat) (h : n ≤ fuel) :
    dec_value (dec_digits fuel n) = n := by
  induction fuel generalizing n with
  | zero =>
    have : n = 0 := by omega
    subst this
    rfl
  | succ fuel ih =>
    unfold dec_digits
    split_ifs with h0
    · subst h0
      rfl
    · rw [dec_value_append, ih (n / 10) (by omega), digitChar_value _ (by omega)]
      omega

theorem dec_value_zeros (k : Nat) (l : List Char) :
    dec_value (List.replicate k '0' ++ l) = dec_value l := by
  induction k with
  | zero => simp
  | succ k ih =>
    rw [List.replicate_succ, List.cons_append]
    unfold dec_value at ih ⊢
    rw [List.foldl_cons]
    exact ih

/-- A number has at most `k` decimal digits exactly when it is below `10^k`. -/
theorem dec_digits_length (fuel n k : Nat) (h : n ≤ fuel) :
    (dec_digits fuel n).length ≤ k ↔ n < 10 ^ k := by
  induction fuel generalizing n k with
  | zero =>
    have : n = 0 := by omega
    subst this
    simp [dec_digits]
  | succ fuel ih =>
    unfold dec_digits
    split_ifs with h0
    · subst h0
      simp
    · rw [List.length_append, List.length_singleton]
      cases k with
      | zero =>
        simp only [pow_zero]
        omega
      | succ k =>
        rw [Nat.add_le_add_iff_right, ih (n / 10) k (by omega), pow_succ,
          Nat.div_lt_iff_lt_mul (by norm_num)]

/-- The conversion `%5.5d` of a value that is not negative: its decimal digits
with zeros in front up to five digits. -/
theorem sprintf_d_nonneg (x : Int) (h : 0 ≤ x) :
    sprintf_d 5 5 x
      = String.mk (List.replicate (5 - (dec_digits x.natAbs x.natAbs).length) '0'
          ++ dec_digits x.natAbs x.natAbs) := by
  unfold sprintf_d
  have h1 : ¬ x < 0 := by omega
  simp only [h1, if_false]
  have h2 : 5 - (List.replicate (5 - (dec_digits x.natAbs x.natAbs).length) '0'
      ++ dec_digits x.natAbs x.natAbs).length = 0 := by
    simp only [List.length_append, List.length_replicate]
    omega
  rw [h2]
  rfl

theorem map_insert_append {V : Type} (m : IntMap V) (k : Int) (v : V)
    (h : ∀ k' ∈ map_keys m, k' < k) : map_insert m k v = m ++ [(k, v)] := by
  induction m with
  | nil => rfl
  | cons p t ih =>
    obtain ⟨k', v'⟩ := p
    have hk : k' < k := h k' (by simp [map_keys])
    unfold map_insert
    have h1 : ¬ k < k' := by omega
    have h2 : ¬ k = k' := by omega
    simp only [h1, h2, if_false]
    rw [ih (fun a ha => h a (by simp only [map_keys, List.map_cons, List.mem_cons] at ha ⊢
                                exact Or.inr ha))]
    rfl

/-- Visiting ids in ascending order, all above the keys already present,
`create_number_groups` appends one group per id. -/
theorem create_number_groups_loop_append (parent : hid_t) (ids : List Int) (m : IntMap hid_t)
    (hs : ids.Pairwise (· < ·)) (hm : ∀ k' ∈ map_keys m, ∀ id ∈ ids, k' < id) :
    DaqWriter.create_number_groups_loop parent ids m
      = m ++ ids.map (fun id => (id, H5Gcreate2 parent (sprintf_d 5 5 id))) := by
  induction ids generalizing m with
  | nil => simp [DaqWriter.create_number_groups_loop]
  | cons i rest ih =>
    simp only [DaqWriter.create_number_groups_loop]
    rw [map_insert_append m i _ (fun k' hk' => hm k' hk' i (List.mem_cons_self _ _))]
    rw [ih _ (List.pairwise_cons.1 hs).2]
    · simp
    · intro k' hk' id hid
      simp only [map_keys, List.map_append, List.map_cons, List.map_nil, List.mem_append,
        List.mem_singleton] at hk'
      rcases hk' with h | h
      · exact hm k' (by simpa [map_keys] using h) id (List.mem_cons_of_mem _ hid)
      · rw [h]
        exact (List.pairwise_cons.1 hs).1 id hid

/-- C10 (as amended): channel subgroup names.  For `name_first ≥ 0`,
`name_count ≥ 0` and `name_first + name_count < 2^31`, `create_number_groups`
creates exactly `name_count` subgroups, one per id in
`[name_first, name_first + name_count)` in ascending order, each named by the
decimal of its id padded with zeros to at least five digits: exactly five
characters for an id below 100000, more for a larger one.  Distinct ids get
distinct names; for first 7 and count 3 the names are 00007, 00008, 00009. -/
theorem channel_names (parent : hid_t) (first count : Int) (h0 : 0 ≤ first) (hc : 0 ≤ count)
    (hsum : first + count < 2 ^ 31) :
    DaqWriter.create_number_groups parent [] first count
      = (List.range count.toNat).map
          (fun (i : Nat) => (first + (i : Int),
            H5Gcreate2 parent (sprintf_d 5 5 (first + (i : Int))))) ∧
    (DaqWriter.create_number_groups parent [] first count).length = count.toNat ∧
    (∀ id : Int, 0 ≤ id → id < 100000 → (sprintf_d 5 5 id).length = 5) ∧
    (∀ id : Int, 100000 ≤ id → 5 < (sprintf_d 5 5 id).length) ∧
    (∀ a b : Int, 0 ≤ a → 0 ≤ b → sprintf_d 5 5 a = sprintf_d 5 5 b → a = b) ∧
    DaqWriter.create_number_groups parent [] 7 3
      = [(7, parent ++ ["00007"]), (8, parent ++ ["00008"]), (9, parent ++ ["00009"])] := by
  have hids : chan_ids first count
      = (List.range count.toNat).map (fun (i : Nat) => first + (i : Int)) := by
    unfold chan_ids
    have hw : wrap32 (first + count) = first + count := by
      unfold wrap32
      omega
    rw [hw]
    congr 2
    omega
  have hsorted : (chan_ids first count).Pairwise (· < ·) := by
    rw [hids, List.pairwise_map]
    exact (List.pairwise_lt_range _).imp (fun h => by omega)
  have hmain : DaqWriter.create_number_groups parent [] first count
      = (List.range count.toNat).map
          (fun (i : Nat) => (first + (i : Int),
            H5Gcreate2 parent (sprintf_d 5 5 (first + (i : Int))))) := by
    unfold DaqWriter.create_number_groups
    rw [create_number_groups_loop_append parent _ [] hsorted (by simp [map_keys]), hids]
    simp [List.map_map, Function.comp]
  refine ⟨hmain, by rw [hmain]; simp, ?_, ?_, ?_, rfl⟩
  · intro id h1 h2
    rw [sprintf_d_nonneg id h1]
    have := (dec_digits_length id.natAbs id.natAbs 5 (le_refl _)).2 (by omega)
    simp only [String.length, List.length_append, List.length_replicate]
    omega
  · intro id h1
    rw [sprintf_d_nonneg id (by omega)]
    have := (dec_digits_length id.natAbs id.natAbs 5 (le_refl _)).not.2 (by omega)
    simp only [String.length, List.length_append, List.length_replicate]
    omega
  · intro a b ha hb hab
    rw [sprintf_d_nonneg a ha, sprintf_d_nonneg b hb] at hab
    have hl := congrArg (fun s => dec_value s.data) hab
    simp only [dec_value_zeros, dec_value_dec_digits _ _ (le_refl _)] at hl
    omega

/-- Witness of C10: first id 7, three channels, below the group `small`. -/
theorem channel_names_witness :
    (0 : Int) ≤ 7 ∧ (0 : Int) ≤ 3 ∧ (7 : Int) + 3 < 2 ^ 31 ∧
    (DaqWriter.create_number_groups ["small"] [] 7 3
      = (List.range (3 : Int).toNat).map
          (fun (i : Nat) => ((7 : Int) + (i : Int),
            H5Gcreate2 ["small"] (sprintf_d 5 5 ((7 : Int) + (i : Int))))) ∧
    (DaqWriter.create_number_groups ["small"] [] 7 3).length = (3 : Int).toNat ∧
    (∀ id : Int, 0 ≤ id → id < 100000 → (sprintf_d 5 5 id).length = 5) ∧
    (∀ id : Int, 100000 ≤ id → 5 < (sprintf_d 5 5 id).length) ∧
    (∀ a b : Int, 0 ≤ a → 0 ≤ b → sprintf_d 5 5 a = sprintf_d 5 5 b → a = b) ∧
    DaqWriter.create_number_groups ["small"] [] 7 3
      = [(7, ["small"] ++ ["00007"]), (8, ["small"] ++ ["00008"]),
          (9, ["small"] ++ ["00009"])]) :=
  ⟨by decide, by decide, by decide, channel_names ["small"] 7 3 (by decide) (by decide)
    (by decide)⟩

/-- Counterexample to C10 as stated: for first id 99999 and two channels the
second subgroup is named `100000`, which has six characters, not five. -/
theorem channel_names_counterexample :
    (0 : Int) ≤ 99999 ∧ (0 : Int) ≤ 2 ∧
    DaqWriter.create_number_groups ["small"] [] 99999 2
      = [(99999, ["small", "99999"]), (100000, ["small", "100000"])] ∧
    (sprintf_d 5 5 100000).length = 6 ∧ (sprintf_d 5 5 100000).length ≠ 5 := by
  refine ⟨by decide, by decide, by rfl, by rfl, by decide⟩

/-! ## Path derivation (C12) -/

/-- The conversion `%P.Pd` of a value that is not negative: its decimal digits
with zeros in front up to `P` digits, and nothing else. -/
theorem sprintf_d_prec_nonneg (p : Nat) (x : Int) (h : 0 ≤ x) :
    sprintf_d p p x
      = String.mk (List.replicate (p - (dec_digits x.natAbs x.natAbs).length) '0'
          ++ dec_digits x.natAbs x.natAbs) := by
  unfold sprintf_d
  have h1 : ¬ x < 0 := by omega
  simp only [h1, if_false]
  have h2 : p - (List.replicate (p - (dec_digits x.natAbs x.natAbs).length) '0'
      ++ dec_digits x.natAbs x.natAbs).length = 0 := by
    simp only [List.length_append, List.length_replicate]
    omega
  rw [h2]
  rfl

/-- The conversion `%P.Pd` gives different strings for different values that
are not negative. -/
theorem sprintf_d_injective (p : Nat) (a b : Int) (ha : 0 ≤ a) (hb : 0 ≤ b)
    (hab : sprintf_d p p a = sprintf_d p p b) : a = b := by
  rw [sprintf_d_prec_nonneg p a ha, sprintf_d_prec_nonneg p b hb] at hab
  have hl := congrArg (fun s => dec_value s.data) hab
  simp only [dec_value_zeros, dec_value_dec_digits _ _ (le_refl _)] at hl
  omega

theorem string_append_left_cancel (r s t : String) (h : r ++ s = r ++ t) : s = t := by
  have := congrArg String.data h
  simp only [String.data_append] at this
  exact String.ext (List.append_cancel_left this)

theorem string_append_right_ne (s t u v : String) (h : s.data ≠ t.data)
    (hl : s.length = t.length) : s ++ u ≠ t ++ v := by
  intro he
  have := congrArg String.data he
  simp only [String.data_append] at this
  exact h (List.append_inj this hl).1

/-- A constructor that returns has made the writer `init` describes, and has
written the pid file. -/
theorem ctor_ok {c : DaqWriterConfig} {env : Env} {w : DaqWriter}
    (h : (DaqWriter.ctor c env).2 = .ok w) : w = DaqWriter.init c := by
  unfold DaqWriter.ctor at h
  by_cases hg : c.vlen_max_per_shot < 0 ∨ wrap32 (c.detector_columns * c.detector_rows) < 0
  · rw [if_pos hg] at h
    cases h
  · rw [if_neg hg] at h
    cases hq : DaqWriter.write_pid_file (DaqWriter.init c) env with
    | mk e r =>
      rw [hq] at h
      cases r with
      | error x => cases h
      | ok u =>
        simp only at h
        injection h with h
        exact h.symm

theorem paths_distinct (r b : String) :
    r ++ "/hdf5/" ++ b ++ ".h5" ≠ r ++ "/pids/" ++ b ++ ".pid" ∧
    r ++ "/hdf5/" ++ b ++ ".h5" ≠ r ++ "/logs/" ++ b ++ ".finished" ∧
    r ++ "/pids/" ++ b ++ ".pid" ≠ r ++ "/logs/" ++ b ++ ".finished" := by
  refine ⟨?_, ?_, ?_⟩ <;>
  · intro h
    simp only [String.append_assoc] at h
    have h' := string_append_left_cancel _ _ _ h
    refine string_append_right_ne _ _ _ _ ?_ ?_ h'
    · decide
    · rfl

/-- C12: path derivation.  For every group, run directory and id that is not
negative, the constructor sets the base name to the group, `-s` and the id as a
decimal padded with zeros to four digits (exactly four characters for an id
below 10000), and the three paths to `rundir/hdf5/basename.h5`,
`rundir/pids/basename.pid` and `rundir/logs/basename.finished`; the three paths
are pairwise distinct, and two writers of the same group with different ids in
`0..9999` get different base names. -/
theorem path_derivation (c c2 : DaqWriterConfig) (env env2 : Env) (w w2 : DaqWriter)
    (hid : 0 ≤ c.id) (hw : (DaqWriter.ctor c env).2 = .ok w)
    (hw2 : (DaqWriter.ctor c2 env2).2 = .ok w2) :
    (w.m_basename = c.group ++ "-s" ++ sprintf_d 4 4 c.id ∧
      sprintf_d 4 4 c.id
        = String.mk (List.replicate (4 - (dec_digits c.id.natAbs c.id.natAbs).length) '0'
            ++ dec_digits c.id.natAbs c.id.natAbs) ∧
      (c.id < 10000 → (sprintf_d 4 4 c.id).length = 4)) ∧
    (w.m_fname_h5 = c.rundir ++ "/hdf5/" ++ w.m_basename ++ ".h5" ∧
      w.m_fname_pid = c.rundir ++ "/pids/" ++ w.m_basename ++ ".pid" ∧
      w.m_fname_finished = c.rundir ++ "/logs/" ++ w.m_basename ++ ".finished") ∧
    (w.m_fname_h5 ≠ w.m_fname_pid ∧ w.m_fname_h5 ≠ w.m_fname_finished ∧
      w.m_fname_pid ≠ w.m_fname_finished) ∧
    (c.group = c2.group → 0 ≤ c2.id → c.id ≤ 9999 → c2.id ≤ 9999 → c.id ≠ c2.id →
      w.m_basename ≠ w2.m_basename) := by
  have e1 := ctor_ok hw
  have e2 := ctor_ok hw2
  subst e1 e2
  refine ⟨⟨rfl, sprintf_d_prec_nonneg 4 c.id hid, ?_⟩, ⟨rfl, rfl, rfl⟩,
    paths_distinct c.rundir _, ?_⟩
  · intro h4
    rw [sprintf_d_prec_nonneg 4 c.id hid]
    have := (dec_digits_length c.id.natAbs c.id.natAbs 4 (le_refl _)).2 (by omega)
    simp only [String.length, List.length_append, List.length_replicate]
    omega
  · intro hg h0 _ _ hne he
    have he' : c.group ++ "-s" ++ sprintf_d 4 4 c.id
        = c2.group ++ "-s" ++ sprintf_d 4 4 c2.id := he
    rw [← hg, String.append_assoc, String.append_assoc] at he'
    have h3 := string_append_left_cancel _ _ _ (string_append_left_cancel _ _ _ he')
    exact hne (sprintf_d_injective 4 _ _ hid h0 h3)

/-- Witness of C12: the sample writer (id 3) and a second writer of the same
group with id 4, on a host where every file can be created. -/
theorem path_derivation_witness :
    0 ≤ sample_config.id ∧
    (DaqWriter.ctor sample_config all_files_env).2 = .ok (DaqWriter.init sample_config) ∧
    (DaqWriter.ctor second_writer_config all_files_env).2
      = .ok (DaqWriter.init second_writer_config) ∧
    (((DaqWriter.init sample_config).m_basename
        = sample_config.group ++ "-s" ++ sprintf_d 4 4 sample_config.id ∧
      sprintf_d 4 4 sample_config.id
        = String.mk (List.replicate
            (4 - (dec_digits sample_config.id.natAbs sample_config.id.natAbs).length) '0'
            ++ dec_digits sample_config.id.natAbs sample_config.id.natAbs) ∧
      (sample_config.id < 10000 → (sprintf_d 4 4 sample_config.id).length = 4)) ∧
    ((DaqWriter.init sample_config).m_fname_h5
        = sample_config.rundir ++ "/hdf5/" ++ (DaqWriter.init sample_config).m_basename ++ ".h5" ∧
      (DaqWriter.init sample_config).m_fname_pid
        = sample_config.rundir ++ "/pids/" ++ (DaqWriter.init sample_config).m_basename
          ++ ".pid" ∧
      (DaqWriter.init sample_config).m_fname_finished
        = sample_config.rundir ++ "/logs/" ++ (DaqWriter.init sample_config).m_basename
          ++ ".finished") ∧
    ((DaqWriter.init sample_config).m_fname_h5 ≠ (DaqWriter.init sample_config).m_fname_pid ∧
      (DaqWriter.init sample_config).m_fname_h5
        ≠ (DaqWriter.init sample_config).m_fname_finished ∧
      (DaqWriter.init sample_config).m_fname_pid
        ≠ (DaqWriter.init sample_config).m_fname_finished) ∧
    (sample_config.group = second_writer_config.group → 0 ≤ second_writer_config.id →
      sample_config.id ≤ 9999 → second_writer_config.id ≤ 9999 →
      sample_config.id ≠ second_writer_config.id →
      (DaqWriter.init sample_config).m_basename
        ≠ (DaqWriter.init second_writer_config).m_basename)) :=
  ⟨by decide, rfl, rfl,
    path_derivation sample_config second_writer_config all_files_env all_files_env
      (DaqWriter.init sample_config) (DaqWriter.init second_writer_config) (by decide) rfl rfl⟩

/-! ## Chunk sizes of the layout (C11) -/

/-- A dataset made by `create_small_dsets_helper` from an empty map is a 1D
dataset with the chunk length, element type and element size the helper was
given. -/
theorem helper_chunk {name : String} {ty : H5Type} {sz : Nat} {chunk : Int}
    {gs : IntMap hid_t} {m' : IntMap DsetInfo}
    (h : DaqWriter.create_small_dsets_helper name ty sz chunk gs [] = .ok m') {k : Int}
    (hk : k ∈ map_keys gs) :
    ∃ d, map_find m' k = some d ∧ d.chunk = [chunk] ∧ d.h5_type = ty ∧
      d.type_size_bytes = sz := by
  obtain ⟨_, _, g, _, hg⟩ := (DaqWriter.create_small_dsets_helper_ok gs [] m' h k).1 hk
  exact ⟨_, hg, rfl, rfl, rfl⟩

/-- The chunk shapes of the datasets the layout builder creates, for every
configuration: every 1D dataset, the vlen `blob` included, has the chunk length
`small_chunksize` and 8-byte elements; the detector `data` dataset has the
chunk shape `(detector_chunksize, detector_rows, detector_columns)` and 2-byte
elements.  The field `vlen_chunksize` is not used. -/
theorem layout_chunks (c : DaqWriterConfig) {w1 : DaqWriter}
    (h : DaqWriter.create_all_groups_datasets_and_attributes
      (DaqWriter.create_file (DaqWriter.init c)) = .ok w1) :
    (∀ id ∈ chan_ids c.small_name_first c.small_name_count,
      ∀ m ∈ [w1.m_small_id_to_fiducials_dset, w1.m_small_id_to_nano_dset,
          w1.m_small_id_to_data_dset],
        ∃ d, map_find m id = some d ∧ d.chunk = [c.small_chunksize] ∧
          d.h5_type = .H5T_NATIVE_LONG ∧ d.type_size_bytes = 8) ∧
    (∀ id ∈ chan_ids c.vlen_name_first c.vlen_name_count,
      ∀ m ∈ [w1.m_vlen_id_to_fiducials_dset, w1.m_vlen_id_to_nano_dset,
          w1.m_vlen_id_to_blob_dset, w1.m_vlen_id_to_blob_start_dset,
          w1.m_vlen_id_to_blob_count_dset],
        ∃ d, map_find m id = some d ∧ d.chunk = [c.small_chunksize] ∧
          d.h5_type = .H5T_NATIVE_LONG ∧ d.type_size_bytes = 8) ∧
    (∀ id ∈ chan_ids c.detector_name_first c.detector_name_count,
      (∀ m ∈ [w1.m_detector_id_to_fiducials_dset, w1.m_detector_id_to_nano_dset],
        ∃ d, map_find m id = some d ∧ d.chunk = [c.small_chunksize] ∧
          d.h5_type = .H5T_NATIVE_LONG ∧ d.type_size_bytes = 8) ∧
      ∃ d, map_find w1.m_detector_id_to_data_dset id = some d ∧
        d.chunk = [c.detector_chunksize, c.detector_rows, c.detector_columns] ∧
        d.h5_type = .H5T_NATIVE_SHORT ∧ d.type_size_bytes = 2) := by
  obtain ⟨wa, wb, wc, h1, h2, h3, h4⟩ := DaqWriter.create_all_ok h
  obtain ⟨sf, vf, df, sn, vn, dn, a1, a2, a3, a4, a5, a6, ha⟩ :=
    DaqWriter.create_index_dsets_ok h1
  subst ha
  obtain ⟨sd, b1, hb⟩ := DaqWriter.create_small_data_dsets_ok h2
  subst hb
  obtain ⟨dd, c1, hc⟩ := DaqWriter.create_detector_data_dsets_ok h3
  subst hc
  obtain ⟨bl, bs, bc, d1, d2, d3, hd⟩ := DaqWriter.create_vlen_blob_and_index_dsets_ok h4
  subst hd
  have ks := (DaqWriter.create_number_groups_keys (H5Gcreate2 [] "small") c.small_name_first
    c.small_name_count).1
  have kv := (DaqWriter.create_number_groups_keys (H5Gcreate2 [] "vlen") c.vlen_name_first
    c.vlen_name_count).1
  have kd := (DaqWriter.create_number_groups_keys (H5Gcreate2 [] "detctor")
    c.detector_name_first c.detector_name_count).1
  refine ⟨?_, ?_, ?_⟩
  · intro id hid m hm
    have hk := (ks id).2 hid
    simp only [List.mem_cons, List.mem_singleton, List.not_mem_nil, or_false] at hm
    rcases hm with rfl | rfl | rfl
    · exact helper_chunk a1 hk
    · exact helper_chunk a4 hk
    · exact helper_chunk b1 hk
  · intro id hid m hm
    have hk := (kv id).2 hid
    simp only [List.mem_cons, List.mem_singleton, List.not_mem_nil, or_false] at hm
    rcases hm with rfl | rfl | rfl | rfl | rfl
    · exact helper_chunk a2 hk
    · exact helper_chunk a5 hk
    · exact helper_chunk d1 hk
    · exact helper_chunk d2 hk
    · exact helper_chunk d3 hk
  · intro id hid
    have hk := (kd id).2 hid
    constructor
    · intro m hm
      simp only [List.mem_cons, List.mem_singleton, List.not_mem_nil, or_false] at hm
      rcases hm with rfl | rfl
      · exact helper_chunk a3 hk
      · exact helper_chunk a6 hk
    · obtain ⟨_, g, _, hg⟩ :=
        (DaqWriter.create_detector_data_dsets_loop_ok _ _ _ _ c1 id).1 hk
      exact ⟨_, hg, rfl, rfl, rfl⟩

/-- C11 at a failing input: on the sample configuration, with
`small_chunksize = 2` and `vlen_chunksize = 3`, the layout builder returns and
the `blob` dataset of vlen channel 0 has the chunk length 2, which is
`small_chunksize` and not `vlen_chunksize`; the `blobstart` dataset has the
chunk length 2 and the detector `data` dataset the chunk shape `(2, 2, 3)` with
2-byte elements, as the claim says. -/
theorem blob_chunk_failing_input :
    DaqWriter.create_all_groups_datasets_and_attributes
      (DaqWriter.create_file (DaqWriter.init sample_config)) = .ok sample_layout ∧
    (sample_config.small_chunksize = 2 ∧ sample_config.vlen_chunksize = 3 ∧
      sample_config.detector_chunksize = 2 ∧ sample_config.detector_rows = 2 ∧
      sample_config.detector_columns = 3) ∧
    (∃ d, map_find sample_layout.m_vlen_id_to_blob_dset 0 = some d ∧
      d.chunk = [sample_config.small_chunksize] ∧ d.chunk ≠ [sample_config.vlen_chunksize]) ∧
    (∃ d, map_find sample_layout.m_vlen_id_to_blob_start_dset 0 = some d ∧
      d.chunk = [sample_config.small_chunksize]) ∧
    (∃ d, map_find sample_layout.m_detector_id_to_data_dset 0 = some d ∧
      d.chunk = [2, 2, 3] ∧ d.type_size_bytes = 2) :=
  ⟨rfl, by decide, ⟨_, rfl, rfl, by decide⟩, ⟨_, rfl, rfl⟩, ⟨_, rfl, rfl, rfl⟩⟩

/-! ## Arithmetic and buffer safety of the run loop (C13) -/

/-- The channel loop of `write_detector` has no division in it. -/
theorem write_detector_chans_no_div (f nano : Int) (ids : List Int) (w : DaqWriter) :
    DaqWriter.write_detector_chans f nano ids w ≠ .error .div_by_zero := by
  induction ids generalizing w with
  | nil => simp [DaqWriter.write_detector_chans]
  | cons id rest ih =>
    unfold DaqWriter.write_detector_chans
    cases hc : DaqWriter.write_detector_chan f nano w id with
    | error e =>
      simp only
      unfold DaqWriter.write_detector_chan append_to_3d_dset at hc
      split_ifs at hc
      · simp only at hc
        injection hc with hc
        subst hc
        simp
    | ok w1 =>
      simp only
      exact ih w1

/-- The method `write_detector` has no division in it. -/
theorem write_detector_no_div (w : DaqWriter) (clk : Family → Int → Int) (f : Int) :
    w.write_detector clk f ≠ .error .div_by_zero := by
  unfold DaqWriter.write_detector
  split_ifs
  · exact write_detector_chans_no_div _ _ _ _
  · simp

/-- With `0 ≤ vlen_min_per_shot < vlen_max_per_shot`, the state in which
iteration `n` calls `write_vlen` has the configuration, the buffer of length
`vlen_max_per_shot` and the count of the scheduler, a count in
`[vlen_min_per_shot, vlen_max_per_shot)`, and the call returns. -/
theorem write_vlen_safe {c : DaqWriterConfig} {clk : Family → Int → Int}
    {n : Nat} {w : DaqWriter} (hwf : c.wf) (v0 : 0 ≤ c.vlen_min_per_shot)
    (v1 : c.vlen_min_per_shot < c.vlen_max_per_shot) (hi : LoopInv c clk n w) :
    (DaqWriter.write_small { w with m_events := w.m_events ++ [.write (n : Int)] } clk
        n).m_config = c ∧
    (DaqWriter.write_small { w with m_events := w.m_events ++ [.write (n : Int)] } clk
        n).m_vlen_data.length = c.vlen_max_per_shot.toNat ∧
    (DaqWriter.write_small { w with m_events := w.m_events ++ [.write (n : Int)] } clk
        n).m_next_vlen_count = vlen_count c.vlen_min_per_shot c.vlen_max_per_shot
          (sched_parts c.vlen_shot_first c.vlen_shot_stride n).length ∧
    (0 ≤ next_count c.vlen_min_per_shot c.vlen_max_per_shot
        (vlen_count c.vlen_min_per_shot c.vlen_max_per_shot
          (sched_parts c.vlen_shot_first c.vlen_shot_stride n).length) ∧
      next_count c.vlen_min_per_shot c.vlen_max_per_shot
        (vlen_count c.vlen_min_per_shot c.vlen_max_per_shot
          (sched_parts c.vlen_shot_first c.vlen_shot_stride n).length) < c.vlen_max_per_shot) ∧
    ∃ wv, (DaqWriter.write_small { w with m_events := w.m_events ++ [.write (n : Int)] } clk
        n).write_vlen clk n = .ok wv := by
  obtain ⟨hmin, hmax⟩ := DaqWriter.wf_vlen hwf
  generalize hws :
    DaqWriter.write_small { w with m_events := w.m_events ++ [.write (n : Int)] } clk n = ws
  have hsc := DaqWriter.write_small_config
    { w with m_events := w.m_events ++ [.write (n : Int)] } clk n
  have hsv := DaqWriter.write_small_vlen_view
    { w with m_events := w.m_events ++ [.write (n : Int)] } clk n
  rw [hws] at hsc hsv
  simp only at hsc
  simp only [DaqWriter.vlen_view, Prod.mk.injEq] at hsv
  obtain ⟨⟨sv1, sv2, sv3⟩, -⟩ := hsv
  have hcfg : ws.m_config = c := by rw [hsc]; exact hi.config
  have hmax2 : c.vlen_max_per_shot < 2 ^ 31 := hmax.2
  have hL : (ws.m_vlen_data.length : Int) < 2 ^ 31 := by
    rw [sv3, hi.vlen_data]
    omega
  have hb := vlen_count_bounds c.vlen_min_per_shot c.vlen_max_per_shot v0 v1 hmax2
    ((sched_parts c.vlen_shot_first c.vlen_shot_stride n).length + 1)
  have e : next_count c.vlen_min_per_shot c.vlen_max_per_shot
      (vlen_count c.vlen_min_per_shot c.vlen_max_per_shot
        (sched_parts c.vlen_shot_first c.vlen_shot_stride n).length)
      = vlen_count c.vlen_min_per_shot c.vlen_max_per_shot
        ((sched_parts c.vlen_shot_first c.vlen_shot_stride n).length + 1) := rfl
  refine ⟨hcfg, by rw [sv3]; exact hi.vlen_data, by rw [sv2]; exact hi.next_vlen_count,
    by rw [e]; exact ⟨by omega, hb.1.2⟩, ?_⟩
  rw [DaqWriter.write_vlen_eq ws clk n (by rw [hcfg]; exact hmin) (by rw [hcfg]; exact hmax) hL]
  by_cases hp : (n : Int) = ws.m_next_vlen
  · rw [if_pos hp, hcfg, sv2, sv3, hi.next_vlen_count]
    have g1 : ¬ (c.vlen_max_per_shot = 0 ∨
        (wrap32 (vlen_count c.vlen_min_per_shot c.vlen_max_per_shot
          (sched_parts c.vlen_shot_first c.vlen_shot_stride n).length + 1) = -(2 ^ 31) ∧
          c.vlen_max_per_shot = -1)) := by omega
    rw [if_neg g1]
    have g2 : ¬ (w.m_vlen_data.length < to_unsigned (max c.vlen_min_per_shot
        (Int.tmod (wrap32 (vlen_count c.vlen_min_per_shot c.vlen_max_per_shot
          (sched_parts c.vlen_shot_first c.vlen_shot_stride n).length + 1))
          c.vlen_max_per_shot))) := by
      have e2 : max c.vlen_min_per_shot
          (Int.tmod (wrap32 (vlen_count c.vlen_min_per_shot c.vlen_max_per_shot
            (sched_parts c.vlen_shot_first c.vlen_shot_stride n).length + 1))
            c.vlen_max_per_shot)
          = vlen_count c.vlen_min_per_shot c.vlen_max_per_shot
            ((sched_parts c.vlen_shot_first c.vlen_shot_stride n).length + 1) := rfl
      rw [e2, hi.vlen_data]
      unfold to_unsigned
      omega
    rw [if_neg g2]
    exact ⟨_, rfl⟩
  · rw [if_neg hp]
    exact ⟨_, rfl⟩

/-- C13: arithmetic and buffer safety of the run loop.  For a configuration
with `0 ≤ vlen_min_per_shot < vlen_max_per_shot` and `flush_interval > 0`, in
every iteration `n` the run reaches: the payload buffer has the size
`vlen_max_per_shot` it was given at construction; the remainder in `write_vlen`
has a divisor that is not zero (and is not `INT_MIN % -1`), and `write_vlen`
returns; the remainder in `run` has a divisor that is not zero, and the
iteration does not end in a division fault; and when the vlen family
participates, the count of the shot is in `[0, vlen_max_per_shot)`, so that the
count handed to `append_many_to_1d_dset` and every index `idx` below it are
strictly below the size of the buffer. -/
theorem loop_safety (c : DaqWriterConfig) (clk : Family → Int → Int) (n : Nat) (w : DaqWriter)
    (hwf : c.wf) (hv : 0 ≤ c.vlen_min_per_shot ∧ c.vlen_min_per_shot < c.vlen_max_per_shot)
    (hf : 0 < c.flush_interval) (hrun : (DaqWriter.init c).run_upto clk n = .ok w) :
    ((DaqWriter.init c).m_vlen_data.length = c.vlen_max_per_shot.toNat ∧
      (w.at_write_vlen clk n).m_vlen_data.length = c.vlen_max_per_shot.toNat) ∧
    ((w.at_write_vlen clk n).m_config.vlen_max_per_shot ≠ 0 ∧
      ¬ (wrap32 ((w.at_write_vlen clk n).m_next_vlen_count + 1) = -(2 ^ 31) ∧
        (w.at_write_vlen clk n).m_config.vlen_max_per_shot = -1) ∧
      ∃ wv, (w.at_write_vlen clk n).write_vlen clk n = .ok wv) ∧
    ((∀ w1, w.write clk n = .ok w1 → w1.m_config.flush_interval ≠ 0) ∧
      w.run_step clk n ≠ .error .div_by_zero) ∧
    ((n : Int) = (w.at_write_vlen clk n).m_next_vlen →
      0 ≤ next_count (w.at_write_vlen clk n).m_config.vlen_min_per_shot
        (w.at_write_vlen clk n).m_config.vlen_max_per_shot
        (w.at_write_vlen clk n).m_next_vlen_count ∧
      next_count (w.at_write_vlen clk n).m_config.vlen_min_per_shot
        (w.at_write_vlen clk n).m_config.vlen_max_per_shot
        (w.at_write_vlen clk n).m_next_vlen_count < c.vlen_max_per_shot ∧
      to_unsigned (next_count (w.at_write_vlen clk n).m_config.vlen_min_per_shot
        (w.at_write_vlen clk n).m_config.vlen_max_per_shot
        (w.at_write_vlen clk n).m_next_vlen_count)
          < (w.at_write_vlen clk n).m_vlen_data.length ∧
      ∀ idx, idx < to_unsigned (next_count (w.at_write_vlen clk n).m_config.vlen_min_per_shot
          (w.at_write_vlen clk n).m_config.vlen_max_per_shot
          (w.at_write_vlen clk n).m_next_vlen_count) →
        idx < (w.at_write_vlen clk n).m_vlen_data.length) := by
  obtain ⟨hi, -⟩ := DaqWriter.run_upto_inv hwf hrun
  obtain ⟨hcfg, hlen, hcnt, ⟨hb0, hb1⟩, wv, hwv⟩ := write_vlen_safe hwf hv.1 hv.2 hi
  obtain ⟨-, hmax⟩ := DaqWriter.wf_vlen hwf
  have hmax2 : c.vlen_max_per_shot < 2 ^ 31 := hmax.2
  have hw1 : ∀ w1, w.write clk n = .ok w1 → w1.m_config.flush_interval ≠ 0 := by
    intro w1 h1
    rw [(DaqWriter.write_inv hwf hi h1).1.config]
    omega
  have hu : to_unsigned (next_count c.vlen_min_per_shot c.vlen_max_per_shot
      (vlen_count c.vlen_min_per_shot c.vlen_max_per_shot
        (sched_parts c.vlen_shot_first c.vlen_shot_stride n).length))
      < c.vlen_max_per_shot.toNat := by
    unfold to_unsigned
    omega
  unfold DaqWriter.at_write_vlen
  rw [hcfg, hlen, hcnt]
  refine ⟨⟨by simp [DaqWriter.init], rfl⟩, ⟨by omega, by omega, wv, hwv⟩, ⟨hw1, ?_⟩, ?_⟩
  · unfold DaqWriter.run_step
    cases hw : w.write clk (n : Int) with
    | error e =>
      simp only
      intro he
      injection he with he
      subst he
      unfold DaqWriter.write at hw
      rw [hwv] at hw
      exact write_detector_no_div _ _ _ hw
    | ok w1 =>
      simp only
      have h0 := hw1 w1 hw
      rw [if_neg h0]
      split_ifs <;> simp
  · intro _
    exact ⟨hb0, hb1, hu, fun idx hidx => lt_trans hidx hu⟩

/-- The theorem `loop_safety` at the fifth iteration (fiducial 4) of the run on
the sample configuration, in which the vlen family participates. -/
theorem loop_safety_witness :
    sample_config.wf ∧
    (4 : Int) = (sample_upto.at_write_vlen sample_clock 4).m_next_vlen ∧
    (((DaqWriter.init sample_config).m_vlen_data.length
        = sample_config.vlen_max_per_shot.toNat ∧
      (sample_upto.at_write_vlen sample_clock (4 : Nat)).m_vlen_data.length
        = sample_config.vlen_max_per_shot.toNat) ∧
    ((sample_upto.at_write_vlen sample_clock (4 : Nat)).m_config.vlen_max_per_shot ≠ 0 ∧
      ¬ (wrap32 ((sample_upto.at_write_vlen sample_clock (4 : Nat)).m_next_vlen_count + 1)
          = -(2 ^ 31) ∧
        (sample_upto.at_write_vlen sample_clock (4 : Nat)).m_config.vlen_max_per_shot = -1) ∧
      ∃ wv, (sample_upto.at_write_vlen sample_clock (4 : Nat)).write_vlen sample_clock (4 : Nat)
        = .ok wv) ∧
    ((∀ w1, sample_upto.write sample_clock (4 : Nat) = .ok w1 →
        w1.m_config.flush_interval ≠ 0) ∧
      sample_upto.run_step sample_clock (4 : Nat) ≠ .error .div_by_zero) ∧
    (((4 : Nat) : Int) = (sample_upto.at_write_vlen sample_clock (4 : Nat)).m_next_vlen →
      0 ≤ next_count (sample_upto.at_write_vlen sample_clock (4 : Nat)).m_config.vlen_min_per_shot
        (sample_upto.at_write_vlen sample_clock (4 : Nat)).m_config.vlen_max_per_shot
        (sample_upto.at_write_vlen sample_clock (4 : Nat)).m_next_vlen_count ∧
      next_count (sample_upto.at_write_vlen sample_clock (4 : Nat)).m_config.vlen_min_per_shot
        (sample_upto.at_write_vlen sample_clock (4 : Nat)).m_config.vlen_max_per_shot
        (sample_upto.at_write_vlen sample_clock (4 : Nat)).m_next_vlen_count
          < sample_config.vlen_max_per_shot ∧
      to_unsigned
        (next_count (sample_upto.at_write_vlen sample_clock (4 : Nat)).m_config.vlen_min_per_shot
          (sample_upto.at_write_vlen sample_clock (4 : Nat)).m_config.vlen_max_per_shot
          (sample_upto.at_write_vlen sample_clock (4 : Nat)).m_next_vlen_count)
          < (sample_upto.at_write_vlen sample_clock (4 : Nat)).m_vlen_data.length ∧
      ∀ idx, idx < to_unsigned
          (next_count
            (sample_upto.at_write_vlen sample_clock (4 : Nat)).m_config.vlen_min_per_shot
            (sample_upto.at_write_vlen sample_clock (4 : Nat)).m_config.vlen_max_per_shot
            (sample_upto.at_write_vlen sample_clock (4 : Nat)).m_next_vlen_count) →
        idx < (sample_upto.at_write_vlen sample_clock (4 : Nat)).m_vlen_data.length)) :=
  ⟨by decide, by decide,
    loop_safety sample_config sample_clock 4 sample_upto (by decide) (by decide) (by decide) rfl⟩

/-! ## The cursors of the scheduler (C14) -/

/-- The cursor of a family after `n` iterations is the one of the scheduler. -/
theorem LoopInv.next_shot {c : DaqWriterConfig} {clk : Family → Int → Int} {n : Nat}
    {w : DaqWriter} (hi : LoopInv c clk n w) (F : Family) :
    w.next_shot F = sched_cursor (c.shot_first F) (c.shot_stride F) n := by
  cases F
  · exact hi.next_small
  · exact hi.next_vlen
  · exact hi.next_detector

/-- A vlen family whose first shot is negative leaves the payload datasets
empty. -/
theorem vlen_file_neg (c : DaqWriterConfig) (h : c.vlen_shot_first < 0) (n : Nat) :
    (vlen_file c n).blob = [] ∧ (vlen_file c n).blobstart = [] ∧
      (vlen_file c n).blobcount = [] := by
  induction n with
  | zero => exact ⟨rfl, rfl, rfl⟩
  | succ n ih =>
    have hne : ¬ ((n : Int) = sched_cursor c.vlen_shot_first c.vlen_shot_stride n) := by
      rw [(sched_neg c.vlen_shot_first c.vlen_shot_stride h n).1]
      omega
    simp only [vlen_file, hne, if_false]
    exact ih

/-- While no addition has left the range of an `int`, the cursor of a family
whose first shot is not negative is above the last fiducial. -/
theorem sched_cursor_gt (first stride : Int) (hf : in_int first) (hs : in_int stride)
    (h0 : 0 ≤ first) (f : Nat) :
    (((f : Int) < sched_cursor first stride (f + 1) ∧
        sched_cursor first stride (f + 1) < 2 ^ 31) ∨
      sched_cursor first stride (f + 1) < 0) ∧
    ((f : Int) + max 1 stride < 2 ^ 31 → (f : Int) < sched_cursor first stride (f + 1)) := by
  obtain ⟨-, h2, h3⟩ := sched_spec first stride hf hs h0 (f + 1)
  have hc : ((f + 1 : Nat) : Int) = (f : Int) + 1 := by push_cast; rfl
  rw [hc] at h2 h3
  constructor
  · rcases h3 with ⟨-, a, b⟩ | ⟨a, -⟩
    · exact Or.inl ⟨by omega, b⟩
    · exact Or.inr a
  · intro hno
    rcases h3 with ⟨-, a, -⟩ | ⟨-, b⟩
    · omega
    · exfalso
      generalize (sched_parts first stride (f + 1)).length = L at h2 b
      cases L with
      | zero =>
        unfold in_int at hf
        simp only [Nat.cast_zero, zero_mul, add_zero] at b
        omega
      | succ m =>
        have h := h2 m (by omega)
        have e : ((m + 1 : Nat) : Int) * max 1 stride
            = (m : Int) * max 1 stride + max 1 stride := by
          push_cast
          ring
        rw [e] at b
        generalize (m : Int) * max 1 stride = q at h b
        omega

/-- The cursor invariant of the scheduler while the cursor stays within an
`int`.  For every family `F` the cursor starts at `F_shot_first`; an iteration
whose fiducial differs from the cursor leaves it as it is, and one whose
fiducial `f` equals it moves it by `max(1, F_shot_stride)`, when
`f + max(1, F_shot_stride) < 2^31`.  (i) If `F_shot_first ≥ 0` and
`f + max(1, F_shot_stride) < 2^31`, then after `write(f)` has run for the
fiducials `0, ..., f` the cursor is strictly greater than `f`.  (ii) If
`F_shot_first < 0`, the cursor still equals `F_shot_first` and every dataset of
every channel of `F` is empty. -/
theorem cursor_invariant (c : DaqWriterConfig) (clk : Family → Int → Int) (F : Family)
    (f : Nat) (w : DaqWriter) (hwf : c.wf)
    (hrun : (DaqWriter.init c).run_upto clk (f + 1) = .ok w) :
    (DaqWriter.init c).next_shot F = c.shot_first F ∧
    (∀ w0, (DaqWriter.init c).run_upto clk f = .ok w0 →
      ((f : Int) ≠ w0.next_shot F → w.next_shot F = w0.next_shot F) ∧
      ((f : Int) = w0.next_shot F → (f : Int) + max 1 (c.shot_stride F) < 2 ^ 31 →
        w.next_shot F = w0.next_shot F + max 1 (c.shot_stride F))) ∧
    (0 ≤ c.shot_first F → (f : Int) + max 1 (c.shot_stride F) < 2 ^ 31 →
      (f : Int) < w.next_shot F) ∧
    (c.shot_first F < 0 →
      w.next_shot F = c.shot_first F ∧
      ∀ id ∈ chan_ids (c.name_first F) (c.name_count F),
        ∀ x ∈ w.leaf_lengths F id, x = some 0) := by
  obtain ⟨hi, -⟩ := DaqWriter.run_upto_inv hwf hrun
  obtain ⟨hf, hs⟩ := wf_sched hwf F
  refine ⟨by cases F <;> rfl, ?_, ?_, ?_⟩
  · intro w0 h0
    obtain ⟨hi0, -⟩ := DaqWriter.run_upto_inv hwf h0
    have hstep : w.next_shot F = if (f : Int) = w0.next_shot F then
          wrap32 (w0.next_shot F + max 1 (c.shot_stride F))
        else w0.next_shot F := by
      rw [hi.next_shot F, hi0.next_shot F]
      rfl
    constructor
    · intro hne
      rw [hstep, if_neg hne]
    · intro heq hno
      rw [hstep, if_pos heq, ← heq]
      have hs1 : 1 ≤ max 1 (c.shot_stride F) := le_max_left _ _
      generalize max 1 (c.shot_stride F) = s at hno hs1
      unfold wrap32
      omega
  · intro h0 hno
    rw [hi.next_shot F]
    exact (sched_cursor_gt _ _ hf hs h0 f).2 hno
  · intro hneg
    refine ⟨by rw [hi.next_shot F]; exact (sched_neg _ _ hneg _).1, ?_⟩
    intro id hid x hx
    cases F
    · obtain ⟨a1, a2, a3⟩ := hi.small id hid
      have hp := (sched_neg c.small_shot_first c.small_shot_stride hneg (f + 1)).2
      rw [hp] at a1 a2 a3
      simp only [DaqWriter.leaf_lengths, a1, a2, a3, List.map_nil, Option.map_some',
        List.length_nil, List.mem_cons, List.mem_singleton, List.not_mem_nil, or_false,
        or_self] at hx
      exact hx
    · obtain ⟨a1, a2, a3, a4, a5⟩ := hi.vlen id hid
      have hp := (sched_neg c.vlen_shot_first c.vlen_shot_stride hneg (f + 1)).2
      obtain ⟨b1, b2, b3⟩ := vlen_file_neg c hneg (f + 1)
      rw [hp] at a1 a2
      rw [b1] at a3
      rw [b2] at a4
      rw [b3] at a5
      simp only [DaqWriter.leaf_lengths, a1, a2, a3, a4, a5, List.map_nil, Option.map_some',
        List.length_nil, List.mem_cons, List.mem_singleton, List.not_mem_nil, or_false,
        or_self] at hx
      exact hx
    · obtain ⟨a1, a2, a3⟩ := hi.detector id hid
      have hp := (sched_neg c.detector_shot_first c.detector_shot_stride hneg (f + 1)).2
      rw [hp] at a1 a2 a3
      simp only [DaqWriter.leaf_lengths, a1, a2, a3, List.map_nil, Option.map_some',
        List.length_nil, List.mem_cons, List.mem_singleton, List.not_mem_nil, or_false,
        or_self] at hx
      exact hx

/-- The theorem `cursor_invariant` after the fiducials `0, ..., 3` of the run
on `negative_first_config`: the cursor of the vlen family, which starts at shot
0 and has the stride 1, is 4, and the small family, which starts at shot -1,
has its cursor at -1 and nothing in the datasets of its channel 7. -/
theorem cursor_invariant_sample :
    negative_first_config.wf ∧
    (DaqWriter.init negative_first_config).run_upto sample_clock (3 + 1)
      = .ok negative_first_upto ∧
    negative_first_upto.next_shot .vlen = 4 ∧
    ((3 : Nat) : Int) < negative_first_upto.next_shot .vlen ∧
    negative_first_upto.next_shot .small = negative_first_config.shot_first .small ∧
    ∀ x ∈ negative_first_upto.leaf_lengths .small 7, x = some 0 :=
  ⟨by decide, rfl, by decide,
    (cursor_invariant negative_first_config sample_clock .vlen 3 negative_first_upto
      (by decide) rfl).2.2.1 (by decide) (by decide),
    ((cursor_invariant negative_first_config sample_clock .small 3 negative_first_upto
      (by decide) rfl).2.2.2 (by decide)).1,
    ((cursor_invariant negative_first_config sample_clock .small 3 negative_first_upto
      (by decide) rfl).2.2.2 (by decide)).2 7 (by decide)⟩

/-- C14 at a failing input: cursor invariant of the scheduler.  With
`small_shot_first = 5` and `small_shot_stride = 2^31 - 1` the cursor of the
small family is 5 after the fiducials `0, ..., 4`; the iteration for fiducial 5
returns, the small family participates in it, and the addition
`m_next_small += max(1, small_shot_stride)` leaves the range of an `int`:
`5 + (2^31 - 1) ≥ 2^31`.  In two's complement the cursor is then `-2147483644`,
which is not strictly greater than the fiducial 5. -/
theorem cursor_overflow_failing_input :
    (large_stride_config.wf ∧ large_stride_config.shot_first .small = 5 ∧
      large_stride_config.shot_stride .small = 2147483647) ∧
    ((DaqWriter.init large_stride_config).run_upto sample_clock 5 = .ok large_stride_before ∧
      large_stride_before.next_shot .small = 5) ∧
    (DaqWriter.init large_stride_config).run_upto sample_clock (5 + 1)
      = .ok large_stride_upto ∧
    (2 ^ 31 ≤ large_stride_before.next_shot .small
        + max 1 (large_stride_config.shot_stride .small) ∧
      large_stride_upto.next_shot .small
        = wrap32 (large_stride_before.next_shot .small
            + max 1 (large_stride_config.shot_stride .small)) ∧
      large_stride_upto.next_shot .small = -2147483644) ∧
    ¬ ((5 : Int) < large_stride_upto.next_shot .small) :=
  ⟨⟨by decide, rfl, rfl⟩, ⟨rfl, by decide⟩, rfl, ⟨by decide, by decide, by decide⟩, by decide⟩

end DaqWriterModel
